import Mathlib

/-! # Inventory backend (productos / areas / usuarios / movimientos)

A shallow embedding of the Express controllers under `backend/src/controllers`
and of the middleware `backend/src/middleware/errorHandler.js` and
`backend/src/middleware/auth.js`.

Modelling decisions, all of them visible in the definitions below:

* JavaScript values are the primitives (`undefined`, `null`, booleans, numbers,
  strings) and arrays of primitives.  Numbers are integers plus `NaN`;
  nested objects are outside the value type.  Numbers with a fraction are
  values of `ValorDecimal`, on which the alert filters are embedded a second
  time (`getAlertasDecimal`), in agreement with the first embedding.
* A document, a request body and the request user (`req.user`) are records:
  finite lists of key/value pairs read with `Doc.campo` (a missing key reads
  as `undefined`, as a property access does).
* The document store is a record of four collections, each a list of
  `(id, data)` pairs in the order a collection scan returns them.  `add`
  appends a document under the id the store hands out; that id and the
  server timestamp are arguments of the handlers that write.
* A handler takes the store and the request and returns the store after the
  request together with either the `AppError` it threw or its response.
* The store's writes succeed, except where a handler is given the error with
  which one of its writes is rejected (`descontarStockCon`).
* A timestamp is its number of milliseconds, and a calendar day is its number
  of days since 1970-01-01 in UTC; the text of a date is not modelled.
* An object that a handler uses as a map is the list of its own properties in
  insertion order; properties inherited from `Object.prototype` and the
  numeric order of index-like keys are outside the model.
-/

namespace Inventario

/-! ## Values -/

/-- JavaScript primitive values; numbers are integers or `NaN`. -/
inductive Prim where
  | undefined
  | null
  | bool (b : Bool)
  | num (n : Int)
  | nan
  | str (s : String)
  deriving DecidableEq, Repr

/-- Values stored in documents and carried by requests. -/
inductive JsVal where
  | prim (p : Prim)
  | arr (xs : List Prim)
  deriving DecidableEq, Repr

/-- The value `undefined`. -/
def JsVal.indefinido : JsVal := .prim .undefined

/-- The value `null`. -/
def JsVal.nulo : JsVal := .prim .null

/-- A string value. -/
def JsVal.texto (s : String) : JsVal := .prim (.str s)

/-- An integer number value. -/
def JsVal.numero (n : Int) : JsVal := .prim (.num n)

/-- A boolean value. -/
def JsVal.booleano (b : Bool) : JsVal := .prim (.bool b)

/-- Result of a numeric conversion: `none` stands for `NaN`. -/
abbrev Numero := Option Int

/-- Back from a numeric result to a value. -/
def Numero.aValor : Numero → JsVal
  | some n => .numero n
  | none => .prim .nan

/-- `v === undefined || v === null` for a primitive. -/
def Prim.nullish : Prim → Bool
  | .undefined => true
  | .null => true
  | _ => false

/-- `v == null`, the test behind `??`. -/
def JsVal.nullish : JsVal → Bool
  | .prim p => p.nullish
  | .arr _ => false

/-- Nullish coalescing `a ?? b`. -/
def JsVal.coalesce (a b : JsVal) : JsVal :=
  if a.nullish then b else a

/-- Truthiness of a primitive. -/
def Prim.truthy : Prim → Bool
  | .undefined => false
  | .null => false
  | .bool b => b
  | .num n => n != 0
  | .nan => false
  | .str s => s != ""

/-- Truthiness (`ToBoolean`); every array is truthy. -/
def JsVal.truthy : JsVal → Bool
  | .prim p => p.truthy
  | .arr _ => true

/-- Logical or `a || b`, which returns one of its operands. -/
def JsVal.oLogico (a b : JsVal) : JsVal :=
  if a.truthy then a else b

/-- Value of a non-empty run of decimal digits. -/
def valorDigitos : List Char → Option Nat
  | [] => none
  | c :: cs =>
    (c :: cs).foldl
      (fun acc d => acc.bind fun n => if d.isDigit then some (10 * n + (d.toNat - 48)) else none)
      (some 0)

/-- Strip leading and trailing white space. -/
def quitarBlancos (cs : List Char) : List Char :=
  ((cs.dropWhile Char.isWhitespace).reverse.dropWhile Char.isWhitespace).reverse

/-- `Number(s)` for a string: the empty or blank string is 0, a signed decimal
integer literal is its value, anything else is `NaN` (literals with a
fraction, an exponent or a radix have no integer value). -/
def strToNumber (s : String) : Numero :=
  match quitarBlancos s.toList with
  | [] => some 0
  | '-' :: r => (valorDigitos r).map fun n => -(n : Int)
  | '+' :: r => (valorDigitos r).map fun n => (n : Int)
  | cs => (valorDigitos cs).map fun n => (n : Int)

/-- `Number(p)` for a primitive. -/
def Prim.toNumber : Prim → Numero
  | .undefined => none
  | .null => some 0
  | .bool b => some (if b then 1 else 0)
  | .num n => some n
  | .nan => none
  | .str s => strToNumber s

/-- `Number(v)`; an array converts through its string form. -/
def JsVal.toNumber : JsVal → Numero
  | .prim p => p.toNumber
  | .arr [] => some 0
  | .arr [.undefined] => some 0
  | .arr [.null] => some 0
  | .arr [.num n] => some n
  | .arr [.str s] => strToNumber s
  | .arr _ => none

/-- `String(p)` for a primitive. -/
def Prim.toStr : Prim → String
  | .undefined => "undefined"
  | .null => "null"
  | .bool b => if b then "true" else "false"
  | .num n => toString n
  | .nan => "NaN"
  | .str s => s

/-- `String(v)`, as a template literal renders a value. -/
def JsVal.toStr : JsVal → String
  | .prim p => p.toStr
  | .arr xs => ",".intercalate (xs.map fun p => if p.nullish then "" else p.toStr)

/-- The comparison `SameValueZero` used by `Array.prototype.includes`. -/
def sameValueZero (a b : Prim) : Bool := decide (a = b)

/-- Strict equality `a === b`: `NaN` differs from itself and two arrays read
from different documents are different objects. -/
def strictEq : JsVal → JsVal → Bool
  | .prim .nan, _ => false
  | .prim a, .prim b => decide (a = b)
  | _, _ => false

/-- `Array.isArray(v)`. -/
def JsVal.isArray : JsVal → Bool
  | .arr _ => true
  | .prim _ => false

/-- The call `a.includes(v)` on an array `a`; an array-valued `v` is never found
(it is another object). The handlers call it only behind `Array.isArray`. -/
def JsVal.includes : JsVal → JsVal → Bool
  | .arr xs, .prim p => xs.any fun x => sameValueZero x p
  | _, _ => false

/-! ## Records -/

/-- A record: the data of a stored document, a request body, or `req.user`. -/
structure Doc where
  campos : List (String × JsVal)
  deriving DecidableEq, Repr

/-- Property read `d.k`; a missing key reads as `undefined`. -/
def Doc.campo (d : Doc) (k : String) : JsVal :=
  match d.campos.lookup k with
  | some v => v
  | none => .indefinido

/-- The test `k in d`. -/
def Doc.tiene (d : Doc) (k : String) : Bool :=
  (d.campos.lookup k).isSome

/-- Assignment of one key in a list of pairs: replaces the value in place or
appends the pair. -/
def ponerEn : List (String × JsVal) → String → JsVal → List (String × JsVal)
  | [], k, v => [(k, v)]
  | (k0, v0) :: r, k, v => if k0 = k then (k0, v) :: r else (k0, v0) :: ponerEn r k v

/-- Assignment `d.k = v` on a copy of the record. -/
def Doc.poner (d : Doc) (k : String) (v : JsVal) : Doc :=
  ⟨ponerEn d.campos k v⟩

/-- Object spread: `base` followed by the pairs of `extra`, later keys winning. -/
def Doc.mezclar (base extra : Doc) : Doc :=
  extra.campos.foldl (fun acc kv => acc.poner kv.1 kv.2) base

/-! ## The document store -/

/-- A collection: documents as `(id, data)` in scan order. -/
abbrev Coleccion := List (String × Doc)

/-- The four collections of the store. -/
structure Db where
  productos : Coleccion
  areas : Coleccion
  usuarios : Coleccion
  movimientos : Coleccion
  deriving DecidableEq, Repr

/-- Read `collection.doc(id).get()`: `none` when `doc.exists` is false. -/
def Coleccion.buscar (c : Coleccion) (id : String) : Option Doc :=
  c.lookup id

/-- Write `collection.add(data)` under the id handed out by the store. -/
def Coleccion.agregar (c : Coleccion) (nid : String) (data : Doc) : Coleccion :=
  c ++ [(nid, data)]

/-- Write `docRef.update(patch)`: the named fields are set, the others stay. -/
def Coleccion.actualizar (c : Coleccion) (id : String) (patch : Doc) : Coleccion :=
  c.map fun e => if e.1 = id then (e.1, e.2.mezclar patch) else e

/-- Write `docRef.delete()`. -/
def Coleccion.eliminar (c : Coleccion) (id : String) : Coleccion :=
  c.filter fun e => e.1 != id

/-- Query `collection.where(k, '==', v)`: the documents that have the field
`k` with the value `v`. -/
def Coleccion.donde (c : Coleccion) (k : String) (v : JsVal) : Coleccion :=
  c.filter fun e => e.2.campos.lookup k == some v

/-- The mapping `doc => ({ id: doc.id, ...doc.data() })` of a snapshot. -/
def conId (e : String × Doc) : Doc :=
  (Doc.mk [("id", .texto e.1)]).mezclar e.2

/-- Rank of a primitive's type in the store's ordering of values. -/
def Prim.rango : Prim → Nat
  | .undefined => 0
  | .null => 0
  | .bool _ => 1
  | .nan => 2
  | .num _ => 2
  | .str _ => 3

/-- The store's ordering of primitive values (by type, then by value; `NaN`
sorts before every number). -/
def Prim.menorIgual : Prim → Prim → Bool
  | .bool x, .bool y => !x || y
  | .nan, .nan => true
  | .nan, .num _ => true
  | .num _, .nan => false
  | .num x, .num y => decide (x ≤ y)
  | .str x, .str y => !decide (y < x)
  | a, b => decide (a.rango ≤ b.rango)

/-- Lexicographic extension of the ordering to arrays. -/
def menorIgualLista : List Prim → List Prim → Bool
  | [], _ => true
  | _ :: _, [] => false
  | a :: r, b :: s =>
    if a.menorIgual b && b.menorIgual a then menorIgualLista r s else a.menorIgual b

/-- The store's ordering of values; arrays sort after every primitive. -/
def JsVal.menorIgual : JsVal → JsVal → Bool
  | .prim a, .prim b => a.menorIgual b
  | .prim _, .arr _ => true
  | .arr _, .prim _ => false
  | .arr a, .arr b => menorIgualLista a b

/-- Precedence of document `a` over `b` under `orderBy(k, 'desc')`: larger
value first, equal values by descending document id. -/
def antesDesc (k : String) (a b : String × Doc) : Prop :=
  (if (a.2.campo k).menorIgual (b.2.campo k) && (b.2.campo k).menorIgual (a.2.campo k)
    then !decide (a.1 < b.1)
    else (b.2.campo k).menorIgual (a.2.campo k)) = true

instance (k : String) : DecidableRel (antesDesc k) :=
  fun _ _ => by unfold antesDesc; exact inferInstance

/-- Query `collection.orderBy(k, 'desc')`: only documents that have the field,
in descending order. -/
def Coleccion.orderByDesc (c : Coleccion) (k : String) : Coleccion :=
  (c.filter fun e => e.2.tiene k).insertionSort (antesDesc k)

/-! ## Request helpers -/

/-- The expression `parseInt(q) || d` for a query parameter that is absent or
unparsable (`none`) or parses to the integer `n`. -/
def parseIntOr (q : Option Int) (d : Int) : Int :=
  match q with
  | some n => if n = 0 then d else n
  | none => d

/-- `xs.slice(a, b)` with JavaScript's treatment of negative and overlong
indices. -/
def jsSlice {α : Type} (xs : List α) (a b : Int) : List α :=
  let len : Int := xs.length
  let k := if a < 0 then max (len + a) 0 else min a len
  let fin := if b < 0 then max (len + b) 0 else min b len
  (xs.take fin.toNat).drop k.toNat

/-- `Math.ceil(t / l)` on integers, `l` non-zero. -/
def ceilDiv (t l : Int) : Int := -((-t).fdiv l)

/-- The guard `user.rol !== 'admin' && Array.isArray(user.areasPermitidas)`
that precedes every area filter. -/
def debeFiltrar (user : Doc) : Bool :=
  !strictEq (user.campo "rol") (.texto "admin") && (user.campo "areasPermitidas").isArray

/-! ## Stock resolution -/

/-- The expression `p.cantidad ?? p.Stock ?? p.stock ?? d`. -/
def resolveStockOr (p : Doc) (d : JsVal) : JsVal :=
  (((p.campo "cantidad").coalesce (p.campo "Stock")).coalesce (p.campo "stock")).coalesce d

/-- Stock resolution of the read paths:
`p.cantidad ?? p.Stock ?? p.stock ?? null`
(dashboard.controller.js:47, productos.controller.js:303). -/
def resolveStock (p : Doc) : JsVal :=
  resolveStockOr p .nulo

/-- Stock resolution as the specification words it: the value under the first
of `cantidad`, `Stock`, `stock` that is present as a key, else `null`. -/
def resolveStockSpec (p : Doc) : JsVal :=
  if p.tiene "cantidad" then p.campo "cantidad"
  else if p.tiene "Stock" then p.campo "Stock"
  else if p.tiene "stock" then p.campo "stock"
  else .nulo

/-! ## Listing handlers -/

/-- Body `{ success: true, count, data }` of a listing, sent with status 200. -/
structure Listado where
  status : Nat
  success : Bool
  count : Nat
  data : List Doc
  deriving DecidableEq, Repr

namespace ProductosController

/-- The area filter of `getAll` (productos.controller.js:21-26); the same text
filters products in `getStockBajo` and in the dashboard and report handlers. -/
def filtroAreas (user : Doc) (productos : List Doc) : List Doc :=
  if debeFiltrar user then
    productos.filter fun producto => (user.campo "areasPermitidas").includes (producto.campo "area")
  else productos

/-- Handler `exports.getAll` (productos.controller.js:9-33). -/
def getAll (db : Db) (user : Doc) : Listado :=
  let productos := db.productos.map conId
  let productos := filtroAreas user productos
  { status := 200, success := true, count := productos.length, data := productos }

end ProductosController

namespace AreasController

/-- The area filter of `getAll` (areas.controller.js:20-26); the same text
filters areas in the dashboard and report handlers. -/
def filtroAreas (user : Doc) (areas : List Doc) : List Doc :=
  if debeFiltrar user then
    areas.filter fun area =>
      (user.campo "areasPermitidas").includes (area.campo "id") ||
      (user.campo "areasPermitidas").includes (area.campo "name")
  else areas

/-- Handler `exports.getAll` (areas.controller.js:9-33). -/
def getAll (db : Db) (user : Doc) : Listado :=
  let areas := db.areas.map conId
  let areas := filtroAreas user areas
  { status := 200, success := true, count := areas.length, data := areas }

end AreasController

namespace MovimientosController

/-- Body of the paginated listing, sent with status 200. -/
structure Pagina where
  status : Nat
  success : Bool
  count : Nat
  total : Nat
  pagina : Int
  totalPaginas : Int
  data : List Doc
  deriving DecidableEq, Repr

/-- The mapping of a movement snapshot: `{ id, ...data, fecha: ... }`; a
timestamp and the date it converts to are the same value here. -/
def conIdFecha (e : String × Doc) : Doc :=
  (conId e).poner "fecha" ((e.2.campo "fecha").oLogico (e.2.campo "fecha"))

/-- The area filter of `getAll` (movimientos.controller.js:30-35). -/
def filtroAreas (user : Doc) (movimientos : List Doc) : List Doc :=
  if debeFiltrar user then
    movimientos.filter fun mov => (user.campo "areasPermitidas").includes (mov.campo "area")
  else movimientos

/-- Handler `exports.getAll` (movimientos.controller.js:9-49); `limiteQ` and
`paginaQ` are the parsed query parameters. -/
def getAll (db : Db) (user : Doc) (limiteQ paginaQ : Option Int) : Pagina :=
  let limite := parseIntOr limiteQ 100
  let pagina := parseIntOr paginaQ 1
  let offset := (pagina - 1) * limite
  let movimientos := (db.movimientos.orderByDesc "fecha").map conIdFecha
  let movimientos := filtroAreas user movimientos
  let total := movimientos.length
  let movimientos := jsSlice movimientos offset (offset + limite)
  { status := 200, success := true, count := movimientos.length, total := total,
    pagina := pagina, totalPaginas := ceilDiv total limite, data := movimientos }

end MovimientosController

namespace DashboardController

/-- Body `data` of `getKPIs`, sent with status 200; `totalUsuarios` is `null`
(`none`) for a non-admin and `stockTotal` may be `NaN` (`none`). -/
structure KPIs where
  totalProductos : Nat
  totalAreas : Nat
  totalUsuarios : Option Nat
  stockTotal : Numero
  productosStockBajo : Nat
  productosSinStock : Nat
  deriving DecidableEq, Repr

/-- The reducer `(sum, p) => sum + Number(p.cantidad ?? p.Stock ?? p.stock ?? 0)`. -/
def sumarStock (sum : Numero) (p : Doc) : Numero :=
  sum.bind fun s => ((resolveStockOr p (.numero 0)).toNumber).map fun n => s + n

/-- The predicate `stock !== null && Number(stock) > 0 && Number(stock) <= 5`. -/
def esStockBajo (p : Doc) : Bool :=
  let stock := resolveStock p
  stock != .nulo &&
    (match stock.toNumber with
     | some n => decide (0 < n) && decide (n ≤ 5)
     | none => false)

/-- The predicate `stock !== null && Number(stock) === 0`. -/
def esSinStock (p : Doc) : Bool :=
  let stock := resolveStock p
  stock != .nulo &&
    (match stock.toNumber with
     | some n => decide (n = 0)
     | none => false)

/-- Handler `exports.getKPIs` (dashboard.controller.js:7-67). -/
def getKPIs (db : Db) (user : Doc) : KPIs :=
  let productos := db.productos.map conId
  let areas := db.areas.map conId
  let totalUsuarios := db.usuarios.length
  let areas := AreasController.filtroAreas user areas
  let productos := ProductosController.filtroAreas user productos
  { totalProductos := productos.length,
    totalAreas := areas.length,
    totalUsuarios := if strictEq (user.campo "rol") (.texto "admin") then some totalUsuarios else none,
    stockTotal := productos.foldl sumarStock (some 0),
    productosStockBajo := (productos.filter esStockBajo).length,
    productosSinStock := (productos.filter esSinStock).length }

end DashboardController

/-! ## Errors -/

/-- A thrown error object as `errorHandler` inspects it: `array` is the result
of `err.array()` when `err.array` is a function, `code` a string code when the
error has one. -/
structure ErrorJs where
  message : String
  array : Option (List Doc)
  code : Option String
  status : JsVal
  statusCode : JsVal
  stack : String
  deriving DecidableEq, Repr

/-- The test `s.startsWith(p)` on character lists. -/
def empiezaCon : List Char → List Char → Bool
  | _, [] => true
  | [], _ :: _ => false
  | c :: s, d :: p => c == d && empiezaCon s p

/-- The test `s.startsWith(p)`. -/
def startsWith (s p : String) : Bool :=
  empiezaCon s.toList p.toList

/-- The class `AppError` (errorHandler.js:110-119): `new AppError(message,
statusCode)` sets `statusCode` to the number and `status` to the string
`'fail'` or `'error'`; the captured stack trace is left empty. -/
def AppError (message : String) (statusCode : Int) : ErrorJs :=
  { message := message,
    array := none,
    code := none,
    status := .texto (if startsWith (toString statusCode) "4" then "fail" else "error"),
    statusCode := .numero statusCode,
    stack := "" }

/-- What `errorHandler` sends: the argument it gives to `res.status` and the
JSON body; `errors`, `code` and `stack` are the optional keys of the body. -/
structure RespuestaError where
  status : JsVal
  success : Bool
  message : String
  errors : Option (List Doc)
  code : Option String
  stack : Option String
  deriving DecidableEq, Repr

/-- The table of `getFirebaseAuthErrorMessage` (errorHandler.js:87-98). -/
def getFirebaseAuthErrorMessage (code : String) : String :=
  if code = "auth/id-token-expired" then "La sesión ha expirado, por favor inicia sesión nuevamente"
  else if code = "auth/id-token-revoked" then "La sesión ha sido revocada"
  else if code = "auth/invalid-id-token" then "Token de autenticación inválido"
  else if code = "auth/user-disabled" then "Esta cuenta ha sido deshabilitada"
  else if code = "auth/user-not-found" then "Usuario no encontrado"
  else if code = "auth/invalid-email" then "Email inválido"
  else if code = "auth/email-already-exists" then "El email ya está registrado"
  else "Error de autenticación"

/-- The middleware `errorHandler` (errorHandler.js:6-72); `nodeEnv` is
`process.env.NODE_ENV`. -/
def errorHandler (err : ErrorJs) (nodeEnv : Option String) : RespuestaError :=
  match err.array with
  | some errores =>
    { status := .numero 400, success := false, message := "Error de validación",
      errors := some errores, code := none, stack := none }
  | none =>
    let codigo := err.code.getD ""
    if codigo != "" && startsWith codigo "auth/" then
      { status := .numero 401, success := false, message := getFirebaseAuthErrorMessage codigo,
        errors := none, code := err.code, stack := none }
    else if codigo != "" && (startsWith codigo "firestore/" || codigo == "permission-denied") then
      { status := .numero 403, success := false,
        message := "No tienes permiso para realizar esta acción",
        errors := none, code := err.code, stack := none }
    else if err.message = "No permitido por CORS" then
      { status := .numero 403, success := false, message := "Origen no permitido",
        errors := none, code := none, stack := none }
    else if err.status.truthy then
      { status := err.status, success := false, message := err.message,
        errors := none, code := none, stack := none }
    else
      { status := err.statusCode.oLogico (.numero 500),
        success := false,
        message := if nodeEnv = some "production" then "Error interno del servidor" else err.message,
        errors := none, code := none,
        stack := if nodeEnv = some "production" then none else some err.stack }

/-! ## Writing handlers -/

/-- Body `{ success: true, message, data? }` of a write, with its status. -/
structure Respuesta where
  status : Nat
  success : Bool
  message : String
  data : Option Doc
  deriving DecidableEq, Repr

/-- Outcome of a handler: the store after the request and either the error the
handler threw or the response it sent. -/
structure Resultado where
  db : Db
  salida : Except ErrorJs Respuesta

/-- The access check shared by the product handlers
(productos.controller.js:75-79, 144-148, 179-183, 225-229): true when the
handler throws the 403. -/
def sinAcceso (user producto : Doc) : Bool :=
  debeFiltrar user && !(user.campo "areasPermitidas").includes (producto.campo "area")

/-- The expression `p.nombre || p.Nombre || 'Sin nombre'`. -/
def nombreDe (p : Doc) : JsVal :=
  ((p.campo "nombre").oLogico (p.campo "Nombre")).oLogico (.texto "Sin nombre")

/-- The field that `descontarStock` writes (productos.controller.js:241-243). -/
def campoStock (producto : Doc) : String :=
  if producto.tiene "cantidad" then "cantidad"
  else if producto.tiene "Stock" then "Stock"
  else if producto.tiene "stock" then "stock"
  else "cantidad"

/-- The comparison `a < n` of a non-array-of-strings value with a number:
false when `a` converts to `NaN`. -/
def menorQueNum (a : JsVal) (n : Int) : Bool :=
  match a.toNumber with
  | some x => decide (x < n)
  | none => false

/-- The subtraction `a - n`. -/
def restarNum (a : JsVal) (n : Int) : JsVal :=
  Numero.aValor (a.toNumber.map fun x => x - n)

namespace ProductosController

/-- Handler `exports.create` (productos.controller.js:90-119). `nid` and `mid`
are the ids the store gives to the product and to the movement, `ahora` the
server timestamp. -/
def create (db : Db) (user body : Doc) (nid mid : String) (ahora : JsVal) : Resultado :=
  let productoData := (body.poner "createdAt" ahora).poner "createdBy" (user.campo "email")
  let db1 := { db with productos := db.productos.agregar nid productoData }
  let movimiento : Doc := ⟨[
    ("tipo", .texto "entrada"),
    ("productoId", .texto nid),
    ("productoNombre", nombreDe productoData),
    ("area", productoData.campo "area"),
    ("cantidad",
      ((productoData.campo "cantidad").oLogico (productoData.campo "Stock")).oLogico (.numero 1)),
    ("usuario", user.campo "email"),
    ("fecha", ahora),
    ("descripcion", .texto "Producto creado")]⟩
  let db2 := { db1 with movimientos := db1.movimientos.agregar mid movimiento }
  { db := db2,
    salida := .ok { status := 201, success := true, message := "Producto creado correctamente",
                    data := some ((Doc.mk [("id", .texto nid)]).mezclar productoData) } }

/-- Handler `exports.update` (productos.controller.js:124-159). -/
def update (db : Db) (user : Doc) (id : String) (body : Doc) (ahora : JsVal) : Resultado :=
  let updateData := (body.poner "updatedAt" ahora).poner "updatedBy" (user.campo "email")
  match db.productos.buscar id with
  | none => { db := db, salida := .error (AppError "Producto no encontrado" 404) }
  | some productoActual =>
    if sinAcceso user productoActual then
      { db := db, salida := .error (AppError "No tienes acceso a este producto" 403) }
    else
      { db := { db with productos := db.productos.actualizar id updateData },
        salida := .ok { status := 200, success := true,
                        message := "Producto actualizado correctamente",
                        data := some ((Doc.mk [("id", .texto id)]).mezclar updateData) } }

/-- Handler `exports.delete` (productos.controller.js:164-204). -/
def delete (db : Db) (user : Doc) (id : String) (mid : String) (ahora : JsVal) : Resultado :=
  match db.productos.buscar id with
  | none => { db := db, salida := .error (AppError "Producto no encontrado" 404) }
  | some producto =>
    if sinAcceso user producto then
      { db := db, salida := .error (AppError "No tienes acceso a este producto" 403) }
    else
      let movimiento : Doc := ⟨[
        ("tipo", .texto "eliminado"),
        ("productoId", .texto id),
        ("productoNombre", nombreDe producto),
        ("area", producto.campo "area"),
        ("usuario", user.campo "email"),
        ("fecha", ahora),
        ("descripcion", .texto "Producto eliminado")]⟩
      let db1 := { db with movimientos := db.movimientos.agregar mid movimiento }
      let db2 := { db1 with productos := db1.productos.eliminar id }
      { db := db2,
        salida := .ok { status := 200, success := true,
                        message := "Producto eliminado correctamente", data := none } }

/-- The movement that `descontarStock` records (productos.controller.js:252-263). -/
def movimientoDescuento (user producto : Doc) (id : String) (cantidad : Int)
    (stockActual nuevoStock ahora : JsVal) : Doc :=
  ⟨[("tipo", .texto "descuento"),
    ("productoId", .texto id),
    ("productoNombre", nombreDe producto),
    ("area", producto.campo "area"),
    ("cantidad", .numero cantidad),
    ("stockAnterior", stockActual),
    ("stockNuevo", nuevoStock),
    ("usuario", user.campo "email"),
    ("fecha", ahora),
    ("descripcion", .texto ("Descuento de " ++ toString cantidad ++ " unidades"))]⟩

/-- Handler `exports.descontarStock` (productos.controller.js:209-277);
`cantidad` is the integer of the request body, which the route validates to be
at least 1. -/
def descontarStock (db : Db) (user : Doc) (id : String) (cantidad : Int) (mid : String)
    (ahora : JsVal) : Resultado :=
  match db.productos.buscar id with
  | none => { db := db, salida := .error (AppError "Producto no encontrado" 404) }
  | some producto =>
    if sinAcceso user producto then
      { db := db, salida := .error (AppError "No tienes acceso a este producto" 403) }
    else
      let stockActual := resolveStockOr producto (.numero 0)
      if menorQueNum stockActual cantidad then
        { db := db,
          salida := .error
            (AppError ("Stock insuficiente. Disponible: " ++ stockActual.toStr) 400) }
      else
        let nuevoStock := restarNum stockActual cantidad
        let patch : Doc := ⟨[
          (campoStock producto, nuevoStock),
          ("updatedAt", ahora),
          ("updatedBy", user.campo "email")]⟩
        let db1 := { db with productos := db.productos.actualizar id patch }
        let db2 := { db1 with
          movimientos := db1.movimientos.agregar mid
            (movimientoDescuento user producto id cantidad stockActual nuevoStock ahora) }
        { db := db2,
          salida := .ok { status := 200, success := true,
                          message := "Stock descontado correctamente",
                          data := some ⟨[
                            ("productoId", .texto id),
                            ("stockAnterior", stockActual),
                            ("cantidadDescontada", .numero cantidad),
                            ("stockActual", nuevoStock)]⟩ } }

end ProductosController

namespace AreasController

/-- Handler `exports.delete` (areas.controller.js:150-181). -/
def delete (db : Db) (id : String) : Resultado :=
  match db.areas.buscar id with
  | none => { db := db, salida := .error (AppError "Área no encontrada" 404) }
  | some areaData =>
    let productosSnapshot := (db.productos.donde "area" (areaData.campo "name")).take 1
    if !productosSnapshot.isEmpty then
      { db := db,
        salida := .error
          (AppError "No se puede eliminar el área porque tiene productos asociados" 400) }
    else
      { db := { db with areas := db.areas.eliminar id },
        salida := .ok { status := 200, success := true,
                        message := "Área eliminada correctamente", data := none } }

end AreasController

namespace UsuariosController

/-- Handler `exports.delete` (usuarios.controller.js:129-155). -/
def delete (db : Db) (user : Doc) (id : String) : Resultado :=
  match db.usuarios.buscar id with
  | none => { db := db, salida := .error (AppError "Usuario no encontrado" 404) }
  | some userData =>
    if strictEq (userData.campo "email") (user.campo "email") then
      { db := db, salida := .error (AppError "No puedes eliminarte a ti mismo" 400) }
    else
      { db := { db with usuarios := db.usuarios.eliminar id },
        salida := .ok { status := 200, success := true,
                        message := "Usuario eliminado correctamente", data := none } }

end UsuariosController

/-- A destructuring default `{ k = d } = req.body`: the default applies when
the body's value is `undefined`. -/
def conDefecto (v d : JsVal) : JsVal :=
  if v = .indefinido then d else v

/-- Whether the handler sent a response rather than throwing. -/
def Resultado.exito (r : Resultado) : Bool :=
  match r.salida with
  | .ok _ => true
  | .error _ => false

/-- The `statusCode` of the error a handler threw, if it threw. -/
def Resultado.codigoError (r : Resultado) : Option JsVal :=
  match r.salida with
  | .ok _ => none
  | .error e => some e.statusCode

namespace AreasController

/-- Handler `exports.create` (areas.controller.js:67-99). -/
def create (db : Db) (user body : Doc) (nid : String) (ahora : JsVal) : Resultado :=
  let name := body.campo "name"
  let campos := conDefecto (body.campo "campos") (.arr [])
  let existingSnapshot := (db.areas.donde "name" name).take 1
  if !existingSnapshot.isEmpty then
    { db := db, salida := .error (AppError "Ya existe un área con ese nombre" 400) }
  else
    let areaData : Doc := ⟨[
      ("name", name),
      ("campos", campos),
      ("items", .arr []),
      ("lastUpdate", ahora),
      ("createdAt", ahora),
      ("createdBy", user.campo "email")]⟩
    { db := { db with areas := db.areas.agregar nid areaData },
      salida := .ok { status := 201, success := true, message := "Área creada correctamente",
                      data := some ((Doc.mk [("id", .texto nid)]).mezclar areaData) } }

/-- Handler `exports.update` (areas.controller.js:104-145). -/
def update (db : Db) (user : Doc) (id : String) (body : Doc) (ahora : JsVal) : Resultado :=
  let name := body.campo "name"
  let campos := body.campo "campos"
  match db.areas.buscar id with
  | none => { db := db, salida := .error (AppError "Área no encontrada" 404) }
  | some _ =>
    let existingSnapshot := (db.areas.donde "name" name).take 1
    let repetida :=
      name.truthy &&
        (match existingSnapshot with
         | [] => false
         | e :: _ => e.1 != id)
    if repetida then
      { db := db, salida := .error (AppError "Ya existe un área con ese nombre" 400) }
    else
      let updateData : Doc := ⟨[("lastUpdate", ahora), ("updatedBy", user.campo "email")]⟩
      let updateData := if name.truthy then updateData.poner "name" name else updateData
      let updateData := if campos != .indefinido then updateData.poner "campos" campos else updateData
      { db := { db with areas := db.areas.actualizar id updateData },
        salida := .ok { status := 200, success := true,
                        message := "Área actualizada correctamente",
                        data := some ((Doc.mk [("id", .texto id)]).mezclar updateData) } }

end AreasController

namespace UsuariosController

/-- Handler `exports.create` (usuarios.controller.js:57-89); `ahoraIso` is
`new Date().toISOString()`. -/
def create (db : Db) (user body : Doc) (nid : String) (ahoraIso : String) : Resultado :=
  let email := body.campo "email"
  let rol := body.campo "rol"
  let areasPermitidas := conDefecto (body.campo "areasPermitidas") (.arr [])
  let soloDescontar := conDefecto (body.campo "soloDescontar") (.booleano false)
  let existingSnapshot := (db.usuarios.donde "email" email).take 1
  if !existingSnapshot.isEmpty then
    { db := db, salida := .error (AppError "Ya existe un usuario con ese email" 400) }
  else
    let userData : Doc := ⟨[
      ("email", email),
      ("rol", rol),
      ("areasPermitidas", areasPermitidas),
      ("soloDescontar", soloDescontar),
      ("createdAt", .texto ahoraIso),
      ("createdBy", user.campo "email")]⟩
    { db := { db with usuarios := db.usuarios.agregar nid userData },
      salida := .ok { status := 201, success := true, message := "Usuario creado correctamente",
                      data := some ((Doc.mk [("id", .texto nid)]).mezclar userData) } }

/-- Handler `exports.update` (usuarios.controller.js:94-124). -/
def update (db : Db) (user : Doc) (id : String) (body : Doc) (ahoraIso : String) : Resultado :=
  let rol := body.campo "rol"
  let areasPermitidas := body.campo "areasPermitidas"
  let soloDescontar := body.campo "soloDescontar"
  match db.usuarios.buscar id with
  | none => { db := db, salida := .error (AppError "Usuario no encontrado" 404) }
  | some _ =>
    let updateData : Doc := ⟨[("updatedAt", .texto ahoraIso), ("updatedBy", user.campo "email")]⟩
    let updateData := if rol != .indefinido then updateData.poner "rol" rol else updateData
    let updateData :=
      if areasPermitidas != .indefinido then updateData.poner "areasPermitidas" areasPermitidas
      else updateData
    let updateData :=
      if soloDescontar != .indefinido then updateData.poner "soloDescontar" soloDescontar
      else updateData
    { db := { db with usuarios := db.usuarios.actualizar id updateData },
      salida := .ok { status := 200, success := true,
                      message := "Usuario actualizado correctamente",
                      data := some ((Doc.mk [("id", .texto id)]).mezclar updateData) } }

end UsuariosController

namespace MovimientosController

/-- Handler `exports.create` (movimientos.controller.js:152-176). -/
def create (db : Db) (user body : Doc) (nid : String) (ahora : JsVal) : Resultado :=
  let movimientoData : Doc := ⟨[
    ("tipo", body.campo "tipo"),
    ("productoId", body.campo "productoId"),
    ("productoNombre", (body.campo "productoNombre").oLogico (.texto "Sin nombre")),
    ("area", body.campo "area"),
    ("cantidad", (body.campo "cantidad").oLogico (.numero 1)),
    ("descripcion", (body.campo "descripcion").oLogico (.texto "")),
    ("usuario", user.campo "email"),
    ("fecha", ahora)]⟩
  { db := { db with movimientos := db.movimientos.agregar nid movimientoData },
    salida := .ok { status := 201, success := true,
                    message := "Movimiento registrado correctamente",
                    data := some ((Doc.mk [("id", .texto nid)]).mezclar movimientoData) } }

end MovimientosController

namespace AuthController

/-- Handler `exports.register` (auth.controller.js:34-73). -/
def register (db : Db) (user : Doc) (nid : String) (ahoraIso : String) : Resultado :=
  let email := user.campo "email"
  let uid := user.campo "uid"
  match (db.usuarios.donde "email" email).take 1 with
  | existingUser :: _ =>
    { db := db,
      salida := .ok { status := 200, success := true, message := "Usuario ya registrado",
                      data := some (conId existingUser) } }
  | [] =>
    let userData : Doc := ⟨[
      ("email", email),
      ("uid", uid),
      ("rol", .texto "usuario"),
      ("areasPermitidas", .arr []),
      ("soloDescontar", .booleano false),
      ("createdAt", .texto ahoraIso)]⟩
    { db := { db with usuarios := db.usuarios.agregar nid userData },
      salida := .ok { status := 201, success := true,
                      message := "Usuario registrado correctamente",
                      data := some ((Doc.mk [("id", .texto nid)]).mezclar userData) } }

end AuthController

/-! ## The API as a transition system on the store -/

/-- The handlers that only read the store (every store call in them is a
`get()` on a collection, a document or a query). -/
inductive Lectura where
  | authVerifyToken | authGetMe
  | productosGetAll | productosGetByArea | productosGetById | productosGetStockBajo
  | areasGetAll | areasGetById
  | usuariosGetAll | usuariosGetCurrentUser | usuariosGetById
  | movimientosGetAll | movimientosGetByArea | movimientosGetByUsuario
  | movimientosGetByFecha | movimientosGetEstadisticas
  | dashboardGetKPIs | dashboardGetResumen | dashboardGetAlertas | dashboardGetTendencias
  | reporteInventario | reporteMovimientos | reporteStockBajo | reportePorArea
  | reporteActividadUsuarios
  deriving DecidableEq, Repr

/-- A request to one handler of the API, with what the handler takes from the
request and from the store (new ids, timestamps). -/
inductive Peticion where
  | leer (h : Lectura)
  | authRegister (nid ahoraIso : String)
  | productosCreate (body : Doc) (nid mid : String) (ahora : JsVal)
  | productosUpdate (id : String) (body : Doc) (ahora : JsVal)
  | productosDelete (id mid : String) (ahora : JsVal)
  | productosDescontarStock (id : String) (cantidad : Int) (mid : String) (ahora : JsVal)
  | areasCreate (body : Doc) (nid : String) (ahora : JsVal)
  | areasUpdate (id : String) (body : Doc) (ahora : JsVal)
  | areasDelete (id : String)
  | usuariosCreate (body : Doc) (nid ahoraIso : String)
  | usuariosUpdate (id : String) (body : Doc) (ahoraIso : String)
  | usuariosDelete (id : String)
  | movimientosCreate (body : Doc) (nid : String) (ahora : JsVal)

/-- The store after the handler has served the request of `user`. -/
def ejecutar (db : Db) (user : Doc) : Peticion → Db
  | .leer _ => db
  | .authRegister nid ahoraIso => (AuthController.register db user nid ahoraIso).db
  | .productosCreate body nid mid ahora => (ProductosController.create db user body nid mid ahora).db
  | .productosUpdate id body ahora => (ProductosController.update db user id body ahora).db
  | .productosDelete id mid ahora => (ProductosController.delete db user id mid ahora).db
  | .productosDescontarStock id cantidad mid ahora =>
    (ProductosController.descontarStock db user id cantidad mid ahora).db
  | .areasCreate body nid ahora => (AreasController.create db user body nid ahora).db
  | .areasUpdate id body ahora => (AreasController.update db user id body ahora).db
  | .areasDelete id => (AreasController.delete db id).db
  | .usuariosCreate body nid ahoraIso => (UsuariosController.create db user body nid ahoraIso).db
  | .usuariosUpdate id body ahoraIso => (UsuariosController.update db user id body ahoraIso).db
  | .usuariosDelete id => (UsuariosController.delete db user id).db
  | .movimientosCreate body nid ahora => (MovimientosController.create db user body nid ahora).db

/-! ## Reference notions of the specification -/

/-- A value is an element of the permitted-areas list. -/
def esElemento (permitidas : List Prim) (v : JsVal) : Prop :=
  ∃ p, p ∈ permitidas ∧ v = .prim p

instance (permitidas : List Prim) (v : JsVal) : Decidable (esElemento permitidas v) :=
  match v with
  | .prim p =>
    if h : p ∈ permitidas then isTrue ⟨p, h, rfl⟩
    else isFalse fun ⟨q, hq, e⟩ => h (by cases e; exact hq)
  | .arr _ => isFalse fun ⟨_, _, e⟩ => by cases e

/-- A product or movement is permitted iff its area name is an element of the
permitted areas. -/
def porAreaPermitido (permitidas : List Prim) (e : Doc) : Prop :=
  esElemento permitidas (e.campo "area")

/-- An area entity is permitted iff its id or its name is an element of the
permitted areas. -/
def areaPermitida (permitidas : List Prim) (e : Doc) : Prop :=
  esElemento permitidas (e.campo "id") ∨ esElemento permitidas (e.campo "name")

instance (permitidas : List Prim) (e : Doc) : Decidable (porAreaPermitido permitidas e) := by
  unfold porAreaPermitido; exact inferInstance

instance (permitidas : List Prim) (e : Doc) : Decidable (areaPermitida permitidas e) := by
  unfold areaPermitida; exact inferInstance

/-- Stock resolution with the reading of "present" that the code implements:
the first of `cantidad`, `Stock`, `stock` that is present with a value other
than `null`, else `null`. -/
def resolveStockPresente (p : Doc) : JsVal :=
  if p.tiene "cantidad" && !(p.campo "cantidad").nullish then p.campo "cantidad"
  else if p.tiene "Stock" && !(p.campo "Stock").nullish then p.campo "Stock"
  else if p.tiene "stock" && !(p.campo "stock").nullish then p.campo "stock"
  else .nulo

/-- A product's `area` field equals the value `nombre`. -/
def referenciaArea (db : Db) (nombre : JsVal) : Prop :=
  ∃ e, e ∈ db.productos ∧ e.2.campos.lookup "area" = some nombre

/-! ## Example data -/

/-- A small store: two products, two areas, two users, two movements. -/
def dbEjemplo : Db :=
  { productos := [
      ("p1", ⟨[("nombre", .texto "Taladro"), ("area", .texto "Bodega"), ("cantidad", .numero 10)]⟩),
      ("p2", ⟨[("nombre", .texto "Olla"), ("area", .texto "Cocina"), ("Stock", .numero 3)]⟩)],
    areas := [
      ("a1", ⟨[("name", .texto "Bodega")]⟩),
      ("a2", ⟨[("name", .texto "Cocina")]⟩),
      ("a3", ⟨[("name", .texto "Patio")]⟩)],
    usuarios := [
      ("u1", ⟨[("email", .texto "ana@cielito.mx"), ("rol", .texto "usuario"),
               ("areasPermitidas", .nulo)]⟩),
      ("u2", ⟨[("email", .texto "luis@cielito.mx"), ("rol", .texto "inventario"),
               ("areasPermitidas", .arr [.str "Cocina"])]⟩)],
    movimientos := [
      ("m1", ⟨[("tipo", .texto "entrada"), ("productoId", .texto "p1"), ("area", .texto "Bodega"),
               ("usuario", .texto "luis@cielito.mx"), ("fecha", .numero 100)]⟩),
      ("m2", ⟨[("tipo", .texto "entrada"), ("productoId", .texto "p2"), ("area", .texto "Cocina"),
               ("usuario", .texto "luis@cielito.mx"), ("fecha", .numero 200)]⟩)] }

/-- The request user of a non-admin whose stored `areasPermitidas` is `null`. -/
def usuarioSinLista : Doc :=
  ⟨[("uid", .texto "uid-1"), ("email", .texto "ana@cielito.mx"), ("rol", .texto "usuario"),
    ("areasPermitidas", .nulo), ("id", .texto "u1")]⟩

/-- The request user of a non-admin restricted to the area `Cocina`. -/
def usuarioCocina : Doc :=
  ⟨[("uid", .texto "uid-2"), ("email", .texto "luis@cielito.mx"), ("rol", .texto "inventario"),
    ("areasPermitidas", .arr [.str "Cocina"]), ("id", .texto "u2")]⟩

/-- The request user of an administrator. -/
def usuarioAdmin : Doc :=
  ⟨[("uid", .texto "uid-3"), ("email", .texto "admin@cielito.mx"), ("rol", .texto "admin"),
    ("areasPermitidas", .arr [])]⟩

/-- A product whose `cantidad` holds `null` while `Stock` holds the value. -/
def productoCantidadNula : Doc :=
  ⟨[("nombre", .texto "Cable"), ("area", .texto "Bodega"), ("cantidad", .nulo),
    ("Stock", .numero 5)]⟩

/-- The stored data of product `p1` of `dbEjemplo`. -/
def productoTaladro : Doc :=
  ⟨[("nombre", .texto "Taladro"), ("area", .texto "Bodega"), ("cantidad", .numero 10)]⟩

/-- A request body that sets `cantidad` to 50. -/
def cuerpoCantidad50 : Doc :=
  ⟨[("cantidad", .numero 50)]⟩

/-! ## Dashboard alerts -/

namespace DashboardController

/-- The predicate `stock !== null && Number(stock) > 0 && Number(stock) <= 2`
(dashboard.controller.js:175-178). -/
def esStockCritico (p : Doc) : Bool :=
  let stock := resolveStock p
  stock != .nulo &&
    (match stock.toNumber with
     | some n => decide (0 < n) && decide (n ≤ 2)
     | none => false)

/-- The predicate `stock !== null && Number(stock) > 2 && Number(stock) <= 5`
(dashboard.controller.js:181-184). -/
def esStockBajoAlerta (p : Doc) : Bool :=
  let stock := resolveStock p
  stock != .nulo &&
    (match stock.toNumber with
     | some n => decide (2 < n) && decide (n ≤ 5)
     | none => false)

/-- One band of the alerts: `{ count, productos }`. -/
structure BandaAlerta where
  count : Nat
  productos : List Doc
  deriving DecidableEq, Repr

/-- Body `data` of `getAlertas`, sent with status 200. -/
structure Alertas where
  totalAlertas : Nat
  sinStock : BandaAlerta
  stockCritico : BandaAlerta
  stockBajo : BandaAlerta
  deriving DecidableEq, Repr

/-- Handler `exports.getAlertas` (dashboard.controller.js:155-205). -/
def getAlertas (db : Db) (user : Doc) : Alertas :=
  let productos := db.productos.map conId
  let productos := ProductosController.filtroAreas user productos
  let sinStock := productos.filter esSinStock
  let stockCritico := productos.filter esStockCritico
  let stockBajo := productos.filter esStockBajoAlerta
  { totalAlertas := sinStock.length + stockCritico.length + stockBajo.length,
    sinStock := { count := sinStock.length, productos := jsSlice sinStock 0 10 },
    stockCritico := { count := stockCritico.length, productos := jsSlice stockCritico 0 10 },
    stockBajo := { count := stockBajo.length, productos := jsSlice stockBajo 0 10 } }

end DashboardController

/-! ## Reference notions for the aggregations -/

/-- The products a user sees: the stored products with their ids, after the
area filter. -/
def productosVisibles (db : Db) (user : Doc) : List Doc :=
  ProductosController.filtroAreas user (db.productos.map conId)

/-- The number a product's resolved stock stands for; `none` when the product
has no resolved stock, or when what is stored is not a number. -/
def stockPresente (p : Doc) : Option Int :=
  if resolveStock p = .nulo then none else (resolveStock p).toNumber

/-- The product's resolved stock is present and its value satisfies `P`. -/
def stockCumple (P : Int → Prop) (p : Doc) : Prop :=
  ∃ n, stockPresente p = some n ∧ P n

instance (P : Int → Prop) [DecidablePred P] (p : Doc) : Decidable (stockCumple P p) :=
  match h : stockPresente p with
  | some n =>
    if hp : P n then isTrue ⟨n, h, hp⟩
    else isFalse fun ⟨m, hm, hpm⟩ => hp (by rw [h] at hm; cases hm; exact hpm)
  | none => isFalse fun ⟨m, hm, _⟩ => by rw [h] at hm; cases hm

/-- What a product adds to the stock total: its resolved stock, 0 when it has
none. -/
def aporteStock (p : Doc) : Int :=
  (stockPresente p).getD 0

/-- Five products with the stocks 0, 1, 5, 6 and none, under the three field
names. -/
def dbBandas : Db :=
  { productos := [
      ("b1", ⟨[("nombre", .texto "Clavo"), ("area", .texto "Bodega"), ("cantidad", .numero 0)]⟩),
      ("b2", ⟨[("nombre", .texto "Tuerca"), ("area", .texto "Bodega"), ("Stock", .numero 1)]⟩),
      ("b3", ⟨[("nombre", .texto "Perno"), ("area", .texto "Bodega"), ("stock", .numero 5)]⟩),
      ("b4", ⟨[("nombre", .texto "Broca"), ("area", .texto "Cocina"), ("cantidad", .numero 6)]⟩),
      ("b5", ⟨[("nombre", .texto "Lija"), ("area", .texto "Cocina")]⟩)],
    areas := [("a1", ⟨[("name", .texto "Bodega")]⟩), ("a2", ⟨[("name", .texto "Cocina")]⟩)],
    usuarios := [],
    movimientos := [] }

/-- The movements a user sees: the stored movements that have a `fecha`, newest
first, with their ids, after the area filter. -/
def movimientosVisibles (db : Db) (user : Doc) : List Doc :=
  MovimientosController.filtroAreas user ((db.movimientos.orderByDesc "fecha").map
    MovimientosController.conIdFecha)

/-- A store with 25 movements, with the timestamps 0 to 24. -/
def dbPaginas : Db :=
  { productos := [],
    areas := [],
    usuarios := [],
    movimientos := (List.range 25).map fun i =>
      ("m" ++ toString i,
        ⟨[("tipo", .texto "entrada"), ("area", .texto "Bodega"),
          ("usuario", .texto "luis@cielito.mx"), ("fecha", .numero i)]⟩) }

/-! ## Reports -/

/-- The order a comparator result stands for in `Array.prototype.sort`: `a`
may stay before `b` when `cmp(a, b)` is not positive; a result `NaN` counts
as 0. -/
def noDespues {α : Type} (cmp : α → α → Numero) (a b : α) : Prop :=
  match cmp a b with
  | some v => v ≤ 0
  | none => True

instance {α : Type} (cmp : α → α → Numero) : DecidableRel (noDespues cmp) :=
  fun a b => by unfold noDespues; cases cmp a b <;> exact inferInstance

/-- The call `xs.sort(cmp)`: a stable sort by the comparator. -/
def jsSort {α : Type} (cmp : α → α → Numero) (xs : List α) : List α :=
  xs.insertionSort (noDespues cmp)

namespace ReportesController

/-- The comparator `(a, b) => stockA - stockB` of `getReporteStockBajo`, each
stock read as `x.cantidad ?? x.Stock ?? x.stock ?? 0`
(reportes.controller.js:143-147). -/
def compararStock (a b : Doc) : Numero :=
  match (resolveStockOr a (.numero 0)).toNumber, (resolveStockOr b (.numero 0)).toNumber with
  | some x, some y => some (x - y)
  | _, _ => none

/-- The predicate `stock !== null && Number(stock) <= umbral`
(reportes.controller.js:140-143). -/
def bajoUmbral (umbral : Int) (producto : Doc) : Bool :=
  let stock := resolveStock producto
  stock != .nulo &&
    (match stock.toNumber with
     | some n => decide (n ≤ umbral)
     | none => false)

/-- The predicate `Number(p.cantidad ?? p.Stock ?? p.stock ?? 0) === 0`
(reportes.controller.js:150-153). -/
def sinStockReporte (p : Doc) : Bool :=
  match (resolveStockOr p (.numero 0)).toNumber with
  | some n => decide (n = 0)
  | none => false

/-- The predicate `Number(stock) > 0 && Number(stock) <= 2` on the stock read
with `?? 0` (reportes.controller.js:156-159). -/
def stockCriticoReporte (p : Doc) : Bool :=
  match (resolveStockOr p (.numero 0)).toNumber with
  | some n => decide (0 < n) && decide (n ≤ 2)
  | none => false

/-- The `resumen` of the stock-bajo report. -/
structure ResumenStockBajo where
  totalStockBajo : Nat
  sinStock : Nat
  stockCritico : Nat
  umbral : Int
  deriving DecidableEq, Repr

/-- Body `data` of `getReporteStockBajo`, sent with status 200 (without the
generation date). -/
structure ReporteStockBajo where
  resumen : ResumenStockBajo
  productosSinStock : List Doc
  productosStockCritico : List Doc
  todosStockBajo : List Doc
  deriving DecidableEq, Repr

/-- Handler `exports.getReporteStockBajo` (reportes.controller.js:121-176);
`umbralQ` is the parsed query parameter `umbral`. -/
def getReporteStockBajo (db : Db) (user : Doc) (umbralQ : Option Int) : ReporteStockBajo :=
  let umbral := parseIntOr umbralQ 5
  let productos := db.productos.map conId
  let productos := ProductosController.filtroAreas user productos
  let productosStockBajo := jsSort compararStock (productos.filter (bajoUmbral umbral))
  let productosSinStock := productosStockBajo.filter sinStockReporte
  let productosStockCritico := productosStockBajo.filter stockCriticoReporte
  { resumen := { totalStockBajo := productosStockBajo.length,
                 sinStock := productosSinStock.length,
                 stockCritico := productosStockCritico.length,
                 umbral := umbral },
    productosSinStock := productosSinStock,
    productosStockCritico := productosStockCritico,
    todosStockBajo := productosStockBajo }

end ReportesController

/-- The names stored in a collection of areas, in scan order; a document
without the field `name` has none. -/
def nombresDeAreas (c : Coleccion) : List JsVal :=
  c.filterMap fun e => e.2.campos.lookup "name"

/-- The stored area names are pairwise distinct. -/
def nombresDistintos (db : Db) : Prop :=
  (nombresDeAreas db.areas).Nodup

instance (db : Db) : Decidable (nombresDistintos db) := by
  unfold nombresDistintos; exact inferInstance

/-- The document ids of a collection are pairwise distinct, as the store
guarantees. -/
def idsDistintos (c : Coleccion) : Prop :=
  (c.map Prod.fst).Nodup

instance (c : Coleccion) : Decidable (idsDistintos c) := by
  unfold idsDistintos; exact inferInstance

/-- The keys of a record are pairwise distinct, as those of an object are. -/
def Doc.clavesUnicas (d : Doc) : Prop :=
  (d.campos.map Prod.fst).Nodup

instance (d : Doc) : Decidable d.clavesUnicas := by
  unfold Doc.clavesUnicas; exact inferInstance

/-- The object `updateData` that `areas.update` writes
(areas.controller.js:128-134). -/
def AreasController.datosUpdate (user body : Doc) (ahora : JsVal) : Doc :=
  let updateData : Doc := ⟨[("lastUpdate", ahora), ("updatedBy", user.campo "email")]⟩
  let updateData :=
    if (body.campo "name").truthy then updateData.poner "name" (body.campo "name")
    else updateData
  if body.campo "campos" != .indefinido then updateData.poner "campos" (body.campo "campos")
  else updateData

/-- The test of `areas.update` for a name that another area holds
(areas.controller.js:117-126). -/
def AreasController.nombreRepetido (db : Db) (id : String) (body : Doc) : Bool :=
  (body.campo "name").truthy &&
    (match (db.areas.donde "name" (body.campo "name")).take 1 with
     | [] => false
     | e :: _ => e.1 != id)

/-- A request body naming the area `Jardin`. -/
def cuerpoJardin : Doc :=
  ⟨[("name", .texto "Jardin")]⟩

/-- A request body naming the area `Bodega`, which the example store has. -/
def cuerpoBodega : Doc :=
  ⟨[("name", .texto "Bodega")]⟩

/-- The document `areaData` that `areas.create` stores
(areas.controller.js:81-88). -/
def AreasController.datosCreate (user body : Doc) (ahora : JsVal) : Doc :=
  ⟨[("name", body.campo "name"),
    ("campos", conDefecto (body.campo "campos") (.arr [])),
    ("items", .arr []),
    ("lastUpdate", ahora),
    ("createdAt", ahora),
    ("createdBy", user.campo "email")]⟩

/-- The object `updateData` that `usuarios.update` writes
(usuarios.controller.js:106-113). -/
def UsuariosController.datosUpdate (user body : Doc) (ahoraIso : String) : Doc :=
  let updateData : Doc := ⟨[("updatedAt", .texto ahoraIso), ("updatedBy", user.campo "email")]⟩
  let updateData :=
    if body.campo "rol" != .indefinido then updateData.poner "rol" (body.campo "rol")
    else updateData
  let updateData :=
    if body.campo "areasPermitidas" != .indefinido then
      updateData.poner "areasPermitidas" (body.campo "areasPermitidas")
    else updateData
  if body.campo "soloDescontar" != .indefinido then
    updateData.poner "soloDescontar" (body.campo "soloDescontar")
  else updateData

/-- The body supplies the field `k`. -/
def suministra (body : Doc) (k : String) : Prop :=
  body.campo k ≠ .indefinido

instance (body : Doc) (k : String) : Decidable (suministra body k) := by
  unfold suministra; exact inferInstance

/-- A request body that changes the role and nothing else. -/
def cuerpoRolAdmin : Doc :=
  ⟨[("rol", .texto "admin"), ("email", .texto "otra@cielito.mx")]⟩

/-- The stored data of user `u2` of the example store. -/
def usuarioLuisDoc : Doc :=
  ⟨[("email", .texto "luis@cielito.mx"), ("rol", .texto "inventario"),
    ("areasPermitidas", .arr [.str "Cocina"])]⟩

/-! ## User activity report -/

/-- Precedence of document `a` over `b` in a query with a range filter on the
field `k`: smaller value first, equal values by ascending document id. -/
def antesAsc (k : String) (a b : String × Doc) : Prop :=
  (if (a.2.campo k).menorIgual (b.2.campo k) && (b.2.campo k).menorIgual (a.2.campo k)
    then !decide (b.1 < a.1)
    else (a.2.campo k).menorIgual (b.2.campo k)) = true

instance (k : String) : DecidableRel (antesAsc k) :=
  fun _ _ => by unfold antesAsc; exact inferInstance

/-- Query `collection.where(k, '>=', Timestamp.fromDate(limite))`: the documents
whose field `k` is a timestamp not before `limite`, in ascending order of it. -/
def Coleccion.desdeFecha (c : Coleccion) (k : String) (limite : Int) : Coleccion :=
  (c.filter fun e =>
    match e.2.campo k with
    | .prim (.num n) => decide (limite ≤ n)
    | _ => false).insertionSort (antesAsc k)

namespace ReportesController

/-- One entry of `actividadPorUsuario` (reportes.controller.js:271-278). -/
structure Actividad where
  email : JsVal
  totalMovimientos : Nat
  entradas : Nat
  descuentos : Nat
  eliminados : Nat
  ultimaActividad : JsVal
  deriving DecidableEq, Repr

/-- The property key `mov.usuario` of the grouping object: the string form of
the value. Actors are e-mail addresses; keys that an object inherits from
`Object.prototype` and keys that are array indices are not told apart from
other strings here. -/
def claveUsuario (mov : Doc) : String :=
  (mov.campo "usuario").toStr

/-- The entry created for an actor seen for the first time. -/
def actividadInicial (mov : Doc) : Actividad :=
  { email := mov.campo "usuario", totalMovimientos := 0, entradas := 0, descuentos := 0,
    eliminados := 0, ultimaActividad := .nulo }

/-- The instant `new Date(v).getTime()` of a timestamp; only timestamps reach
this code (the range query on `fecha` returns nothing else), any other value
is read as an invalid date. -/
def fechaMs : JsVal → Numero
  | .prim (.num n) => some n
  | _ => none

/-- The test `!v` on `ultimaActividad`: a date is an object and is truthy. -/
def sinFecha : JsVal → Bool
  | .prim (.num _) => false
  | v => !v.truthy

/-- The comparison `new Date(a) > new Date(b)`. -/
def esPosterior (a b : JsVal) : Bool :=
  match fechaMs a, fechaMs b with
  | some x, some y => decide (y < x)
  | _, _ => false

/-- The updates of an actor's entry for one movement
(reportes.controller.js:281-291). -/
def contar (e : Actividad) (mov : Doc) : Actividad :=
  { email := e.email,
    totalMovimientos := e.totalMovimientos + 1,
    entradas := e.entradas + (if strictEq (mov.campo "tipo") (.texto "entrada") then 1 else 0),
    descuentos :=
      e.descuentos + (if strictEq (mov.campo "tipo") (.texto "descuento") then 1 else 0),
    eliminados :=
      e.eliminados + (if strictEq (mov.campo "tipo") (.texto "eliminado") then 1 else 0),
    ultimaActividad :=
      if sinFecha e.ultimaActividad || esPosterior (mov.campo "fecha") e.ultimaActividad then
        mov.campo "fecha"
      else e.ultimaActividad }

/-- One step of the `forEach` over the grouping object, kept as the list of its
own properties in insertion order: the actor's entry is created if it is
missing, then updated (reportes.controller.js:269-292). -/
def registrar : List (String × Actividad) → Doc → List (String × Actividad)
  | [], mov => [(claveUsuario mov, contar (actividadInicial mov) mov)]
  | (k, e) :: r, mov =>
    if k = claveUsuario mov then (k, contar e mov) :: r else (k, e) :: registrar r mov

/-- The grouping object after the `forEach`. -/
def actividadPorUsuario (movimientos : List Doc) : List (String × Actividad) :=
  movimientos.foldl registrar []

/-- The comparator `(a, b) => b.totalMovimientos - a.totalMovimientos`. -/
def compararActividad (a b : Actividad) : Numero :=
  some ((b.totalMovimientos : Int) - (a.totalMovimientos : Int))

/-- The list `usuariosOrdenados`: `Object.values(actividadPorUsuario)` sorted
(reportes.controller.js:295-296). -/
def usuariosOrdenados (movimientos : List Doc) : List Actividad :=
  jsSort compararActividad ((actividadPorUsuario movimientos).map Prod.snd)

/-- Body `data` of `getReporteActividadUsuarios`, sent with status 200 (without
the generation date). -/
structure ReporteActividad where
  periodo : String
  totalMovimientos : Nat
  usuariosActivos : Nat
  actividad : List Actividad
  deriving DecidableEq, Repr

/-- Handler `exports.getReporteActividadUsuarios`
(reportes.controller.js:248-308); `diasQ` is the parsed query parameter `dias`
and `fechaLimite` the instant that many days before the request. -/
def getReporteActividadUsuarios (db : Db) (diasQ : Option Int) (fechaLimite : Int) :
    ReporteActividad :=
  let dias := parseIntOr diasQ 30
  let movimientos := (db.movimientos.desdeFecha "fecha" fechaLimite).map
    MovimientosController.conIdFecha
  let usuariosOrdenados := usuariosOrdenados movimientos
  { periodo := toString dias ++ " días",
    totalMovimientos := movimientos.length,
    usuariosActivos := usuariosOrdenados.length,
    actividad := usuariosOrdenados }

end ReportesController

/-- The actor key of an entry of the activity report. -/
def claveEntrada (e : ReportesController.Actividad) : String :=
  e.email.toStr

/-- Every movement of the list carries a timestamp. -/
def conFechas (movimientos : List Doc) : Prop :=
  ∀ m ∈ movimientos, ∃ t, m.campo "fecha" = .numero t

/-- The timestamp `M` is the latest among the movements of actor `k`. -/
def esUltimaDe (movimientos : List Doc) (k : String) (M : Int) : Prop :=
  (∃ m ∈ movimientos, ReportesController.claveUsuario m = k ∧ m.campo "fecha" = .numero M) ∧
  ∀ m ∈ movimientos, ReportesController.claveUsuario m = k →
    ∀ t, m.campo "fecha" = .numero t → t ≤ M

/-- Five movements of two actors; Ana's latest timestamp, 40, occurs twice. -/
def movimientosActividad : List Doc :=
  [⟨[("id", .texto "m1"), ("tipo", .texto "entrada"), ("usuario", .texto "ana@cielito.mx"),
     ("fecha", .numero 40)]⟩,
   ⟨[("id", .texto "m2"), ("tipo", .texto "descuento"), ("usuario", .texto "luis@cielito.mx"),
     ("fecha", .numero 10)]⟩,
   ⟨[("id", .texto "m3"), ("tipo", .texto "descuento"), ("usuario", .texto "ana@cielito.mx"),
     ("fecha", .numero 20)]⟩,
   ⟨[("id", .texto "m4"), ("tipo", .texto "eliminado"), ("usuario", .texto "ana@cielito.mx"),
     ("fecha", .numero 40)]⟩,
   ⟨[("id", .texto "m5"), ("tipo", .texto "entrada"), ("usuario", .texto "luis@cielito.mx"),
     ("fecha", .numero 30)]⟩]

/-! ## The discount of stock and the store's failures -/

/-- The field name of the stock as the specification words it: the first of
`cantidad`, `Stock`, `stock` that exists as a key of the record, `cantidad`
when none of them does. -/
def resolveStockFieldNameSpec (producto : Doc) : String :=
  ((["cantidad", "Stock", "stock"].find? fun k => producto.tiene k).getD "cantidad")

/-- The object that `descontarStock` hands to `docRef.update`
(productos.controller.js:245-249). -/
def ProductosController.parcheDescuento (user producto : Doc) (nuevoStock ahora : JsVal) : Doc :=
  ⟨[(campoStock producto, nuevoStock), ("updatedAt", ahora), ("updatedBy", user.campo "email")]⟩

/-- Handler `exports.descontarStock` over a store that may reject the write of
the movement: `falla` is the error with which
`db.collection('movimientos').add(...)` rejects, `none` when it resolves. The
rejected `await` throws out of the handler, which has no `try` around it, after
the update of the product has been applied
(productos.controller.js:245-263). -/
def ProductosController.descontarStockCon (falla : Option ErrorJs) (db : Db) (user : Doc)
    (id : String) (cantidad : Int) (mid : String) (ahora : JsVal) : Resultado :=
  match db.productos.buscar id with
  | none => { db := db, salida := .error (AppError "Producto no encontrado" 404) }
  | some producto =>
    if sinAcceso user producto then
      { db := db, salida := .error (AppError "No tienes acceso a este producto" 403) }
    else
      let stockActual := resolveStockOr producto (.numero 0)
      if menorQueNum stockActual cantidad then
        { db := db,
          salida := .error
            (AppError ("Stock insuficiente. Disponible: " ++ stockActual.toStr) 400) }
      else
        let nuevoStock := restarNum stockActual cantidad
        let db1 := { db with
          productos := db.productos.actualizar id
            (ProductosController.parcheDescuento user producto nuevoStock ahora) }
        match falla with
        | some err => { db := db1, salida := .error err }
        | none =>
          let db2 := { db1 with
            movimientos := db1.movimientos.agregar mid
              (ProductosController.movimientoDescuento user producto id cantidad stockActual
                nuevoStock ahora) }
          { db := db2,
            salida := .ok { status := 200, success := true,
                            message := "Stock descontado correctamente",
                            data := some ⟨[
                              ("productoId", .texto id),
                              ("stockAnterior", stockActual),
                              ("cantidadDescontada", .numero cantidad),
                              ("stockActual", nuevoStock)]⟩ } }

/-- The wrapper `asyncHandler` (errorHandler.js:103-105) with the error
middleware that `server.js` installs behind the routes: a response that the
handler sent goes out as it is, an error that it threw is handed to
`errorHandler`. -/
def asyncHandler (r : Resultado) (nodeEnv : Option String) : Except RespuestaError Respuesta :=
  match r.salida with
  | .ok resp => .ok resp
  | .error err => .error (errorHandler err nodeEnv)

/-- An error of the store: the service is unavailable. -/
def errorAlmacen : ErrorJs :=
  { message := "14 UNAVAILABLE: No connection established", array := none, code := none,
    status := .indefinido, statusCode := .indefinido, stack := "" }

/-- A store whose only product has `cantidad: null` and `Stock: 5`. -/
def dbCable : Db :=
  { productos := [("p3", productoCantidadNula)], areas := [("a1", ⟨[("name", .texto "Bodega")]⟩)],
    usuarios := [], movimientos := [] }

/-! ## Product writes outside the requester's areas -/

/-- A request body that moves a product to the area `Bodega`. -/
def cuerpoAreaBodega : Doc :=
  ⟨[("area", .texto "Bodega")]⟩

/-- A request body for a new product whose stock is under the key `stock`. -/
def cuerpoLija : Doc :=
  ⟨[("nombre", .texto "Lija"), ("area", .texto "Bodega"), ("stock", .numero 7)]⟩

/-- A request body for a new product with `cantidad: 0`. -/
def cuerpoClavo : Doc :=
  ⟨[("nombre", .texto "Clavo"), ("area", .texto "Bodega"), ("cantidad", .numero 0)]⟩

/-! ## The low-stock listing of the products -/

namespace ProductosController

/-- The predicate
`stock !== null && Number(stock) <= umbral && Number(stock) >= 0`
(productos.controller.js:302-305). -/
def esStockBajoUmbral (umbral : Int) (producto : Doc) : Bool :=
  let stock := resolveStock producto
  stock != .nulo &&
    (match stock.toNumber with
     | some n => decide (n ≤ umbral) && decide (0 ≤ n)
     | none => false)

/-- Body `{ success: true, count, umbral, data }` of `getStockBajo`, sent with
status 200. -/
structure ListadoStockBajo where
  status : Nat
  success : Bool
  count : Nat
  umbral : Int
  data : List Doc
  deriving DecidableEq, Repr

/-- Handler `exports.getStockBajo` (productos.controller.js:282-313); `umbralQ`
is the parsed query parameter `umbral`. -/
def getStockBajo (db : Db) (user : Doc) (umbralQ : Option Int) : ListadoStockBajo :=
  let umbral := parseIntOr umbralQ 5
  let productos := db.productos.map conId
  let productos := filtroAreas user productos
  let productosStockBajo := productos.filter (esStockBajoUmbral umbral)
  { status := 200, success := true, count := productosStockBajo.length, umbral := umbral,
    data := productosStockBajo }

end ProductosController

/-- A store with a product whose stock is negative. -/
def dbNegativo : Db :=
  { productos := [
      ("n1", ⟨[("nombre", .texto "Foco"), ("area", .texto "Bodega"), ("cantidad", .numero (-1))]⟩),
      ("n2", ⟨[("nombre", .texto "Cinta"), ("area", .texto "Bodega"), ("cantidad", .numero 2)]⟩)],
    areas := [("a1", ⟨[("name", .texto "Bodega")]⟩)],
    usuarios := [],
    movimientos := [] }

/-! ## The request user -/

/-- The part of the middleware `verifyToken` that builds `req.user`
(auth.js:25-50) from the store and from the decoded token that
`auth.verifyIdToken` returned. -/
def verifyToken (db : Db) (decodedToken : Doc) : Doc :=
  let usuariosSnapshot := (db.usuarios.donde "email" (decodedToken.campo "email")).take 1
  let userData : Doc := ⟨[
    ("uid", decodedToken.campo "uid"),
    ("email", decodedToken.campo "email"),
    ("emailVerified", decodedToken.campo "email_verified"),
    ("rol", .texto "usuario"),
    ("areasPermitidas", .arr [])]⟩
  match usuariosSnapshot with
  | [] => userData
  | userDoc :: _ => (userData.poner "id" (.texto userDoc.1)).mezclar userDoc.2

/-- A decoded token whose e-mail address no user of the example store has. -/
def tokenDesconocido : Doc :=
  ⟨[("uid", .texto "uid-9"), ("email", .texto "nadie@cielito.mx"),
    ("email_verified", .booleano true)]⟩

/-! ## Inventory report -/

namespace ReportesController

/-- One row of `inventarioPorArea` (reportes.controller.js:47-52). -/
structure InventarioArea where
  area : JsVal
  totalProductos : Nat
  stockTotal : Numero
  productos : List Doc
  deriving DecidableEq, Repr

/-- The `resumen` of the inventory report (without the generation date). -/
structure ResumenInventario where
  totalAreas : Nat
  totalProductos : Nat
  stockTotal : Numero
  deriving DecidableEq, Repr

/-- Body `data` of `getReporteInventario`, sent with status 200. -/
structure ReporteInventario where
  resumen : ResumenInventario
  inventarioPorArea : List InventarioArea
  deriving DecidableEq, Repr

/-- The row of one area: the products whose `area` is the area's `name`, with
their number and the sum of their stocks (reportes.controller.js:40-53); the
reducer is the one of the dashboard's KPIs. -/
def inventarioDeArea (productos : List Doc) (area : Doc) : InventarioArea :=
  let productosArea := productos.filter fun p => strictEq (p.campo "area") (area.campo "name")
  { area := area.campo "name",
    totalProductos := productosArea.length,
    stockTotal := productosArea.foldl DashboardController.sumarStock (some 0),
    productos := productosArea }

/-- The reducer `(sum, a) => sum + a.stockTotal`. -/
def sumarArea (sum : Numero) (a : InventarioArea) : Numero :=
  sum.bind fun s => a.stockTotal.map fun n => s + n

/-- Handler `exports.getReporteInventario` (reportes.controller.js:7-69). -/
def getReporteInventario (db : Db) (user : Doc) : ReporteInventario :=
  let productos := db.productos.map conId
  let productos := ProductosController.filtroAreas user productos
  let areas := db.areas.map conId
  let areas := AreasController.filtroAreas user areas
  let inventarioPorArea := areas.map (inventarioDeArea productos)
  { resumen := { totalAreas := areas.length,
                 totalProductos := productos.length,
                 stockTotal := inventarioPorArea.foldl sumarArea (some 0) },
    inventarioPorArea := inventarioPorArea }

end ReportesController

/-- The areas a user sees: the stored areas with their ids, after the area
filter. -/
def areasVisibles (db : Db) (user : Doc) : List Doc :=
  AreasController.filtroAreas user (db.areas.map conId)

/-- Every product that the user sees is in exactly one of the areas that the
user sees: its `area` is the `name` of one and only one of them. -/
def cadaProductoEnUnArea (db : Db) (user : Doc) : Prop :=
  ∀ p ∈ productosVisibles db user,
    (areasVisibles db user).countP (fun a => strictEq (p.campo "area") (a.campo "name")) = 1

instance (db : Db) (user : Doc) : Decidable (cadaProductoEnUnArea db user) := by
  unfold cadaProductoEnUnArea; exact inferInstance

/-- A store with a product whose area, `Sotano`, is not the name of any stored
area. -/
def dbHuerfano : Db :=
  { productos := [
      ("p1", ⟨[("nombre", .texto "Taladro"), ("area", .texto "Bodega"), ("cantidad", .numero 10)]⟩),
      ("p9", ⟨[("nombre", .texto "Pala"), ("area", .texto "Sotano"), ("cantidad", .numero 4)]⟩)],
    areas := [("a1", ⟨[("name", .texto "Bodega")]⟩)],
    usuarios := [],
    movimientos := [] }

/-! ## Movement trends -/

/-- One step of a `forEach` that groups into an object, which is kept as the
list of its own properties in insertion order: the entry under `clave` is
created as `nuevo` if it is missing, then updated by `contar`. -/
def agrupar {κ ε : Type} [DecidableEq κ] (clave : κ) (nuevo : ε) (contar : ε → ε) :
    List (κ × ε) → List (κ × ε)
  | [] => [(clave, contar nuevo)]
  | (k, e) :: r =>
    if k = clave then (k, contar e) :: r else (k, e) :: agrupar clave nuevo contar r

/-- The grouping object after a `forEach` over the movements, for movements
that all have a key. -/
def agruparTodos {κ ε : Type} [DecidableEq κ] (clave : Doc → κ) (nuevo : Doc → ε)
    (contar : ε → Doc → ε) (movimientos : List Doc) : List (κ × ε) :=
  movimientos.foldl (fun acc mov => agrupar (clave mov) (nuevo mov) (fun e => contar e mov) acc) []

namespace DashboardController

/-- One bucket of `tendenciaPorDia` (dashboard.controller.js:242-248); `fecha`
is the day as its number of days since 1970-01-01. -/
structure TendenciaDia where
  fecha : Int
  total : Nat
  entradas : Nat
  descuentos : Nat
  eliminados : Nat
  deriving DecidableEq, Repr

/-- One entry of `tendenciaPorArea` (dashboard.controller.js:260-265). -/
structure TendenciaArea where
  area : JsVal
  total : Nat
  entradas : Nat
  descuentos : Nat
  deriving DecidableEq, Repr

/-- The key `new Date(mov.fecha).toISOString().split('T')[0]`: the calendar
day, in UTC, of the movement's instant. The day is identified by its number of
days since 1970-01-01, of which the text `YYYY-MM-DD` is a one-to-one
rendering that is left out here. Only timestamps reach this code (the range
query on `fecha` returns nothing else); any other value is read as an invalid
date (`none`), for which `toISOString` throws. -/
def diaDe (mov : Doc) : Option Int :=
  (ReportesController.fechaMs (mov.campo "fecha")).map fun ms => ms.fdiv 86400000

/-- The `RangeError` that `toISOString` throws for an invalid date. -/
def fechaInvalida : ErrorJs :=
  { message := "Invalid time value", array := none, code := none, status := .indefinido,
    statusCode := .indefinido, stack := "" }

/-- The bucket created for a day seen for the first time. -/
def diaInicial (dia : Int) : TendenciaDia :=
  { fecha := dia, total := 0, entradas := 0, descuentos := 0, eliminados := 0 }

/-- The updates of a day's bucket for one movement
(dashboard.controller.js:250-253). -/
def contarDia (e : TendenciaDia) (mov : Doc) : TendenciaDia :=
  { fecha := e.fecha,
    total := e.total + 1,
    entradas := e.entradas + (if strictEq (mov.campo "tipo") (.texto "entrada") then 1 else 0),
    descuentos :=
      e.descuentos + (if strictEq (mov.campo "tipo") (.texto "descuento") then 1 else 0),
    eliminados :=
      e.eliminados + (if strictEq (mov.campo "tipo") (.texto "eliminado") then 1 else 0) }

/-- One step of the `forEach` that groups by day
(dashboard.controller.js:239-254). -/
def registrarDia (acc : List (Int × TendenciaDia)) (mov : Doc) :
    Except ErrorJs (List (Int × TendenciaDia)) :=
  match diaDe mov with
  | none => .error fechaInvalida
  | some dia => .ok (agrupar dia (diaInicial dia) (fun e => contarDia e mov) acc)

/-- The list `Object.values(tendenciaPorDia)` (dashboard.controller.js:238-254,
277). -/
def tendenciaPorDia (movimientos : List Doc) : Except ErrorJs (List TendenciaDia) :=
  (movimientos.foldlM registrarDia []).map fun t => t.map Prod.snd

/-- The entry created for an area seen for the first time. -/
def areaInicial (mov : Doc) : TendenciaArea :=
  { area := mov.campo "area", total := 0, entradas := 0, descuentos := 0 }

/-- The updates of an area's entry for one movement
(dashboard.controller.js:267-269). -/
def contarArea (e : TendenciaArea) (mov : Doc) : TendenciaArea :=
  { area := e.area,
    total := e.total + 1,
    entradas := e.entradas + (if strictEq (mov.campo "tipo") (.texto "entrada") then 1 else 0),
    descuentos :=
      e.descuentos + (if strictEq (mov.campo "tipo") (.texto "descuento") then 1 else 0) }

/-- The list `Object.values(tendenciaPorArea)` (dashboard.controller.js:257-270,
278); the property key is the string form of `mov.area`, an area name. -/
def tendenciaPorArea (movimientos : List Doc) : List TendenciaArea :=
  (agruparTodos (fun mov => (mov.campo "area").toStr) areaInicial contarArea movimientos).map
    Prod.snd

/-- Body `data` of `getTendencias`, sent with status 200. -/
structure Tendencias where
  periodo : String
  totalMovimientos : Nat
  tendenciaPorDia : List TendenciaDia
  tendenciaPorArea : List TendenciaArea
  deriving DecidableEq, Repr

/-- Handler `exports.getTendencias` (dashboard.controller.js:210-281); `diasQ`
is the parsed query parameter `dias` and `fechaLimite` the instant that many
days before the request. -/
def getTendencias (db : Db) (user : Doc) (diasQ : Option Int) (fechaLimite : Int) :
    Except ErrorJs Tendencias :=
  let dias := parseIntOr diasQ 30
  let movimientos := (db.movimientos.desdeFecha "fecha" fechaLimite).map
    MovimientosController.conIdFecha
  let movimientos := MovimientosController.filtroAreas user movimientos
  (tendenciaPorDia movimientos).map fun porDia =>
    { periodo := toString dias ++ " días",
      totalMovimientos := movimientos.length,
      tendenciaPorDia := porDia,
      tendenciaPorArea := tendenciaPorArea movimientos }

end DashboardController

/-- The distinct elements of a list in the order in which they are first
seen. -/
def primerasVistas {α : Type} [DecidableEq α] : List α → List α
  | [] => []
  | a :: r => a :: (primerasVistas r).filter fun b => decide (b ≠ a)

/-- The days of the movements, in the order of the list. -/
def diasDe (movimientos : List Doc) : List Int :=
  movimientos.filterMap DashboardController.diaDe

/-- The bucket of a day as the specification words it: the number of the
day's movements and the numbers of those of each type. -/
def cubetaDe (movimientos : List Doc) (dia : Int) : DashboardController.TendenciaDia :=
  { fecha := dia,
    total := movimientos.countP fun m => decide (DashboardController.diaDe m = some dia),
    entradas := movimientos.countP fun m =>
      decide (DashboardController.diaDe m = some dia ∧ m.campo "tipo" = .texto "entrada"),
    descuentos := movimientos.countP fun m =>
      decide (DashboardController.diaDe m = some dia ∧ m.campo "tipo" = .texto "descuento"),
    eliminados := movimientos.countP fun m =>
      decide (DashboardController.diaDe m = some dia ∧ m.campo "tipo" = .texto "eliminado") }

/-- The movements are in ascending order of their timestamps. -/
def fechasAscendentes (movimientos : List Doc) : Prop :=
  movimientos.Pairwise fun a b =>
    ∀ x y, a.campo "fecha" = .numero x → b.campo "fecha" = .numero y → x ≤ y

/-- Five movements on three days, not in the order of their timestamps: the
days are 1, 0, 1, 2, 0. -/
def movimientosTendencia : List Doc :=
  [⟨[("id", .texto "t1"), ("tipo", .texto "entrada"), ("area", .texto "Bodega"),
     ("fecha", .numero 90000000)]⟩,
   ⟨[("id", .texto "t2"), ("tipo", .texto "descuento"), ("area", .texto "Bodega"),
     ("fecha", .numero 1000)]⟩,
   ⟨[("id", .texto "t3"), ("tipo", .texto "salida"), ("area", .texto "Cocina"),
     ("fecha", .numero 100000000)]⟩,
   ⟨[("id", .texto "t4"), ("tipo", .texto "eliminado"), ("area", .texto "Cocina"),
     ("fecha", .numero 180000000)]⟩,
   ⟨[("id", .texto "t5"), ("tipo", .texto "entrada"), ("area", .texto "Bodega"),
     ("fecha", .numero 86399999)]⟩]

/-- A store that holds the five movements of `movimientosTendencia` in the same
order. -/
def dbTendencias : Db :=
  { productos := [],
    areas := [],
    usuarios := [],
    movimientos := [
      ("t1", ⟨[("tipo", .texto "entrada"), ("area", .texto "Bodega"),
               ("fecha", .numero 90000000)]⟩),
      ("t2", ⟨[("tipo", .texto "descuento"), ("area", .texto "Bodega"),
               ("fecha", .numero 1000)]⟩),
      ("t3", ⟨[("tipo", .texto "salida"), ("area", .texto "Cocina"),
               ("fecha", .numero 100000000)]⟩),
      ("t4", ⟨[("tipo", .texto "eliminado"), ("area", .texto "Cocina"),
               ("fecha", .numero 180000000)]⟩),
      ("t5", ⟨[("tipo", .texto "entrada"), ("area", .texto "Bodega"),
               ("fecha", .numero 86399999)]⟩)] }

/-- The movements that `getTendencias` groups: those of the store from
`fechaLimite` on, oldest first, with their ids, after the area filter. -/
def movimientosDesde (db : Db) (user : Doc) (fechaLimite : Int) : List Doc :=
  MovimientosController.filtroAreas user
    ((db.movimientos.desdeFecha "fecha" fechaLimite).map MovimientosController.conIdFecha)

/-! ## Alerts on stocks with a fraction -/

/-- A stored value when a number may have a fraction: a value of the kind
above, or a finite number given as a rational (every finite double is one, and
the comparisons of the alert filters are exact on it). -/
inductive ValorDecimal where
  | valor (v : JsVal)
  | fraccion (q : ℚ)
  deriving DecidableEq

/-- `v == null`, the test behind `??`. -/
def ValorDecimal.nullish : ValorDecimal → Bool
  | .valor v => v.nullish
  | .fraccion _ => false

/-- Nullish coalescing `a ?? b`. -/
def ValorDecimal.coalesce (a b : ValorDecimal) : ValorDecimal :=
  if a.nullish then b else a

/-- `Number(v)`; `none` stands for `NaN`. A value of the first embedding
converts as it does there (of the strings, the integer literals are read). -/
def ValorDecimal.toNumber : ValorDecimal → Option ℚ
  | .valor v => v.toNumber.map fun n => (n : ℚ)
  | .fraccion q => some q

/-- The call `a.includes(v)` on the array `a` of a request user. -/
def ValorDecimal.incluidoEn (a : JsVal) : ValorDecimal → Bool
  | .valor v => a.includes v
  | .fraccion q =>
    match a with
    | .arr xs => xs.any fun x =>
      match x with
      | .num n => decide ((n : ℚ) = q)
      | _ => false
    | .prim _ => false

/-- A record whose values may be numbers with a fraction. -/
structure DocDecimal where
  campos : List (String × ValorDecimal)
  deriving DecidableEq

/-- Property read `d.k`; a missing key reads as `undefined`. -/
def DocDecimal.campo (d : DocDecimal) (k : String) : ValorDecimal :=
  match d.campos.lookup k with
  | some v => v
  | none => .valor .indefinido

/-- Assignment of one key in a list of pairs: replaces the value in place or
appends the pair. -/
def ponerDecimal : List (String × ValorDecimal) → String → ValorDecimal →
    List (String × ValorDecimal)
  | [], k, v => [(k, v)]
  | (k0, v0) :: r, k, v => if k0 = k then (k0, v) :: r else (k0, v0) :: ponerDecimal r k v

/-- The mapping `doc => ({ id: doc.id, ...doc.data() })` of a snapshot. -/
def conIdDecimal (e : String × DocDecimal) : DocDecimal :=
  ⟨e.2.campos.foldl (fun acc kv => ponerDecimal acc kv.1 kv.2) [("id", .valor (.texto e.1))]⟩

/-- The record with the same fields, as one whose values may have a fraction. -/
def Doc.aDecimal (d : Doc) : DocDecimal :=
  ⟨d.campos.map fun kv => (kv.1, .valor kv.2)⟩

/-- Stock resolution `p.cantidad ?? p.Stock ?? p.stock ?? null`. -/
def resolveStockDecimal (p : DocDecimal) : ValorDecimal :=
  (((p.campo "cantidad").coalesce (p.campo "Stock")).coalesce (p.campo "stock")).coalesce
    (.valor .nulo)

/-- The number a product's resolved stock stands for; `none` when the product
has no resolved stock, or when what is stored is not a number. -/
def stockPresenteDecimal (p : DocDecimal) : Option ℚ :=
  if resolveStockDecimal p = .valor .nulo then none else (resolveStockDecimal p).toNumber

namespace DashboardController

/-- The predicate `stock !== null && Number(stock) === 0`
(dashboard.controller.js:170-173). -/
def esSinStockDecimal (p : DocDecimal) : Bool :=
  let stock := resolveStockDecimal p
  stock != .valor .nulo &&
    (match stock.toNumber with
     | some q => decide (q = 0)
     | none => false)

/-- The predicate `stock !== null && Number(stock) > 0 && Number(stock) <= 2`
(dashboard.controller.js:175-179). -/
def esStockCriticoDecimal (p : DocDecimal) : Bool :=
  let stock := resolveStockDecimal p
  stock != .valor .nulo &&
    (match stock.toNumber with
     | some q => decide (0 < q) && decide (q ≤ 2)
     | none => false)

/-- The predicate `stock !== null && Number(stock) > 2 && Number(stock) <= 5`
(dashboard.controller.js:181-185). -/
def esStockBajoAlertaDecimal (p : DocDecimal) : Bool :=
  let stock := resolveStockDecimal p
  stock != .valor .nulo &&
    (match stock.toNumber with
     | some q => decide (2 < q) && decide (q ≤ 5)
     | none => false)

/-- One band of the alerts: `{ count, productos }`. -/
structure BandaDecimal where
  count : Nat
  productos : List DocDecimal
  deriving DecidableEq

/-- Body `data` of `getAlertas`, sent with status 200. -/
structure AlertasDecimal where
  totalAlertas : Nat
  sinStock : BandaDecimal
  stockCritico : BandaDecimal
  stockBajo : BandaDecimal
  deriving DecidableEq

/-- Handler `exports.getAlertas` (dashboard.controller.js:155-205) on a
collection of products whose values may be numbers with a fraction. -/
def getAlertasDecimal (productos : List (String × DocDecimal)) (user : Doc) : AlertasDecimal :=
  let productos := productos.map conIdDecimal
  let productos :=
    if debeFiltrar user then
      productos.filter fun producto =>
        (producto.campo "area").incluidoEn (user.campo "areasPermitidas")
    else productos
  let sinStock := productos.filter esSinStockDecimal
  let stockCritico := productos.filter esStockCriticoDecimal
  let stockBajo := productos.filter esStockBajoAlertaDecimal
  { totalAlertas := sinStock.length + stockCritico.length + stockBajo.length,
    sinStock := { count := sinStock.length, productos := jsSlice sinStock 0 10 },
    stockCritico := { count := stockCritico.length, productos := jsSlice stockCritico 0 10 },
    stockBajo := { count := stockBajo.length, productos := jsSlice stockBajo 0 10 } }

end DashboardController

/-- Three products of the area `Bodega` with the stocks 2.5, 0.5 and 3. -/
def productosDecimales : List (String × DocDecimal) :=
  [("d1", ⟨[("nombre", .valor (.texto "Harina")), ("area", .valor (.texto "Bodega")),
            ("cantidad", .fraccion (mkRat 5 2))]⟩),
   ("d2", ⟨[("nombre", .valor (.texto "Azucar")), ("area", .valor (.texto "Bodega")),
            ("cantidad", .fraccion (mkRat 1 2))]⟩),
   ("d3", ⟨[("nombre", .valor (.texto "Sal")), ("area", .valor (.texto "Bodega")),
            ("cantidad", .valor (.numero 3))]⟩)]

/-! ## Theorems -/

/-! ### Values and records -/

theorem strictEq_texto (v : JsVal) (s : String) :
    strictEq v (.texto s) = true ↔ v = .texto s := by
  cases v with
  | prim p => cases p <;> simp [strictEq, JsVal.texto]
  | arr xs => simp [strictEq, JsVal.texto]

theorem includes_iff (permitidas : List Prim) (v : JsVal) :
    (JsVal.arr permitidas).includes v = true ↔ esElemento permitidas v := by
  cases v with
  | prim p =>
    simp only [JsVal.includes, esElemento, List.any_eq_true, sameValueZero, decide_eq_true_eq]
    constructor
    · rintro ⟨x, hx, rfl⟩
      exact ⟨x, hx, rfl⟩
    · rintro ⟨q, hq, e⟩
      have hpq : p = q := by injection e
      subst hpq
      exact ⟨p, hq, rfl⟩
  | arr xs =>
    simp only [JsVal.includes, esElemento]
    constructor
    · intro h
      cases h
    · rintro ⟨_, _, e⟩
      cases e

theorem includes_eq_decide (permitidas : List Prim) (v : JsVal) :
    (JsVal.arr permitidas).includes v = decide (esElemento permitidas v) := by
  rw [Bool.eq_iff_iff, includes_iff, decide_eq_true_iff]

theorem lookup_ponerEn_mismo (l : List (String × JsVal)) (k : String) (v : JsVal) :
    (ponerEn l k v).lookup k = some v := by
  induction l with
  | nil => simp [ponerEn, List.lookup]
  | cons a r ih =>
    obtain ⟨k0, v0⟩ := a
    by_cases h : k0 = k
    · subst h
      simp [ponerEn, List.lookup]
    · have h2 : (k == k0) = false := by
        simpa using fun e => h e.symm
      simp [ponerEn, h, List.lookup, h2, ih]

theorem lookup_ponerEn_otro (l : List (String × JsVal)) (k j : String) (v : JsVal)
    (hjk : j ≠ k) : (ponerEn l k v).lookup j = l.lookup j := by
  induction l with
  | nil =>
    have h2 : (j == k) = false := by simpa using hjk
    simp [ponerEn, List.lookup, h2]
  | cons a r ih =>
    obtain ⟨k0, v0⟩ := a
    by_cases h : k0 = k
    · subst h
      have h2 : (j == k0) = false := by simpa using hjk
      simp [ponerEn, List.lookup, h2]
    · by_cases hj : j = k0
      · subst hj
        simp [ponerEn, h, List.lookup]
      · have h2 : (j == k0) = false := by simpa using hj
        simp [ponerEn, h, List.lookup, h2, ih]

theorem campo_poner_mismo (d : Doc) (k : String) (v : JsVal) :
    (d.poner k v).campo k = v := by
  simp [Doc.campo, Doc.poner, lookup_ponerEn_mismo]

theorem campo_poner_otro (d : Doc) (k j : String) (v : JsVal) (hjk : j ≠ k) :
    (d.poner k v).campo j = d.campo j := by
  simp [Doc.campo, Doc.poner, lookup_ponerEn_otro _ _ _ _ hjk]

theorem tiene_poner_mismo (d : Doc) (k : String) (v : JsVal) :
    (d.poner k v).tiene k = true := by
  simp [Doc.tiene, Doc.poner, lookup_ponerEn_mismo]

/-! ### The store -/

theorem lookup_cons_igual {β : Type} (k : String) (d : β) (r : List (String × β)) :
    List.lookup k ((k, d) :: r) = some d := by
  simp [List.lookup]

theorem lookup_cons_distinto {β : Type} (id k : String) (d : β) (r : List (String × β))
    (h : k ≠ id) : List.lookup id ((k, d) :: r) = List.lookup id r := by
  have h2 : (id == k) = false := by simpa using fun e => h e.symm
  simp [List.lookup, h2]

theorem buscar_eliminar (c : Coleccion) (id : String) :
    (c.eliminar id).buscar id = none := by
  induction c with
  | nil => rfl
  | cons a r ih =>
    obtain ⟨k, d⟩ := a
    unfold Coleccion.eliminar Coleccion.buscar at ih ⊢
    by_cases h : k = id
    · rw [List.filter_cons_of_neg (by simp [h])]
      exact ih
    · rw [List.filter_cons_of_pos (by simp [h]), lookup_cons_distinto _ _ _ _ h]
      exact ih

theorem buscar_actualizar (c : Coleccion) (id : String) (patch : Doc) :
    (c.actualizar id patch).buscar id = (c.buscar id).map fun d => d.mezclar patch := by
  induction c with
  | nil => rfl
  | cons a r ih =>
    obtain ⟨k, d⟩ := a
    unfold Coleccion.actualizar Coleccion.buscar at ih ⊢
    rw [List.map_cons]
    by_cases h : k = id
    · subst h
      rw [if_pos rfl, lookup_cons_igual, lookup_cons_igual]
      rfl
    · rw [if_neg h, lookup_cons_distinto _ _ _ _ h, lookup_cons_distinto _ _ _ _ h]
      exact ih

theorem donde_vacia_iff (db : Db) (nombre : JsVal) :
    ((db.productos.donde "area" nombre).take 1).isEmpty = true ↔ ¬ referenciaArea db nombre := by
  unfold referenciaArea Coleccion.donde
  constructor
  · intro h
    rintro ⟨e, he, hl⟩
    have hm : e ∈ db.productos.filter (fun e => e.2.campos.lookup "area" == some nombre) := by
      simp [List.mem_filter, he, hl]
    cases hf : db.productos.filter (fun e => e.2.campos.lookup "area" == some nombre) with
    | nil => rw [hf] at hm; cases hm
    | cons a r => rw [hf] at h; simp at h
  · intro h
    have hf : db.productos.filter (fun e => e.2.campos.lookup "area" == some nombre) = [] := by
      rw [List.filter_eq_nil_iff]
      intro e he hl
      exact h ⟨e, he, by simpa using hl⟩
    rw [hf]
    rfl


theorem campoStock_no_es_auditoria (producto : Doc) :
    campoStock producto ≠ "updatedAt" ∧ campoStock producto ≠ "updatedBy" := by
  unfold campoStock
  split_ifs <;> decide

theorem debeFiltrar_admin (user : Doc) (h : user.campo "rol" = .texto "admin") :
    debeFiltrar user = false := by
  simp [debeFiltrar, (strictEq_texto _ _).mpr h]

theorem debeFiltrar_lista (user : Doc) (permitidas : List Prim)
    (hrol : user.campo "rol" ≠ .texto "admin")
    (h : user.campo "areasPermitidas" = .arr permitidas) : debeFiltrar user = true := by
  have hs : strictEq (user.campo "rol") (.texto "admin") = false := by
    rw [Bool.eq_false_iff]
    exact fun e => hrol ((strictEq_texto _ _).mp e)
  simp [debeFiltrar, hs, h, JsVal.isArray]

theorem campo_sin_clave (d : Doc) (k : String) (h : d.tiene k = false) :
    d.campo k = .indefinido := by
  unfold Doc.tiene at h
  unfold Doc.campo
  cases hl : d.campos.lookup k with
  | none => rfl
  | some v => rw [hl] at h; cases h

theorem campo_tras_parche (producto : Doc) (c k : String) (v ahora email : JsVal)
    (h1 : k ≠ "updatedAt") (h2 : k ≠ "updatedBy") :
    (producto.mezclar ⟨[(c, v), ("updatedAt", ahora), ("updatedBy", email)]⟩).campo k =
      if k = c then v else producto.campo k := by
  show (((producto.poner c v).poner "updatedAt" ahora).poner "updatedBy" email).campo k = _
  rw [campo_poner_otro _ _ _ _ h2, campo_poner_otro _ _ _ _ h1]
  by_cases hk : k = c
  · subst hk
    rw [if_pos rfl, campo_poner_mismo]
  · rw [if_neg hk, campo_poner_otro _ _ _ _ hk]

theorem resolveStock_tras_descuento (producto : Doc) (n : Int) (ahora email : JsVal) :
    resolveStock (producto.mezclar
      ⟨[(campoStock producto, .numero n), ("updatedAt", ahora), ("updatedBy", email)]⟩) =
      .numero n := by
  have hn : (JsVal.numero n).nullish = false := rfl
  have hu : JsVal.indefinido.nullish = true := rfl
  unfold resolveStock resolveStockOr
  rw [campo_tras_parche _ _ "cantidad" _ _ _ (by decide) (by decide),
    campo_tras_parche _ _ "Stock" _ _ _ (by decide) (by decide),
    campo_tras_parche _ _ "stock" _ _ _ (by decide) (by decide)]
  unfold campoStock
  by_cases hc : producto.tiene "cantidad" = true
  · simp [hc, JsVal.coalesce, hn]
  · have hc2 : producto.tiene "cantidad" = false := by simpa using hc
    by_cases hS : producto.tiene "Stock" = true
    · simp [hc2, hS, JsVal.coalesce, hn, hu, campo_sin_clave _ _ hc2]
    · have hS2 : producto.tiene "Stock" = false := by simpa using hS
      by_cases hs : producto.tiene "stock" = true
      · simp [hc2, hS2, hs, JsVal.coalesce, hn, hu, campo_sin_clave _ _ hc2,
          campo_sin_clave _ _ hS2]
      · simp [hc2, hS2, hs, JsVal.coalesce, hn]

/-! ### Area filter -/

/-- C1, the code at the failing input: for the non-admin request user whose
stored `areasPermitidas` is `null` the guard of the area filter is false, and
`productos.getAll`, `areas.getAll`, `movimientos.getAll` and
`dashboard.getKPIs` answer with every stored document instead of none. -/
theorem listados_sin_lista_no_filtran :
    debeFiltrar usuarioSinLista = false ∧
    (ProductosController.getAll dbEjemplo usuarioSinLista).data = dbEjemplo.productos.map conId ∧
    (ProductosController.getAll dbEjemplo usuarioSinLista).count = 2 ∧
    (AreasController.getAll dbEjemplo usuarioSinLista).data = dbEjemplo.areas.map conId ∧
    (AreasController.getAll dbEjemplo usuarioSinLista).count = 3 ∧
    (MovimientosController.getAll dbEjemplo usuarioSinLista none none).total = 2 ∧
    (MovimientosController.getAll dbEjemplo usuarioSinLista none none).count = 2 ∧
    (DashboardController.getKPIs dbEjemplo usuarioSinLista).totalProductos = 2 ∧
    (DashboardController.getKPIs dbEjemplo usuarioSinLista).totalAreas = 3 := by
  decide

/-- C2: for a user whose `areasPermitidas` is an array, each of the three area
filters returns its input unchanged when the role is `admin`, and otherwise
returns exactly the sub-list, in the input's order, of the entities that are
permitted: a product or movement when its `area` is an element of the array, an
area entity when its `id` or its `name` is. -/
theorem filtroAreas_referencia (user : Doc) (permitidas : List Prim)
    (h : user.campo "areasPermitidas" = .arr permitidas)
    (productos areas movimientos : List Doc) :
    (user.campo "rol" = .texto "admin" →
      ProductosController.filtroAreas user productos = productos ∧
      AreasController.filtroAreas user areas = areas ∧
      MovimientosController.filtroAreas user movimientos = movimientos) ∧
    (user.campo "rol" ≠ .texto "admin" →
      ProductosController.filtroAreas user productos =
        productos.filter (fun e => decide (porAreaPermitido permitidas e)) ∧
      AreasController.filtroAreas user areas =
        areas.filter (fun e => decide (areaPermitida permitidas e)) ∧
      MovimientosController.filtroAreas user movimientos =
        movimientos.filter (fun e => decide (porAreaPermitido permitidas e))) := by
  constructor
  · intro hrol
    have hd := debeFiltrar_admin user hrol
    simp [ProductosController.filtroAreas, AreasController.filtroAreas,
      MovimientosController.filtroAreas, hd]
  · intro hrol
    have hd := debeFiltrar_lista user permitidas hrol h
    simp only [ProductosController.filtroAreas, AreasController.filtroAreas,
      MovimientosController.filtroAreas, hd, if_true, h, includes_eq_decide]
    refine ⟨rfl, ?_, rfl⟩
    apply List.filter_congr
    intro e _
    simp [areaPermitida]

/-- Witness of C2 on the example store: the user restricted to `Cocina` sees the
products of `Cocina` only. -/
theorem filtroAreas_referencia_witness :
    usuarioCocina.campo "areasPermitidas" = .arr [.str "Cocina"] ∧
    usuarioCocina.campo "rol" ≠ .texto "admin" ∧
    ProductosController.filtroAreas usuarioCocina (dbEjemplo.productos.map conId) =
      (dbEjemplo.productos.map conId).filter
        (fun e => decide (porAreaPermitido [.str "Cocina"] e)) :=
  ⟨by decide, by decide,
    ((filtroAreas_referencia usuarioCocina [.str "Cocina"] (by decide)
      (dbEjemplo.productos.map conId) [] []).2 (by decide)).1⟩

/-! ### Discounting stock -/

/-- C3 as stated fails: the user restricted to `Cocina` asks to discount 11 from
product `p1` (area `Bodega`, stock 10); the request is rejected with status
code 403, not 400. -/
theorem descontarStock_rechazo_sin_acceso_403 :
    dbEjemplo.productos.buscar "p1" = some productoTaladro ∧
    resolveStockOr productoTaladro (.numero 0) = .numero 10 ∧
    (10 : Int) < 11 ∧
    (ProductosController.descontarStock dbEjemplo usuarioCocina "p1" 11 "m3"
      (.numero 300)).codigoError = some (.numero 403) ∧
    (ProductosController.descontarStock dbEjemplo usuarioCocina "p1" 11 "m3"
      (.numero 300)).codigoError ≠ some (.numero 400) := by
  decide

/-- C3, amended: for every stored product whose resolved stock (a missing
stock counting as 0) has the numeric value `s` and every quantity `q > s`,
`descontarStock` throws and leaves the whole store as it was; the error is the
`AppError` with status code 400 when the requester has access to the product
and the `AppError` with status code 403 when not. -/
theorem descontarStock_rechazo_sin_mutacion (db : Db) (user : Doc) (id : String) (q : Int)
    (mid : String) (ahora : JsVal) (producto : Doc) (s : Int)
    (hprod : db.productos.buscar id = some producto)
    (hstock : (resolveStockOr producto (.numero 0)).toNumber = some s)
    (hq : s < q) :
    (ProductosController.descontarStock db user id q mid ahora).db = db ∧
    (ProductosController.descontarStock db user id q mid ahora).salida =
      .error (if sinAcceso user producto then AppError "No tienes acceso a este producto" 403
        else AppError ("Stock insuficiente. Disponible: " ++
          (resolveStockOr producto (.numero 0)).toStr) 400) ∧
    (ProductosController.descontarStock db user id q mid ahora).codigoError =
      some (.numero (if sinAcceso user producto then 403 else 400)) := by
  have hm : menorQueNum (resolveStockOr producto (.numero 0)) q = true := by
    simp [menorQueNum, hstock, hq]
  unfold ProductosController.descontarStock
  rw [hprod]
  by_cases hacc : sinAcceso user producto = true
  · simp [hacc, Resultado.codigoError, AppError]
  · simp [hacc, hm, Resultado.codigoError, AppError]

/-- Witness of C3: the administrator discounting 11 from stock 10. -/
theorem descontarStock_rechazo_sin_mutacion_witness :
    (ProductosController.descontarStock dbEjemplo usuarioAdmin "p1" 11 "m3" (.numero 300)).db =
      dbEjemplo ∧
    (ProductosController.descontarStock dbEjemplo usuarioAdmin "p1" 11 "m3"
      (.numero 300)).codigoError = some (.numero (if sinAcceso usuarioAdmin productoTaladro
        then 403 else 400)) :=
  ⟨(descontarStock_rechazo_sin_mutacion dbEjemplo usuarioAdmin "p1" 11 "m3" (.numero 300)
      productoTaladro 10 (by decide) (by decide) (by decide)).1,
   (descontarStock_rechazo_sin_mutacion dbEjemplo usuarioAdmin "p1" 11 "m3" (.numero 300)
      productoTaladro 10 (by decide) (by decide) (by decide)).2.2⟩

/-- C4: for a stored product the requester has access to, with resolved stock
the number `s`, and a quantity `q` with `1 ≤ q ≤ s`, `descontarStock` writes `s - q ≥ 0` under the product's stock field (the
stock resolved from the updated record is `s - q`), appends
exactly one movement, of type `descuento` with `cantidad q`, `stockAnterior s`
and `stockNuevo s - q`, and answers with `stockAnterior s`,
`cantidadDescontada q` and `stockActual s - q`. -/
theorem descontarStock_exito (db : Db) (user : Doc) (id : String) (q : Int)
    (mid : String) (ahora : JsVal) (producto : Doc) (s : Int)
    (hprod : db.productos.buscar id = some producto)
    (hacc : sinAcceso user producto = false)
    (hstock : resolveStockOr producto (.numero 0) = .numero s)
    (hq1 : 1 ≤ q) (hqs : q ≤ s) :
    0 ≤ s - q ∧
    (∃ p, (ProductosController.descontarStock db user id q mid ahora).db.productos.buscar id =
        some p ∧ p.campo (campoStock producto) = .numero (s - q) ∧
        resolveStock p = .numero (s - q)) ∧
    (∃ mov, (ProductosController.descontarStock db user id q mid ahora).db.movimientos =
        db.movimientos ++ [(mid, mov)] ∧
      mov.campo "tipo" = .texto "descuento" ∧
      mov.campo "cantidad" = .numero q ∧
      mov.campo "stockAnterior" = .numero s ∧
      mov.campo "stockNuevo" = .numero (s - q)) ∧
    (ProductosController.descontarStock db user id q mid ahora).salida =
      .ok { status := 200, success := true, message := "Stock descontado correctamente",
            data := some ⟨[("productoId", .texto id), ("stockAnterior", .numero s),
              ("cantidadDescontada", .numero q), ("stockActual", .numero (s - q))]⟩ } := by
  have _h := hq1
  have hm : menorQueNum (.numero s) q = false := by
    simp [menorQueNum, JsVal.toNumber, JsVal.numero, Prim.toNumber, hqs]
  have hr : restarNum (.numero s) q = .numero (s - q) := by
    simp [restarNum, JsVal.toNumber, JsVal.numero, Prim.toNumber, Numero.aValor]
  obtain ⟨hc1, hc2⟩ := campoStock_no_es_auditoria producto
  unfold ProductosController.descontarStock
  rw [hprod]
  simp only [hacc, hstock, hm, hr, Bool.false_eq_true, if_false]
  refine ⟨by omega,
    ⟨producto.mezclar ⟨[(campoStock producto, .numero (s - q)), ("updatedAt", ahora),
      ("updatedBy", user.campo "email")]⟩, ?_, ?_, ?_⟩,
    ⟨_, rfl, rfl, rfl, rfl, rfl⟩, trivial⟩
  · rw [buscar_actualizar, hprod]
    rfl
  · rw [campo_tras_parche _ _ _ _ _ _ hc1 hc2, if_pos rfl]
  · exact resolveStock_tras_descuento producto (s - q) ahora (user.campo "email")

/-- Witness of C4: the administrator discounting 4 from stock 10 leaves 6. -/
theorem descontarStock_exito_witness :
    (0 : Int) ≤ 10 - 4 ∧
    (ProductosController.descontarStock dbEjemplo usuarioAdmin "p1" 4 "m3" (.numero 300)).salida =
      .ok { status := 200, success := true, message := "Stock descontado correctamente",
            data := some ⟨[("productoId", .texto "p1"), ("stockAnterior", .numero 10),
              ("cantidadDescontada", .numero 4), ("stockActual", .numero (10 - 4))]⟩ } :=
  ⟨(descontarStock_exito dbEjemplo usuarioAdmin "p1" 4 "m3" (.numero 300) productoTaladro 10
      (by decide) (by decide) (by decide) (by decide) (by decide)).1,
   (descontarStock_exito dbEjemplo usuarioAdmin "p1" 4 "m3" (.numero 300) productoTaladro 10
      (by decide) (by decide) (by decide) (by decide) (by decide)).2.2.2⟩

/-! ### Stock resolution -/

/-- C5 as stated fails: on the record `{cantidad: null, Stock: 5}` the key
`cantidad` is present, yet the resolved stock is 5 and not the value under
`cantidad`. -/
theorem resolveStock_cantidad_nula :
    productoCantidadNula.tiene "cantidad" = true ∧
    productoCantidadNula.campo "cantidad" = .nulo ∧
    resolveStock productoCantidadNula = .numero 5 ∧
    resolveStockSpec productoCantidadNula = .nulo ∧
    resolveStock productoCantidadNula ≠ resolveStockSpec productoCantidadNula := by
  decide

/-- C5, amended: the resolved stock is the value under `cantidad` if that key
is present with a value other than `null`, else the value under `Stock` if
present and not `null`, else the value under `stock` if present and not
`null`, else `null`; a value 0 under `cantidad` is returned as 0 whatever the
other keys hold. -/
theorem resolveStock_presente (p : Doc) :
    resolveStock p = resolveStockPresente p ∧
    resolveStock (p.poner "cantidad" (.numero 0)) = .numero 0 := by
  constructor
  · simp only [resolveStock, resolveStockOr, resolveStockPresente, JsVal.coalesce, Doc.campo,
      Doc.tiene]
    cases p.campos.lookup "cantidad" <;> cases p.campos.lookup "Stock" <;>
      cases p.campos.lookup "stock" <;>
      simp [JsVal.indefinido, JsVal.nulo, JsVal.nullish, Prim.nullish] <;>
      split_ifs <;> simp_all [JsVal.nullish, Prim.nullish]
  · simp [resolveStock, resolveStockOr, JsVal.coalesce, campo_poner_mismo, JsVal.numero,
      JsVal.nullish, Prim.nullish]

/-! ### Movements -/

/-- C6 as stated fails for `productos.update`: the administrator updates product
`p1` with the body `{cantidad: 50}`; the handler succeeds, the resolved stock
goes from 10 to 50, and `movimientos` is what it was. -/
theorem update_cambia_stock_sin_movimiento :
    (ProductosController.update dbEjemplo usuarioAdmin "p1" cuerpoCantidad50
      (.numero 300)).exito = true ∧
    (dbEjemplo.productos.buscar "p1").map resolveStock = some (.numero 10) ∧
    ((ProductosController.update dbEjemplo usuarioAdmin "p1" cuerpoCantidad50
      (.numero 300)).db.productos.buscar "p1").map resolveStock = some (.numero 50) ∧
    (ProductosController.update dbEjemplo usuarioAdmin "p1" cuerpoCantidad50
      (.numero 300)).db.movimientos = dbEjemplo.movimientos := by
  decide

/-- C6, amended: `productos.create` always succeeds and appends one movement of
type `entrada` for the new product; a successful `productos.delete` appends
one movement of type `eliminado` and a successful `productos.descontarStock`
one of type `descuento`, each for the product of the request;
`productos.update` appends no movement. -/
theorem movimiento_por_accion (db : Db) (user body : Doc) (id nid mid : String) (q : Int)
    (ahora : JsVal) :
    ((ProductosController.create db user body nid mid ahora).exito = true ∧
      ∃ mov, (ProductosController.create db user body nid mid ahora).db.movimientos =
          db.movimientos ++ [(mid, mov)] ∧
        mov.campo "tipo" = .texto "entrada" ∧ mov.campo "productoId" = .texto nid) ∧
    ((ProductosController.delete db user id mid ahora).exito = true →
      ∃ mov, (ProductosController.delete db user id mid ahora).db.movimientos =
          db.movimientos ++ [(mid, mov)] ∧
        mov.campo "tipo" = .texto "eliminado" ∧ mov.campo "productoId" = .texto id) ∧
    ((ProductosController.descontarStock db user id q mid ahora).exito = true →
      ∃ mov, (ProductosController.descontarStock db user id q mid ahora).db.movimientos =
          db.movimientos ++ [(mid, mov)] ∧
        mov.campo "tipo" = .texto "descuento" ∧ mov.campo "productoId" = .texto id) ∧
    (ProductosController.update db user id body ahora).db.movimientos = db.movimientos := by
  refine ⟨⟨rfl, _, rfl, rfl, rfl⟩, ?_, ?_, ?_⟩
  · unfold ProductosController.delete
    cases db.productos.buscar id with
    | none => simp [Resultado.exito]
    | some producto =>
      by_cases hacc : sinAcceso user producto = true
      · simp [hacc, Resultado.exito]
      · intro _
        simp only [hacc, Bool.false_eq_true, if_false]
        exact ⟨_, rfl, rfl, rfl⟩
  · unfold ProductosController.descontarStock
    cases db.productos.buscar id with
    | none => simp [Resultado.exito]
    | some producto =>
      by_cases hacc : sinAcceso user producto = true
      · simp [hacc, Resultado.exito]
      · by_cases hm : menorQueNum (resolveStockOr producto (.numero 0)) q = true
        · simp [hacc, hm, Resultado.exito]
        · intro _
          simp only [hacc, hm, Bool.false_eq_true, if_false]
          exact ⟨_, rfl, rfl, rfl⟩
  · unfold ProductosController.update
    cases db.productos.buscar id with
    | none => rfl
    | some producto =>
      by_cases hacc : sinAcceso user producto = true
      · simp [hacc]
      · simp [hacc]

/-- Witness of C6: the administrator deletes product `p1` of the example store. -/
theorem movimiento_por_accion_witness :
    (ProductosController.delete dbEjemplo usuarioAdmin "p1" "m3" (.numero 300)).exito = true ∧
    ∃ mov, (ProductosController.delete dbEjemplo usuarioAdmin "p1" "m3"
        (.numero 300)).db.movimientos = dbEjemplo.movimientos ++ [("m3", mov)] ∧
      mov.campo "tipo" = .texto "eliminado" ∧ mov.campo "productoId" = .texto "p1" :=
  ⟨by decide,
    (movimiento_por_accion dbEjemplo usuarioAdmin cuerpoCantidad50 "p1" "p3" "m3" 4
      (.numero 300)).2.1 (by decide)⟩

/-- C7: whatever handler of the API serves a request, on whatever store, the
`movimientos` collection afterwards is the collection before followed by the
records the handler added: every earlier record is still there, at its place
and unchanged. -/
theorem movimientos_solo_crecen (db : Db) (user : Doc) (req : Peticion) :
    ∃ nuevos, (ejecutar db user req).movimientos = db.movimientos ++ nuevos := by
  cases req with
  | leer h => exact ⟨[], by simp [ejecutar]⟩
  | authRegister nid ahoraIso =>
    refine ⟨[], ?_⟩
    simp only [ejecutar, AuthController.register]
    split <;> simp
  | productosCreate body nid mid ahora => exact ⟨[_], rfl⟩
  | productosUpdate id body ahora =>
    refine ⟨[], ?_⟩
    simp only [ejecutar, ProductosController.update]
    split
    · simp
    · split <;> simp
  | productosDelete id mid ahora =>
    simp only [ejecutar, ProductosController.delete]
    split
    · exact ⟨[], by simp⟩
    · split
      · exact ⟨[], by simp⟩
      · exact ⟨[_], rfl⟩
  | productosDescontarStock id cantidad mid ahora =>
    simp only [ejecutar, ProductosController.descontarStock]
    split
    · exact ⟨[], by simp⟩
    · split
      · exact ⟨[], by simp⟩
      · split
        · exact ⟨[], by simp⟩
        · exact ⟨[_], rfl⟩
  | areasCreate body nid ahora =>
    refine ⟨[], ?_⟩
    simp only [ejecutar, AreasController.create]
    split <;> simp
  | areasUpdate id body ahora =>
    refine ⟨[], ?_⟩
    simp only [ejecutar, AreasController.update]
    split
    · simp
    · split <;> simp
  | areasDelete id =>
    refine ⟨[], ?_⟩
    simp only [ejecutar, AreasController.delete]
    split
    · simp
    · split <;> simp
  | usuariosCreate body nid ahoraIso =>
    refine ⟨[], ?_⟩
    simp only [ejecutar, UsuariosController.create]
    split <;> simp
  | usuariosUpdate id body ahoraIso =>
    refine ⟨[], ?_⟩
    simp only [ejecutar, UsuariosController.update]
    split <;> simp
  | usuariosDelete id =>
    refine ⟨[], ?_⟩
    simp only [ejecutar, UsuariosController.delete]
    split
    · simp
    · split <;> simp
  | movimientosCreate body nid ahora => exact ⟨[_], rfl⟩

/-! ### Guarded deletions -/

/-- C8: for an existing area, `areas.delete` throws the `AppError` with status
code 400 and leaves the store (so the area) as it was when some product's
`area` field equals the area's name, and otherwise succeeds and removes the
area, touching no other collection. -/
theorem areas_delete_referencial (db : Db) (id : String) (areaData : Doc)
    (harea : db.areas.buscar id = some areaData) :
    (referenciaArea db (areaData.campo "name") →
      (AreasController.delete db id).salida =
        .error (AppError "No se puede eliminar el área porque tiene productos asociados" 400) ∧
      (AreasController.delete db id).codigoError = some (.numero 400) ∧
      (AreasController.delete db id).db = db ∧
      (AreasController.delete db id).db.areas.buscar id = some areaData) ∧
    (¬ referenciaArea db (areaData.campo "name") →
      (AreasController.delete db id).exito = true ∧
      (AreasController.delete db id).db.areas.buscar id = none ∧
      (AreasController.delete db id).db.areas = db.areas.eliminar id ∧
      (AreasController.delete db id).db.productos = db.productos ∧
      (AreasController.delete db id).db.usuarios = db.usuarios ∧
      (AreasController.delete db id).db.movimientos = db.movimientos) := by
  constructor
  · intro href
    have hv : ((db.productos.donde "area" (areaData.campo "name")).take 1).isEmpty = false := by
      rw [Bool.eq_false_iff]
      exact fun h => (donde_vacia_iff db _).mp h href
    have hdel : AreasController.delete db id =
        { db := db,
          salida := .error
            (AppError "No se puede eliminar el área porque tiene productos asociados" 400) } := by
      simp only [AreasController.delete, harea, hv, Bool.not_false, if_true]
    rw [hdel]
    exact ⟨rfl, rfl, rfl, harea⟩
  · intro href
    have hv : ((db.productos.donde "area" (areaData.campo "name")).take 1).isEmpty = true :=
      (donde_vacia_iff db _).mpr href
    have hdel : AreasController.delete db id =
        { db := { db with areas := db.areas.eliminar id },
          salida := .ok { status := 200, success := true,
                          message := "Área eliminada correctamente", data := none } } := by
      simp only [AreasController.delete, harea, hv, Bool.not_true, Bool.false_eq_true, if_false]
    rw [hdel]
    exact ⟨rfl, buscar_eliminar _ _, rfl, rfl, rfl, rfl⟩

/-- Witness of C8: area `a1` (`Bodega`) is referenced by product `p1` and stays;
area `a3` (`Patio`) is referenced by no product and is removed. -/
theorem areas_delete_referencial_witness :
    ((AreasController.delete dbEjemplo "a1").codigoError = some (.numero 400) ∧
      (AreasController.delete dbEjemplo "a1").db = dbEjemplo) ∧
    ((AreasController.delete dbEjemplo "a3").exito = true ∧
      (AreasController.delete dbEjemplo "a3").db.areas.buscar "a3" = none) :=
  ⟨⟨((areas_delete_referencial dbEjemplo "a1" ⟨[("name", .texto "Bodega")]⟩ (by decide)).1
        ⟨("p1", productoTaladro), by decide, by decide⟩).2.1,
     ((areas_delete_referencial dbEjemplo "a1" ⟨[("name", .texto "Bodega")]⟩ (by decide)).1
        ⟨("p1", productoTaladro), by decide, by decide⟩).2.2.1⟩,
   ⟨((areas_delete_referencial dbEjemplo "a3" ⟨[("name", .texto "Patio")]⟩ (by decide)).2
        ((donde_vacia_iff dbEjemplo _).mp (by decide))).1,
     ((areas_delete_referencial dbEjemplo "a3" ⟨[("name", .texto "Patio")]⟩ (by decide)).2
        ((donde_vacia_iff dbEjemplo _).mp (by decide))).2.1⟩⟩

/-- C9: for a stored user record with email `e` and a requester of any role,
`usuarios.delete` throws the `AppError` with status code 400 and leaves the
store as it was when the requester's email is `e`, and otherwise succeeds and
removes the record. -/
theorem usuarios_delete_propio (db : Db) (user : Doc) (id : String) (userData : Doc)
    (e : String)
    (huser : db.usuarios.buscar id = some userData)
    (hemail : userData.campo "email" = .texto e) :
    (user.campo "email" = .texto e →
      (UsuariosController.delete db user id).salida =
        .error (AppError "No puedes eliminarte a ti mismo" 400) ∧
      (UsuariosController.delete db user id).codigoError = some (.numero 400) ∧
      (UsuariosController.delete db user id).db = db ∧
      (UsuariosController.delete db user id).db.usuarios.buscar id = some userData) ∧
    (user.campo "email" ≠ .texto e →
      (UsuariosController.delete db user id).exito = true ∧
      (UsuariosController.delete db user id).db.usuarios.buscar id = none ∧
      (UsuariosController.delete db user id).db.usuarios = db.usuarios.eliminar id) := by
  constructor
  · intro hreq
    have hs : strictEq (userData.campo "email") (user.campo "email") = true := by
      rw [hreq, hemail]
      exact (strictEq_texto _ _).mpr rfl
    have hdel : UsuariosController.delete db user id =
        { db := db, salida := .error (AppError "No puedes eliminarte a ti mismo" 400) } := by
      simp only [UsuariosController.delete, huser, hs, if_true]
    rw [hdel]
    exact ⟨rfl, rfl, rfl, huser⟩
  · intro hreq
    have hs : strictEq (userData.campo "email") (user.campo "email") = false := by
      rw [Bool.eq_false_iff, hemail]
      intro h
      apply hreq
      cases hv : user.campo "email" with
      | prim p =>
        rw [hv] at h
        cases p <;> simp_all [strictEq, JsVal.texto]
      | arr xs =>
        rw [hv] at h
        simp [strictEq, JsVal.texto] at h
    have hdel : UsuariosController.delete db user id =
        { db := { db with usuarios := db.usuarios.eliminar id },
          salida := .ok { status := 200, success := true,
                          message := "Usuario eliminado correctamente", data := none } } := by
      simp only [UsuariosController.delete, huser, hs, Bool.false_eq_true, if_false]
    rw [hdel]
    exact ⟨rfl, buscar_eliminar _ _, rfl⟩

/-- Witness of C9: Luis (role `inventario`) cannot delete his own record `u2`
and can delete the record `u1` of Ana. -/
theorem usuarios_delete_propio_witness :
    ((UsuariosController.delete dbEjemplo usuarioCocina "u2").codigoError = some (.numero 400) ∧
      (UsuariosController.delete dbEjemplo usuarioCocina "u2").db = dbEjemplo) ∧
    ((UsuariosController.delete dbEjemplo usuarioCocina "u1").exito = true ∧
      (UsuariosController.delete dbEjemplo usuarioCocina "u1").db.usuarios.buscar "u1" = none) :=
  ⟨⟨((usuarios_delete_propio dbEjemplo usuarioCocina "u2"
        ⟨[("email", .texto "luis@cielito.mx"), ("rol", .texto "inventario"),
          ("areasPermitidas", .arr [.str "Cocina"])]⟩ "luis@cielito.mx"
        (by decide) (by decide)).1 (by decide)).2.1,
     ((usuarios_delete_propio dbEjemplo usuarioCocina "u2"
        ⟨[("email", .texto "luis@cielito.mx"), ("rol", .texto "inventario"),
          ("areasPermitidas", .arr [.str "Cocina"])]⟩ "luis@cielito.mx"
        (by decide) (by decide)).1 (by decide)).2.2.1⟩,
   ⟨((usuarios_delete_propio dbEjemplo usuarioCocina "u1"
        ⟨[("email", .texto "ana@cielito.mx"), ("rol", .texto "usuario"),
          ("areasPermitidas", .nulo)]⟩ "ana@cielito.mx"
        (by decide) (by decide)).2 (by decide)).1,
     ((usuarios_delete_propio dbEjemplo usuarioCocina "u1"
        ⟨[("email", .texto "ana@cielito.mx"), ("rol", .texto "usuario"),
          ("areasPermitidas", .nulo)]⟩ "ana@cielito.mx"
        (by decide) (by decide)).2 (by decide)).2.1⟩⟩

/-! ### Error translation -/

theorem errorHandler_rama_status (err : ErrorJs) (nodeEnv : Option String)
    (h1 : err.array = none) (h2 : err.code = none)
    (h3 : err.message ≠ "No permitido por CORS") (h4 : err.status.truthy = true) :
    (errorHandler err nodeEnv).status = err.status := by
  unfold errorHandler
  rw [h1, h2]
  simp [h3, h4]

theorem errorHandler_rama_cors (err : ErrorJs) (nodeEnv : Option String)
    (h1 : err.array = none) (h2 : err.code = none)
    (h3 : err.message = "No permitido por CORS") :
    (errorHandler err nodeEnv).status = .numero 403 := by
  unfold errorHandler
  rw [h1, h2]
  simp [h3]

/-- C10, the code at the failing input: for the errors the handlers throw as
`AppError(message, c)` with `c` among 400, 403 and 404, `errorHandler` takes
the branch `if (err.status)` and gives `res.status` the string `'fail'`, not
the number `c`; with any message, the status it sets for a 400 or a 404 is not
that number. -/
theorem errorHandler_AppError_status (message : String) (nodeEnv : Option String) :
    errorHandler (AppError "Producto no encontrado" 404) nodeEnv =
      { status := .texto "fail", success := false, message := "Producto no encontrado",
        errors := none, code := none, stack := none } ∧
    (errorHandler (AppError "No tienes acceso a este producto" 403) nodeEnv).status =
      .texto "fail" ∧
    (errorHandler (AppError "No puedes eliminarte a ti mismo" 400) nodeEnv).status =
      .texto "fail" ∧
    (errorHandler (AppError message 404) nodeEnv).status ≠ .numero 404 ∧
    (errorHandler (AppError message 400) nodeEnv).status ≠ .numero 400 := by
  have h404 : (AppError message 404).status = .texto "fail" := rfl
  have h400 : (AppError message 400).status = .texto "fail" := rfl
  have ht : (JsVal.texto "fail").truthy = true := rfl
  refine ⟨rfl, rfl, rfl, ?_, ?_⟩
  · by_cases hm : message = "No permitido por CORS"
    · rw [errorHandler_rama_cors (AppError message 404) nodeEnv rfl rfl hm]
      decide
    · rw [errorHandler_rama_status (AppError message 404) nodeEnv rfl rfl hm (h404 ▸ ht), h404]
      decide
  · by_cases hm : message = "No permitido por CORS"
    · rw [errorHandler_rama_cors (AppError message 400) nodeEnv rfl rfl hm]
      decide
    · rw [errorHandler_rama_status (AppError message 400) nodeEnv rfl rfl hm (h400 ▸ ht), h400]
      decide

/-! ### Stock bands and totals -/

theorem resolveStockOr_eq (p : Doc) (d : JsVal) :
    resolveStockOr p d = if resolveStock p = .nulo then d else resolveStock p := by
  unfold resolveStock resolveStockOr
  generalize ((p.campo "cantidad").coalesce (p.campo "Stock")).coalesce (p.campo "stock") = c
  cases c with
  | prim q => cases q <;> simp [JsVal.coalesce, JsVal.nullish, Prim.nullish, JsVal.nulo]
  | arr xs => simp [JsVal.coalesce, JsVal.nullish, JsVal.nulo]

theorem banda_iff (p : Doc) (f : Int → Bool) (P : Int → Prop) (hf : ∀ n, f n = true ↔ P n) :
    (resolveStock p != .nulo &&
      (match (resolveStock p).toNumber with
       | some n => f n
       | none => false)) = true ↔ stockCumple P p := by
  unfold stockCumple stockPresente
  by_cases h : resolveStock p = .nulo
  · simp [h]
  · cases hn : (resolveStock p).toNumber with
    | none => simp [h]
    | some n => simp [h, hf]

theorem esStockBajo_eq (p : Doc) :
    DashboardController.esStockBajo p = decide (stockCumple (fun n => 0 < n ∧ n ≤ 5) p) := by
  rw [Bool.eq_iff_iff, decide_eq_true_iff]
  exact banda_iff p (fun n => decide (0 < n) && decide (n ≤ 5)) _ (fun n => by simp)

theorem esSinStock_eq (p : Doc) :
    DashboardController.esSinStock p = decide (stockCumple (fun n => n = 0) p) := by
  rw [Bool.eq_iff_iff, decide_eq_true_iff]
  exact banda_iff p (fun n => decide (n = 0)) _ (fun n => by simp)

theorem esStockCritico_eq (p : Doc) :
    DashboardController.esStockCritico p = decide (stockCumple (fun n => 1 ≤ n ∧ n ≤ 2) p) := by
  rw [Bool.eq_iff_iff, decide_eq_true_iff]
  exact banda_iff p (fun n => decide (0 < n) && decide (n ≤ 2)) _
    (fun n => by simp only [Bool.and_eq_true, decide_eq_true_eq]; omega)

theorem esStockBajoAlerta_eq (p : Doc) :
    DashboardController.esStockBajoAlerta p =
      decide (stockCumple (fun n => 3 ≤ n ∧ n ≤ 5) p) := by
  rw [Bool.eq_iff_iff, decide_eq_true_iff]
  exact banda_iff p (fun n => decide (2 < n) && decide (n ≤ 5)) _
    (fun n => by simp only [Bool.and_eq_true, decide_eq_true_eq]; omega)

/-- C11: in `getKPIs`, `productosStockBajo` is the number of visible products
whose resolved stock is present with a value `s`, `0 < s ≤ 5`, and
`productosSinStock` the number of those whose resolved stock is present and
equals 0; a product without resolved stock is in neither band. On the stocks
0, 1, 5, 6 and none the two counts are 2 and 1. -/
theorem kpis_bandas_stock (db : Db) (user : Doc) :
    (DashboardController.getKPIs db user).productosStockBajo =
      ((productosVisibles db user).filter fun p =>
        decide (stockCumple (fun n => 0 < n ∧ n ≤ 5) p)).length ∧
    (DashboardController.getKPIs db user).productosSinStock =
      ((productosVisibles db user).filter fun p =>
        decide (stockCumple (fun n => n = 0) p)).length ∧
    (∀ p, resolveStock p = .nulo →
      DashboardController.esStockBajo p = false ∧ DashboardController.esSinStock p = false) ∧
    (DashboardController.getKPIs dbBandas usuarioAdmin).productosStockBajo = 2 ∧
    (DashboardController.getKPIs dbBandas usuarioAdmin).productosSinStock = 1 := by
  refine ⟨?_, ?_, ?_, by decide, by decide⟩
  · show ((productosVisibles db user).filter DashboardController.esStockBajo).length = _
    congr 1
    exact List.filter_congr fun p _ => esStockBajo_eq p
  · show ((productosVisibles db user).filter DashboardController.esSinStock).length = _
    congr 1
    exact List.filter_congr fun p _ => esSinStock_eq p
  · intro p hp
    simp [DashboardController.esStockBajo, DashboardController.esSinStock, hp]

/-- Witness of C11: the product `b5` of the example has no resolved stock and
is in neither band. -/
theorem kpis_bandas_stock_witness :
    resolveStock ⟨[("nombre", .texto "Lija"), ("area", .texto "Cocina")]⟩ = .nulo ∧
    DashboardController.esStockBajo ⟨[("nombre", .texto "Lija"), ("area", .texto "Cocina")]⟩ =
      false ∧
    DashboardController.esSinStock ⟨[("nombre", .texto "Lija"), ("area", .texto "Cocina")]⟩ =
      false :=
  ⟨by decide,
    (kpis_bandas_stock dbBandas usuarioAdmin).2.2.1
      ⟨[("nombre", .texto "Lija"), ("area", .texto "Cocina")]⟩ (by decide)⟩

theorem toNumber_resolveStockOr_cero (p : Doc)
    (h : resolveStock p ≠ .nulo → (resolveStock p).toNumber ≠ none) :
    (resolveStockOr p (.numero 0)).toNumber = some (aporteStock p) := by
  rw [resolveStockOr_eq]
  unfold aporteStock stockPresente
  by_cases hn : resolveStock p = .nulo
  · simp [hn]
    rfl
  · simp only [hn, if_false]
    cases ht : (resolveStock p).toNumber with
    | none => exact absurd ht (h hn)
    | some n => rfl

theorem foldl_sumarStock (xs : List Doc) (a : Int)
    (h : ∀ p ∈ xs, resolveStock p ≠ .nulo → (resolveStock p).toNumber ≠ none) :
    xs.foldl DashboardController.sumarStock (some a) = some (a + (xs.map aporteStock).sum) := by
  induction xs generalizing a with
  | nil => simp
  | cons p r ih =>
    have hp := toNumber_resolveStockOr_cero p (h p (List.mem_cons_self _ _))
    have hr : ∀ q ∈ r, resolveStock q ≠ .nulo → (resolveStock q).toNumber ≠ none :=
      fun q hq => h q (List.mem_cons_of_mem _ hq)
    rw [List.foldl_cons]
    have hs : DashboardController.sumarStock (some a) p = some (a + aporteStock p) := by
      simp [DashboardController.sumarStock, hp]
    rw [hs, ih _ hr, List.map_cons, List.sum_cons, Int.add_assoc]

/-- C12: in `getKPIs`, when every visible product's resolved stock is a number
(or is absent), `stockTotal` is the sum over the visible products of the
resolved stock, a product without resolved stock adding 0. -/
theorem kpis_stockTotal (db : Db) (user : Doc)
    (h : ∀ p ∈ productosVisibles db user,
      resolveStock p ≠ .nulo → (resolveStock p).toNumber ≠ none) :
    (DashboardController.getKPIs db user).stockTotal =
      some ((productosVisibles db user).map aporteStock).sum := by
  show (productosVisibles db user).foldl DashboardController.sumarStock (some 0) = _
  rw [foldl_sumarStock _ _ h, Int.zero_add]

/-- Witness of C12: the stocks 0, 1, 5, 6 and none add up to 12. -/
theorem kpis_stockTotal_witness :
    (DashboardController.getKPIs dbBandas usuarioAdmin).stockTotal =
      some ((productosVisibles dbBandas usuarioAdmin).map aporteStock).sum ∧
    ((productosVisibles dbBandas usuarioAdmin).map aporteStock).sum = 12 :=
  ⟨kpis_stockTotal dbBandas usuarioAdmin (by decide), by decide⟩

theorem stockCumple_unico (P Q : Int → Prop) (p : Doc) (hPQ : ∀ n, P n → Q n → False) :
    stockCumple P p → stockCumple Q p → False := by
  rintro ⟨n, hn, hpn⟩ ⟨m, hm, hqm⟩
  rw [hn] at hm
  cases hm
  exact hPQ n hpn hqm

theorem filtros_disjuntos (xs : List Doc) (f g : Doc → Bool)
    (h : ∀ p, f p = true → g p = true → False) :
    List.Disjoint (xs.filter f) (xs.filter g) := by
  intro p hf hg
  exact h p (List.mem_filter.mp hf).2 (List.mem_filter.mp hg).2

/-- On stocks that are integers, `getAlertas` puts a visible product in
`sinStock` iff its resolved stock is present and equals 0, in `stockCritico`
iff it is present with `1 ≤ stock ≤ 2`, and in `stockBajo` iff it is present
with `3 ≤ stock ≤ 5`; the three bands are pairwise disjoint, each `count` is
the size of its band and `totalAlertas` is the sum of the three counts. -/
theorem alertas_bandas (db : Db) (user : Doc) :
    (∀ p, p ∈ (productosVisibles db user).filter DashboardController.esSinStock ↔
      p ∈ productosVisibles db user ∧ stockCumple (fun n => n = 0) p) ∧
    (∀ p, p ∈ (productosVisibles db user).filter DashboardController.esStockCritico ↔
      p ∈ productosVisibles db user ∧ stockCumple (fun n => 1 ≤ n ∧ n ≤ 2) p) ∧
    (∀ p, p ∈ (productosVisibles db user).filter DashboardController.esStockBajoAlerta ↔
      p ∈ productosVisibles db user ∧ stockCumple (fun n => 3 ≤ n ∧ n ≤ 5) p) ∧
    List.Disjoint ((productosVisibles db user).filter DashboardController.esSinStock)
      ((productosVisibles db user).filter DashboardController.esStockCritico) ∧
    List.Disjoint ((productosVisibles db user).filter DashboardController.esSinStock)
      ((productosVisibles db user).filter DashboardController.esStockBajoAlerta) ∧
    List.Disjoint ((productosVisibles db user).filter DashboardController.esStockCritico)
      ((productosVisibles db user).filter DashboardController.esStockBajoAlerta) ∧
    (DashboardController.getAlertas db user).sinStock.count =
      ((productosVisibles db user).filter DashboardController.esSinStock).length ∧
    (DashboardController.getAlertas db user).stockCritico.count =
      ((productosVisibles db user).filter DashboardController.esStockCritico).length ∧
    (DashboardController.getAlertas db user).stockBajo.count =
      ((productosVisibles db user).filter DashboardController.esStockBajoAlerta).length ∧
    (DashboardController.getAlertas db user).totalAlertas =
      (DashboardController.getAlertas db user).sinStock.count +
      (DashboardController.getAlertas db user).stockCritico.count +
      (DashboardController.getAlertas db user).stockBajo.count := by
  refine ⟨?_, ?_, ?_, ?_, ?_, ?_, rfl, rfl, rfl, rfl⟩
  · intro p
    rw [List.mem_filter, esSinStock_eq, decide_eq_true_iff]
  · intro p
    rw [List.mem_filter, esStockCritico_eq, decide_eq_true_iff]
  · intro p
    rw [List.mem_filter, esStockBajoAlerta_eq, decide_eq_true_iff]
  · apply filtros_disjuntos
    intro p h1 h2
    rw [esSinStock_eq, decide_eq_true_iff] at h1
    rw [esStockCritico_eq, decide_eq_true_iff] at h2
    exact stockCumple_unico _ _ p (fun n a b => by omega) h1 h2
  · apply filtros_disjuntos
    intro p h1 h2
    rw [esSinStock_eq, decide_eq_true_iff] at h1
    rw [esStockBajoAlerta_eq, decide_eq_true_iff] at h2
    exact stockCumple_unico _ _ p (fun n a b => by omega) h1 h2
  · apply filtros_disjuntos
    intro p h1 h2
    rw [esStockCritico_eq, decide_eq_true_iff] at h1
    rw [esStockBajoAlerta_eq, decide_eq_true_iff] at h2
    exact stockCumple_unico _ _ p (fun n a b => by omega) h1 h2

theorem jsSlice_nat {α : Type} (xs : List α) (a b : Nat) :
    jsSlice xs (a : Int) (b : Int) = (xs.take b).drop a := by
  unfold jsSlice
  have ha : ¬ ((a : Int) < 0) := by omega
  have hb : ¬ ((b : Int) < 0) := by omega
  simp only [ha, hb, if_false]
  have h1 : (min (b : Int) (xs.length : Int)).toNat = min b xs.length := by omega
  have h2 : (min (a : Int) (xs.length : Int)).toNat = min a xs.length := by omega
  rw [h1, h2, List.take_eq_take.mpr (by simp : min (min b xs.length) xs.length = min b xs.length)]
  by_cases hle : a ≤ xs.length
  · rw [Nat.min_eq_left hle]
  · have hlen : (xs.take b).length ≤ xs.length := by
      rw [List.length_take]
      exact Nat.min_le_right _ _
    rw [Nat.min_eq_right (by omega), List.drop_eq_nil_of_le hlen,
      List.drop_eq_nil_of_le (by omega)]

theorem jsSlice_tope {α : Type} (xs : List α) : jsSlice xs 0 10 = xs.take 10 := by
  have h := jsSlice_nat xs 0 10
  simpa using h

/-- C14: for each band of `getAlertas`, `productos` is the first `min(10, n)`
members of the band in the order of the visible products, `n` being the size of
the band, and `count` is `n`. -/
theorem alertas_tope (db : Db) (user : Doc) :
    ((DashboardController.getAlertas db user).sinStock.productos =
        ((productosVisibles db user).filter DashboardController.esSinStock).take 10 ∧
      (DashboardController.getAlertas db user).sinStock.productos.length =
        min 10 ((productosVisibles db user).filter DashboardController.esSinStock).length ∧
      (DashboardController.getAlertas db user).sinStock.count =
        ((productosVisibles db user).filter DashboardController.esSinStock).length) ∧
    ((DashboardController.getAlertas db user).stockCritico.productos =
        ((productosVisibles db user).filter DashboardController.esStockCritico).take 10 ∧
      (DashboardController.getAlertas db user).stockCritico.productos.length =
        min 10 ((productosVisibles db user).filter DashboardController.esStockCritico).length ∧
      (DashboardController.getAlertas db user).stockCritico.count =
        ((productosVisibles db user).filter DashboardController.esStockCritico).length) ∧
    ((DashboardController.getAlertas db user).stockBajo.productos =
        ((productosVisibles db user).filter DashboardController.esStockBajoAlerta).take 10 ∧
      (DashboardController.getAlertas db user).stockBajo.productos.length =
        min 10 ((productosVisibles db user).filter DashboardController.esStockBajoAlerta).length ∧
      (DashboardController.getAlertas db user).stockBajo.count =
        ((productosVisibles db user).filter DashboardController.esStockBajoAlerta).length) := by
  have hs : (DashboardController.getAlertas db user).sinStock.productos =
      ((productosVisibles db user).filter DashboardController.esSinStock).take 10 :=
    jsSlice_tope _
  have hc : (DashboardController.getAlertas db user).stockCritico.productos =
      ((productosVisibles db user).filter DashboardController.esStockCritico).take 10 :=
    jsSlice_tope _
  have hb : (DashboardController.getAlertas db user).stockBajo.productos =
      ((productosVisibles db user).filter DashboardController.esStockBajoAlerta).take 10 :=
    jsSlice_tope _
  refine ⟨⟨hs, ?_, rfl⟩, ⟨hc, ?_, rfl⟩, ⟨hb, ?_, rfl⟩⟩
  · rw [hs, List.length_take]
  · rw [hc, List.length_take]
  · rw [hb, List.length_take]

/-! ### Pagination -/

theorem getAll_data (db : Db) (user : Doc) (L p : Nat) (hL : 1 ≤ L) (hp : 1 ≤ p) :
    (MovimientosController.getAll db user (some (L : Int)) (some (p : Int))).data =
      ((movimientosVisibles db user).drop ((p - 1) * L)).take L := by
  have hL0 : ¬ ((L : Int) = 0) := by omega
  have hp0 : ¬ ((p : Int) = 0) := by omega
  have hoff : ((p : Int) - 1) * (L : Int) = (((p - 1) * L : Nat) : Int) := by
    rw [Nat.cast_mul, Nat.cast_sub hp]
    rfl
  have hfin : ((p : Int) - 1) * (L : Int) + (L : Int) = (((p - 1) * L + L : Nat) : Int) := by
    rw [hoff, Nat.cast_add]
  show jsSlice (movimientosVisibles db user)
      ((parseIntOr (some (p : Int)) 1 - 1) * parseIntOr (some (L : Int)) 100)
      ((parseIntOr (some (p : Int)) 1 - 1) * parseIntOr (some (L : Int)) 100 +
        parseIntOr (some (L : Int)) 100) = _
  simp only [parseIntOr, hL0, hp0, if_false]
  rw [hfin, hoff, jsSlice_nat, List.take_drop]

theorem ceilDiv_eq_ceil (n L : Nat) (hL : 1 ≤ L) :
    ceilDiv (n : Int) (L : Int) = ⌈((n : ℚ) / (L : ℚ))⌉ ∧
    (n : Int) ≤ ceilDiv (n : Int) (L : Int) * (L : Int) ∧ 0 ≤ ceilDiv (n : Int) (L : Int) := by
  have hLpos : (0 : Int) < (L : Int) := by omega
  have hdiv := Int.ediv_add_emod (-(n : Int)) (L : Int)
  have hr0 := Int.emod_nonneg (-(n : Int)) (Int.ne_of_gt hLpos)
  have hr1 := Int.emod_lt_of_pos (-(n : Int)) hLpos
  have hT : ceilDiv (n : Int) (L : Int) = -((-(n : Int)) / (L : Int)) := by
    unfold ceilDiv
    rw [Int.fdiv_eq_ediv _ (Int.le_of_lt hLpos)]
  have key : ceilDiv (n : Int) (L : Int) * (L : Int) = (n : Int) + (-(n : Int)) % (L : Int) := by
    rw [hT]
    linear_combination (-1 : Int) * hdiv
  have h2 : (n : Int) ≤ ceilDiv (n : Int) (L : Int) * (L : Int) := by
    rw [key]
    omega
  have h1 : (ceilDiv (n : Int) (L : Int) - 1) * (L : Int) < (n : Int) := by
    rw [Int.sub_mul, key]
    omega
  have h0 : 0 ≤ ceilDiv (n : Int) (L : Int) := by
    by_contra hneg
    have hle : ceilDiv (n : Int) (L : Int) ≤ -1 := by omega
    have : ceilDiv (n : Int) (L : Int) * (L : Int) ≤ -1 * (L : Int) :=
      Int.mul_le_mul_of_nonneg_right hle (Int.le_of_lt hLpos)
    omega
  refine ⟨?_, h2, h0⟩
  have hLq : (0 : ℚ) < (L : ℚ) := by exact_mod_cast hLpos
  rw [eq_comm, Int.ceil_eq_iff, lt_div_iff₀ hLq, div_le_iff₀ hLq]
  constructor
  · exact_mod_cast h1
  · exact_mod_cast h2

theorem paginas_concatenadas {α : Type} (xs : List α) (L k : Nat) :
    (List.range k).flatMap (fun i => (xs.drop (i * L)).take L) = xs.take (k * L) := by
  induction k with
  | zero => simp
  | succ k ih =>
    rw [List.range_succ, List.flatMap_append, ih, List.flatMap_singleton, Nat.succ_mul,
      List.take_add]

/-- C15: for a page size `L ≥ 1` and a page number `p ≥ 1`,
`movimientos.getAll` returns the visible movements from position
`(p-1)·L + 1` through `min(p·L, n)` in their order, `total = n` and
`totalPaginas = ⌈n / L⌉`; the pages `1..totalPaginas` one after the other are
the whole list, and every later page is empty. -/
theorem getAll_paginacion (db : Db) (user : Doc) (L p : Nat) (hL : 1 ≤ L) (hp : 1 ≤ p) :
    (MovimientosController.getAll db user (some (L : Int)) (some (p : Int))).data =
      ((movimientosVisibles db user).drop ((p - 1) * L)).take L ∧
    (∀ i, i < L →
      (MovimientosController.getAll db user (some (L : Int)) (some (p : Int))).data[i]? =
        (movimientosVisibles db user)[(p - 1) * L + i]?) ∧
    (MovimientosController.getAll db user (some (L : Int)) (some (p : Int))).data.length =
      min (p * L) (movimientosVisibles db user).length - (p - 1) * L ∧
    (MovimientosController.getAll db user (some (L : Int)) (some (p : Int))).total =
      (movimientosVisibles db user).length ∧
    (MovimientosController.getAll db user (some (L : Int)) (some (p : Int))).totalPaginas =
      ⌈(((movimientosVisibles db user).length : ℚ) / (L : ℚ))⌉ ∧
    (List.range (MovimientosController.getAll db user (some (L : Int))
        (some (p : Int))).totalPaginas.toNat).flatMap
      (fun i => (MovimientosController.getAll db user (some (L : Int))
        (some ((i + 1 : Nat) : Int))).data) = movimientosVisibles db user ∧
    ((MovimientosController.getAll db user (some (L : Int)) (some (p : Int))).totalPaginas <
        (p : Int) →
      (MovimientosController.getAll db user (some (L : Int)) (some (p : Int))).data = []) := by
  have hL0 : ¬ ((L : Int) = 0) := by omega
  have hdata := getAll_data db user L p hL hp
  obtain ⟨hceil, hcub, hpos⟩ := ceilDiv_eq_ceil (movimientosVisibles db user).length L hL
  have htp : (MovimientosController.getAll db user (some (L : Int))
      (some (p : Int))).totalPaginas = ceilDiv ((movimientosVisibles db user).length : Int) L := by
    show ceilDiv _ (parseIntOr (some (L : Int)) 100) = _
    simp only [parseIntOr, hL0, if_false]
    rfl
  have hcubN : (movimientosVisibles db user).length ≤
      (ceilDiv ((movimientosVisibles db user).length : Int) L).toNat * L := by
    have h1 : (((ceilDiv ((movimientosVisibles db user).length : Int) L).toNat : Nat) : Int) =
        ceilDiv ((movimientosVisibles db user).length : Int) L := Int.toNat_of_nonneg hpos
    have h2 : ((movimientosVisibles db user).length : Int) ≤
        (((ceilDiv ((movimientosVisibles db user).length : Int) L).toNat * L : Nat) : Int) := by
      rw [Nat.cast_mul, h1]
      exact hcub
    exact_mod_cast h2
  refine ⟨hdata, ?_, ?_, rfl, ?_, ?_, ?_⟩
  · intro i hi
    rw [hdata, List.getElem?_take, if_pos hi, List.getElem?_drop]
  · rw [hdata, List.length_take, List.length_drop]
    have hpl : p * L = (p - 1) * L + L := by
      rw [← Nat.succ_mul]
      congr 1
      omega
    omega
  · rw [htp, hceil]
  · have hfun : (fun i => (MovimientosController.getAll db user (some (L : Int))
        (some ((i + 1 : Nat) : Int))).data) =
        fun i => ((movimientosVisibles db user).drop (i * L)).take L := by
      funext i
      rw [getAll_data db user L (i + 1) hL (by omega)]
      rfl
    rw [hfun, htp, paginas_concatenadas, List.take_of_length_le hcubN]
  · intro hlt
    rw [htp] at hlt
    rw [hdata]
    have h3 : (ceilDiv ((movimientosVisibles db user).length : Int) L).toNat ≤ p - 1 := by
      omega
    have h4 : (movimientosVisibles db user).length ≤ (p - 1) * L :=
      Nat.le_trans hcubN (Nat.mul_le_mul_right L h3)
    rw [List.drop_eq_nil_of_le h4, List.take_nil]

set_option maxRecDepth 20000 in
/-- Witness of C15: page 2 of size 10 over 25 movements holds the items 11 to
20 (timestamps 14 down to 5) and there are 3 pages. -/
theorem getAll_paginacion_witness :
    (movimientosVisibles dbPaginas usuarioAdmin).length = 25 ∧
    (MovimientosController.getAll dbPaginas usuarioAdmin (some ((10 : Nat) : Int))
      (some ((2 : Nat) : Int))).data =
      ((movimientosVisibles dbPaginas usuarioAdmin).drop ((2 - 1) * 10)).take 10 ∧
    (MovimientosController.getAll dbPaginas usuarioAdmin (some ((10 : Nat) : Int))
      (some ((2 : Nat) : Int))).data.map (fun m => m.campo "fecha") =
      [.numero 14, .numero 13, .numero 12, .numero 11, .numero 10, .numero 9, .numero 8,
        .numero 7, .numero 6, .numero 5] ∧
    (MovimientosController.getAll dbPaginas usuarioAdmin (some ((10 : Nat) : Int))
      (some ((2 : Nat) : Int))).totalPaginas = 3 :=
  ⟨by decide,
    (getAll_paginacion dbPaginas usuarioAdmin 10 2 (by decide) (by decide)).1,
    by decide, by decide⟩

/-! ### Stock-bajo report -/

theorem orderedInsert_congr {α : Type} (r s : α → α → Prop) [DecidableRel r] [DecidableRel s]
    (a : α) (l : List α) (h : ∀ b ∈ l, r a b ↔ s a b) :
    l.orderedInsert r a = l.orderedInsert s a := by
  induction l with
  | nil => rfl
  | cons b t ih =>
    have hb := h b (List.mem_cons_self _ _)
    have ht : ∀ c ∈ t, r a c ↔ s a c := fun c hc => h c (List.mem_cons_of_mem _ hc)
    by_cases hr : r a b
    · simp [List.orderedInsert, hr, hb.mp hr]
    · have hs : ¬ s a b := fun x => hr (hb.mpr x)
      simp [List.orderedInsert, hr, hs, ih ht]

theorem insertionSort_congr {α : Type} (r s : α → α → Prop) [DecidableRel r] [DecidableRel s]
    (l : List α) (h : ∀ a ∈ l, ∀ b ∈ l, r a b ↔ s a b) :
    l.insertionSort r = l.insertionSort s := by
  induction l with
  | nil => rfl
  | cons a t ih =>
    have ht : ∀ x ∈ t, ∀ y ∈ t, r x y ↔ s x y :=
      fun x hx y hy => h x (List.mem_cons_of_mem _ hx) y (List.mem_cons_of_mem _ hy)
    show (t.insertionSort r).orderedInsert r a = (t.insertionSort s).orderedInsert s a
    rw [ih ht]
    apply orderedInsert_congr
    intro b hb
    exact h a (List.mem_cons_self _ _) b
      (List.mem_cons_of_mem _ ((List.mem_insertionSort s).mp hb))

theorem bajoUmbral_iff (N : Int) (p : Doc) :
    ReportesController.bajoUmbral N p = true ↔ stockCumple (fun n => n ≤ N) p :=
  banda_iff p (fun n => decide (n ≤ N)) _ (fun n => by simp)

theorem stockCumple_aporte (P : Int → Prop) (p : Doc) (h : stockCumple P p) :
    stockPresente p = some (aporteStock p) ∧ P (aporteStock p) ∧
    (resolveStockOr p (.numero 0)).toNumber = some (aporteStock p) := by
  obtain ⟨n, hn, hP⟩ := h
  have ha : aporteStock p = n := by simp [aporteStock, hn]
  refine ⟨by rw [ha]; exact hn, by rw [ha]; exact hP, ?_⟩
  apply toNumber_resolveStockOr_cero
  intro hnn ht
  unfold stockPresente at hn
  rw [if_neg hnn, ht] at hn
  cases hn

theorem todosStockBajo_eq (db : Db) (user : Doc) (umbralQ : Option Int) :
    (ReportesController.getReporteStockBajo db user umbralQ).todosStockBajo =
      ((productosVisibles db user).filter
        (ReportesController.bajoUmbral (parseIntOr umbralQ 5))).insertionSort
        (fun a b => aporteStock a ≤ aporteStock b) := by
  show jsSort ReportesController.compararStock _ = _
  unfold jsSort
  apply insertionSort_congr
  intro a ha b hb
  have hA := stockCumple_aporte _ a ((bajoUmbral_iff _ a).mp (List.mem_filter.mp ha).2)
  have hB := stockCumple_aporte _ b ((bajoUmbral_iff _ b).mp (List.mem_filter.mp hb).2)
  simp only [noDespues, ReportesController.compararStock, hA.2.2, hB.2.2]
  omega

theorem mem_todosStockBajo (db : Db) (user : Doc) (umbralQ : Option Int) (p : Doc) :
    p ∈ (ReportesController.getReporteStockBajo db user umbralQ).todosStockBajo ↔
      p ∈ productosVisibles db user ∧ stockCumple (fun n => n ≤ parseIntOr umbralQ 5) p := by
  rw [todosStockBajo_eq, List.mem_insertionSort, List.mem_filter, bajoUmbral_iff]

/-- C16, the code: with the threshold `N` that the handler computes as
`parseInt(umbral) || 5`, `todosStockBajo` holds exactly the visible products
whose resolved stock is present and `≤ N`, in non-decreasing order of stock,
and `productosSinStock` / `productosStockCritico` are its sub-lists with stock
0 and with `1 ≤ stock ≤ 2`. A supplied `umbral` of 0 is not the threshold,
though: `parseInt('0') || 5` is 5, and with `umbral=0` the report on the example
store lists product `p2`, whose stock is 3. -/
theorem reporteStockBajo_umbral (db : Db) (user : Doc) (umbralQ : Option Int) :
    (∀ p, p ∈ (ReportesController.getReporteStockBajo db user umbralQ).todosStockBajo ↔
      p ∈ productosVisibles db user ∧ stockCumple (fun n => n ≤ parseIntOr umbralQ 5) p) ∧
    List.Perm (ReportesController.getReporteStockBajo db user umbralQ).todosStockBajo
      ((productosVisibles db user).filter fun p =>
        decide (stockCumple (fun n => n ≤ parseIntOr umbralQ 5) p)) ∧
    List.Sorted (fun a b => aporteStock a ≤ aporteStock b)
      (ReportesController.getReporteStockBajo db user umbralQ).todosStockBajo ∧
    (ReportesController.getReporteStockBajo db user umbralQ).productosSinStock =
      (ReportesController.getReporteStockBajo db user umbralQ).todosStockBajo.filter
        (fun p => decide (stockCumple (fun n => n = 0) p)) ∧
    (ReportesController.getReporteStockBajo db user umbralQ).productosStockCritico =
      (ReportesController.getReporteStockBajo db user umbralQ).todosStockBajo.filter
        (fun p => decide (stockCumple (fun n => 1 ≤ n ∧ n ≤ 2) p)) ∧
    parseIntOr (some 0) 5 = 5 ∧
    (ReportesController.getReporteStockBajo dbEjemplo usuarioAdmin (some 0)).resumen.umbral = 5 ∧
    (ReportesController.getReporteStockBajo dbEjemplo usuarioAdmin (some 0)).todosStockBajo.map
      (fun p => (p.campo "id", stockPresente p)) = [(.texto "p2", some 3)] := by
  refine ⟨mem_todosStockBajo db user umbralQ, ?_, ?_, ?_, ?_, by decide, by decide, by decide⟩
  · rw [todosStockBajo_eq]
    refine (List.perm_insertionSort _ _).trans ?_
    rw [List.filter_congr fun p _ => ?_]
    rw [Bool.eq_iff_iff, decide_eq_true_iff]
    exact bajoUmbral_iff _ p
  · rw [todosStockBajo_eq]
    haveI : IsTotal Doc (fun a b => aporteStock a ≤ aporteStock b) :=
      ⟨fun a b => le_total _ _⟩
    haveI : IsTrans Doc (fun a b => aporteStock a ≤ aporteStock b) :=
      ⟨fun a b c hab hbc => le_trans hab hbc⟩
    exact List.sorted_insertionSort _ _
  · show (ReportesController.getReporteStockBajo db user umbralQ).todosStockBajo.filter
      ReportesController.sinStockReporte = _
    apply List.filter_congr
    intro p hp
    have hA := stockCumple_aporte _ p ((mem_todosStockBajo db user umbralQ p).mp hp).2
    rw [Bool.eq_iff_iff, decide_eq_true_iff]
    simp only [ReportesController.sinStockReporte, hA.2.2, decide_eq_true_eq]
    constructor
    · intro h0
      exact ⟨_, hA.1, h0⟩
    · rintro ⟨n, hn, h0⟩
      rw [hA.1] at hn
      cases hn
      exact h0
  · show (ReportesController.getReporteStockBajo db user umbralQ).todosStockBajo.filter
      ReportesController.stockCriticoReporte = _
    apply List.filter_congr
    intro p hp
    have hA := stockCumple_aporte _ p ((mem_todosStockBajo db user umbralQ p).mp hp).2
    rw [Bool.eq_iff_iff, decide_eq_true_iff]
    simp only [ReportesController.stockCriticoReporte, hA.2.2, Bool.and_eq_true,
      decide_eq_true_eq]
    constructor
    · intro h0
      exact ⟨_, hA.1, by omega⟩
    · rintro ⟨n, hn, h0⟩
      rw [hA.1] at hn
      cases hn
      omega

/-! ### Records under spread and update -/

theorem mem_de_lookup {β : Type} (l : List (String × β)) (k : String) (w : β)
    (h : l.lookup k = some w) : (k, w) ∈ l := by
  induction l with
  | nil => cases h
  | cons a r ih =>
    obtain ⟨k0, v0⟩ := a
    by_cases hk : k0 = k
    · subst hk
      rw [lookup_cons_igual] at h
      cases h
      exact List.mem_cons_self _ _
    · rw [lookup_cons_distinto _ _ _ _ hk] at h
      exact List.mem_cons_of_mem _ (ih h)

theorem lookup_mezclar (patch : List (String × JsVal)) (d : Doc) (k : String)
    (hu : (patch.map Prod.fst).Nodup) :
    (d.mezclar ⟨patch⟩).campos.lookup k =
      if (patch.lookup k).isSome then patch.lookup k else d.campos.lookup k := by
  induction patch generalizing d with
  | nil => rfl
  | cons a r ih =>
    obtain ⟨a, v⟩ := a
    rw [List.map_cons, List.nodup_cons] at hu
    have hstep : d.mezclar ⟨(a, v) :: r⟩ = (d.poner a v).mezclar ⟨r⟩ := rfl
    rw [hstep, ih (d.poner a v) hu.2]
    by_cases hk : a = k
    · subst hk
      have hnone : r.lookup a = none := by
        cases hl : r.lookup a with
        | none => rfl
        | some w =>
          exfalso
          apply hu.1
          have hmem := mem_de_lookup r a w hl
          exact List.mem_map.mpr ⟨(a, w), hmem, rfl⟩
      rw [hnone, lookup_cons_igual]
      simp [Doc.poner, lookup_ponerEn_mismo]
    · have hka : k ≠ a := fun e => hk e.symm
      rw [lookup_cons_distinto _ _ _ _ hk]
      simp [Doc.poner, lookup_ponerEn_otro _ _ _ _ hka]

theorem campo_mezclar (patch d : Doc) (k : String) (hu : patch.clavesUnicas) :
    (d.mezclar patch).campo k = if patch.tiene k then patch.campo k else d.campo k := by
  obtain ⟨l⟩ := patch
  unfold Doc.campo Doc.tiene
  rw [lookup_mezclar l d k hu]
  cases l.lookup k <;> simp

theorem tiene_mezclar (patch d : Doc) (k : String) (hu : patch.clavesUnicas) :
    (d.mezclar patch).tiene k = (patch.tiene k || d.tiene k) := by
  obtain ⟨l⟩ := patch
  unfold Doc.tiene
  rw [lookup_mezclar l d k hu]
  cases l.lookup k <;> simp

theorem claves_ponerEn (l : List (String × JsVal)) (k : String) (v : JsVal) :
    (ponerEn l k v).map Prod.fst =
      if k ∈ l.map Prod.fst then l.map Prod.fst else l.map Prod.fst ++ [k] := by
  induction l with
  | nil => simp [ponerEn]
  | cons a r ih =>
    obtain ⟨k0, v0⟩ := a
    by_cases h : k0 = k
    · subst h
      simp [ponerEn]
    · have hk : ¬ k = k0 := fun e => h e.symm
      simp only [ponerEn, h, if_false, List.map_cons, ih, List.mem_cons, hk, false_or]
      split_ifs <;> simp

theorem clavesUnicas_poner (d : Doc) (k : String) (v : JsVal) (hu : d.clavesUnicas) :
    (d.poner k v).clavesUnicas := by
  unfold Doc.clavesUnicas Doc.poner at *
  rw [claves_ponerEn]
  split_ifs with h
  · exact hu
  · exact List.Nodup.append hu (List.nodup_singleton k) (by simpa using h)

/-! ### Area names -/

theorem donde_vacia_general (c : Coleccion) (k : String) (v : JsVal) :
    ((c.donde k v).take 1).isEmpty = true ↔ ∀ e ∈ c, e.2.campos.lookup k ≠ some v := by
  unfold Coleccion.donde
  constructor
  · intro h e he hl
    have hm : e ∈ c.filter (fun e => e.2.campos.lookup k == some v) := by
      simp [List.mem_filter, he, hl]
    cases hf : c.filter (fun e => e.2.campos.lookup k == some v) with
    | nil => rw [hf] at hm; cases hm
    | cons a r => rw [hf] at h; simp at h
  · intro h
    have hf : c.filter (fun e => e.2.campos.lookup k == some v) = [] := by
      rw [List.filter_eq_nil_iff]
      intro e he hl
      exact h e he (by simpa using hl)
    rw [hf]
    rfl

theorem mem_nombresDeAreas (c : Coleccion) (v : JsVal) :
    v ∈ nombresDeAreas c ↔ ∃ e ∈ c, e.2.campos.lookup "name" = some v := by
  unfold nombresDeAreas
  rw [List.mem_filterMap]

theorem nombresDeAreas_cons (e : String × Doc) (c : Coleccion) :
    nombresDeAreas (e :: c) =
      match e.2.campos.lookup "name" with
      | some v => v :: nombresDeAreas c
      | none => nombresDeAreas c := by
  unfold nombresDeAreas
  rw [List.filterMap_cons]
  cases e.2.campos.lookup "name" <;> rfl

theorem nombre_unico (c : Coleccion) (a b : String × Doc) (v : JsVal)
    (hn : (nombresDeAreas c).Nodup) (ha : a ∈ c) (hb : b ∈ c)
    (hva : a.2.campos.lookup "name" = some v) (hvb : b.2.campos.lookup "name" = some v) :
    a = b := by
  induction c with
  | nil => cases ha
  | cons e r ih =>
    rw [nombresDeAreas_cons] at hn
    rcases List.mem_cons.mp ha with hae | har
    · rcases List.mem_cons.mp hb with hbe | hbr
      · rw [hae, hbe]
      · exfalso
        rw [← hae, hva] at hn
        exact (List.nodup_cons.mp hn).1 ((mem_nombresDeAreas r v).mpr ⟨b, hbr, hvb⟩)
    · rcases List.mem_cons.mp hb with hbe | hbr
      · exfalso
        rw [← hbe, hvb] at hn
        exact (List.nodup_cons.mp hn).1 ((mem_nombresDeAreas r v).mpr ⟨a, har, hva⟩)
      · apply ih _ har hbr
        cases hl : e.2.campos.lookup "name" with
        | none => rw [hl] at hn; exact hn
        | some w => rw [hl] at hn; exact (List.nodup_cons.mp hn).2

theorem actualizar_sin_id (c : Coleccion) (id : String) (patch : Doc)
    (h : id ∉ c.map Prod.fst) : c.actualizar id patch = c := by
  unfold Coleccion.actualizar
  conv_rhs => rw [← List.map_id c]
  apply List.map_congr_left
  intro e he
  have hne : ¬ e.1 = id := fun x => h (x ▸ List.mem_map.mpr ⟨e, he, rfl⟩)
  simp [hne]

theorem ids_actualizar (c : Coleccion) (id : String) (patch : Doc) :
    (c.actualizar id patch).map Prod.fst = c.map Prod.fst := by
  unfold Coleccion.actualizar
  rw [List.map_map]
  apply List.map_congr_left
  intro e _
  by_cases h : e.1 = id <;> simp [h]

theorem mem_nombres_actualizar (c : Coleccion) (id : String) (patch : Doc) (v y : JsVal)
    (hpatch : ∀ d : Doc, (d.mezclar patch).campos.lookup "name" = some v)
    (hy : y ∈ nombresDeAreas (c.actualizar id patch)) : y ∈ nombresDeAreas c ∨ y = v := by
  rw [mem_nombresDeAreas] at hy
  obtain ⟨e2, he2, hl⟩ := hy
  unfold Coleccion.actualizar at he2
  obtain ⟨e, he, rfl⟩ := List.mem_map.mp he2
  by_cases hid : e.1 = id
  · right
    rw [if_pos hid] at hl
    rw [hpatch e.2] at hl
    cases hl
    rfl
  · left
    rw [if_neg hid] at hl
    exact (mem_nombresDeAreas c y).mpr ⟨e, he, hl⟩

theorem nombres_actualizar (c : Coleccion) (id : String) (patch : Doc) (v : JsVal)
    (hpatch : ∀ d : Doc, (d.mezclar patch).campos.lookup "name" = some v)
    (hid : (c.map Prod.fst).Nodup)
    (hcond : ∀ e ∈ c, e.1 ≠ id → e.2.campos.lookup "name" ≠ some v)
    (hn : (nombresDeAreas c).Nodup) : (nombresDeAreas (c.actualizar id patch)).Nodup := by
  induction c with
  | nil => exact List.nodup_nil
  | cons a r ih =>
    obtain ⟨k, d⟩ := a
    rw [List.map_cons, List.nodup_cons] at hid
    have hnr : (nombresDeAreas r).Nodup := by
      rw [nombresDeAreas_cons] at hn
      cases hl : d.campos.lookup "name" with
      | none => simpa [hl] using hn
      | some w =>
        have hn2 : (w :: nombresDeAreas r).Nodup := by simpa [hl] using hn
        exact (List.nodup_cons.mp hn2).2
    have hcr : ∀ e ∈ r, e.1 ≠ id → e.2.campos.lookup "name" ≠ some v :=
      fun e he => hcond e (List.mem_cons_of_mem _ he)
    by_cases hk : k = id
    · subst hk
      have hstep : Coleccion.actualizar ((k, d) :: r) k patch =
          (k, d.mezclar patch) :: Coleccion.actualizar r k patch := by
        simp [Coleccion.actualizar]
      rw [hstep, actualizar_sin_id r k patch hid.1, nombresDeAreas_cons]
      simp only [hpatch d]
      refine List.nodup_cons.mpr ⟨?_, hnr⟩
      intro hv
      obtain ⟨e, he, hl⟩ := (mem_nombresDeAreas r v).mp hv
      have hne : e.1 ≠ k := fun x => hid.1 (x ▸ List.mem_map.mpr ⟨e, he, rfl⟩)
      exact hcr e he hne hl
    · have hstep : Coleccion.actualizar ((k, d) :: r) id patch =
          (k, d) :: Coleccion.actualizar r id patch := by
        simp [Coleccion.actualizar, hk]
      rw [hstep, nombresDeAreas_cons]
      have ihr := ih hid.2 hcr hnr
      cases hl : d.campos.lookup "name" with
      | none => exact ihr
      | some w =>
        refine List.nodup_cons.mpr ⟨?_, ihr⟩
        intro hw
        rcases mem_nombres_actualizar r id patch v w hpatch hw with h1 | h2
        · have hn2 : (w :: nombresDeAreas r).Nodup := by
            rw [nombresDeAreas_cons] at hn
            simpa [hl] using hn
          exact (List.nodup_cons.mp hn2).1 h1
        · exact hcond (k, d) (List.mem_cons_self _ _) hk (by rw [hl, h2])

theorem nombres_actualizar_sin_nombre (c : Coleccion) (id : String) (patch : Doc)
    (hpatch : ∀ d : Doc, (d.mezclar patch).campos.lookup "name" = d.campos.lookup "name") :
    nombresDeAreas (c.actualizar id patch) = nombresDeAreas c := by
  induction c with
  | nil => rfl
  | cons a r ih =>
    have hstep : Coleccion.actualizar (a :: r) id patch =
        (if a.1 = id then (a.1, a.2.mezclar patch) else a) :: Coleccion.actualizar r id patch := by
      simp [Coleccion.actualizar]
    rw [hstep, nombresDeAreas_cons, nombresDeAreas_cons, ih]
    by_cases h : a.1 = id
    · simp only [h, if_true, hpatch]
    · simp only [h, if_false]

theorem datosUpdate_claves (user body : Doc) (ahora : JsVal) :
    (AreasController.datosUpdate user body ahora).clavesUnicas := by
  unfold AreasController.datosUpdate
  have h0 : (Doc.mk [("lastUpdate", ahora), ("updatedBy", user.campo "email")]).clavesUnicas := by
    show (["lastUpdate", "updatedBy"] : List String).Nodup
    decide
  simp only
  split_ifs
  · exact clavesUnicas_poner _ _ _ (clavesUnicas_poner _ _ _ h0)
  · exact clavesUnicas_poner _ _ _ h0
  · exact clavesUnicas_poner _ _ _ h0
  · exact h0

theorem datosUpdate_nombre (user body : Doc) (ahora : JsVal) :
    (AreasController.datosUpdate user body ahora).campos.lookup "name" =
      if (body.campo "name").truthy then some (body.campo "name") else none := by
  unfold AreasController.datosUpdate
  simp only
  have hnc : ("name" : String) ≠ "campos" := by decide
  by_cases hname : (body.campo "name").truthy = true
  · by_cases hcampos : (body.campo "campos" != JsVal.indefinido) = true
    · simp only [hname, hcampos, if_true, Doc.poner]
      rw [lookup_ponerEn_otro _ _ _ _ hnc, lookup_ponerEn_mismo]
    · simp only [hname, hcampos, if_true, if_false, Doc.poner, Bool.false_eq_true]
      rw [lookup_ponerEn_mismo]
  · by_cases hcampos : (body.campo "campos" != JsVal.indefinido) = true
    · simp only [hname, hcampos, if_true, if_false, Doc.poner, Bool.false_eq_true]
      rw [lookup_ponerEn_otro _ _ _ _ hnc]
      rfl
    · simp only [hname, hcampos, if_false, Bool.false_eq_true]
      rfl

theorem areas_update_eq (db : Db) (user : Doc) (id : String) (body : Doc) (ahora : JsVal) :
    AreasController.update db user id body ahora =
      match db.areas.buscar id with
      | none => { db := db, salida := .error (AppError "Área no encontrada" 404) }
      | some _ =>
        if AreasController.nombreRepetido db id body then
          { db := db, salida := .error (AppError "Ya existe un área con ese nombre" 400) }
        else
          { db := { db with
              areas := db.areas.actualizar id (AreasController.datosUpdate user body ahora) },
            salida := .ok { status := 200, success := true,
                            message := "Área actualizada correctamente",
                            data := some ((Doc.mk [("id", .texto id)]).mezclar
                              (AreasController.datosUpdate user body ahora)) } } := by
  rfl

theorem areas_create_eq (db : Db) (user body : Doc) (nid : String) (ahora : JsVal) :
    AreasController.create db user body nid ahora =
      if !((db.areas.donde "name" (body.campo "name")).take 1).isEmpty then
        { db := db, salida := .error (AppError "Ya existe un área con ese nombre" 400) }
      else
        { db := { db with
            areas := db.areas.agregar nid (AreasController.datosCreate user body ahora) },
          salida := .ok { status := 201, success := true, message := "Área creada correctamente",
                          data := some ((Doc.mk [("id", .texto nid)]).mezclar
                            (AreasController.datosCreate user body ahora)) } } := by
  rfl

theorem nombres_agregar (c : Coleccion) (nid : String) (d : Doc) (v : JsVal)
    (hd : d.campos.lookup "name" = some v) :
    nombresDeAreas (c.agregar nid d) = nombresDeAreas c ++ [v] := by
  unfold nombresDeAreas Coleccion.agregar
  rw [List.filterMap_append]
  simp [hd]

theorem areas_create_invariante (db : Db) (user body : Doc) (nid : String) (ahora : JsVal)
    (hn : nombresDistintos db) :
    ((AreasController.create db user body nid ahora).codigoError = some (.numero 400) ∧
      (AreasController.create db user body nid ahora).db = db) ∨
    ((AreasController.create db user body nid ahora).exito = true ∧
      nombresDistintos (AreasController.create db user body nid ahora).db) := by
  rw [areas_create_eq]
  by_cases hv : ((db.areas.donde "name" (body.campo "name")).take 1).isEmpty = true
  · right
    simp only [hv, Bool.not_true, Bool.false_eq_true, if_false]
    refine ⟨rfl, ?_⟩
    unfold nombresDistintos
    show (nombresDeAreas (db.areas.agregar nid (AreasController.datosCreate user body ahora))).Nodup
    rw [nombres_agregar db.areas nid (AreasController.datosCreate user body ahora)
      (body.campo "name") (lookup_cons_igual _ _ _)]
    refine List.Nodup.append hn (List.nodup_singleton _) ?_
    intro y hy hy2
    rw [List.mem_singleton] at hy2
    subst hy2
    obtain ⟨e, he, hl⟩ := (mem_nombresDeAreas _ _).mp hy
    exact (donde_vacia_general _ _ _).mp hv e he hl
  · left
    have hv2 : ((db.areas.donde "name" (body.campo "name")).take 1).isEmpty = false := by
      simpa using hv
    rw [hv2]
    exact ⟨rfl, rfl⟩

theorem areas_update_invariante (db : Db) (user : Doc) (id : String) (body : Doc)
    (ahora : JsVal) (hn : nombresDistintos db) (hid : idsDistintos db.areas) :
    ((AreasController.update db user id body ahora).codigoError = some (.numero 404) ∧
      db.areas.buscar id = none ∧ (AreasController.update db user id body ahora).db = db) ∨
    ((AreasController.update db user id body ahora).codigoError = some (.numero 400) ∧
      (AreasController.update db user id body ahora).db = db) ∨
    ((AreasController.update db user id body ahora).exito = true ∧
      nombresDistintos (AreasController.update db user id body ahora).db) := by
  rw [areas_update_eq]
  cases hb : db.areas.buscar id with
  | none => exact Or.inl ⟨rfl, rfl, rfl⟩
  | some doc =>
    right
    by_cases hrep : AreasController.nombreRepetido db id body = true
    · left
      rw [hrep]
      exact ⟨rfl, rfl⟩
    · right
      simp only [hrep, Bool.false_eq_true, if_false]
      refine ⟨rfl, ?_⟩
      unfold nombresDistintos
      show (nombresDeAreas
        (db.areas.actualizar id (AreasController.datosUpdate user body ahora))).Nodup
      have hlook := fun d : Doc =>
        lookup_mezclar (AreasController.datosUpdate user body ahora).campos d "name"
          (datosUpdate_claves user body ahora)
      by_cases hname : (body.campo "name").truthy = true
      · have hpatch : ∀ d : Doc,
            (d.mezclar (AreasController.datosUpdate user body ahora)).campos.lookup "name" =
              some (body.campo "name") := by
          intro d
          have h := hlook d
          rw [datosUpdate_nombre, if_pos hname] at h
          simpa using h
        apply nombres_actualizar _ _ _ _ hpatch hid _ hn
        intro e he hne hl
        unfold AreasController.nombreRepetido at hrep
        rw [hname, Bool.true_and] at hrep
        cases hex : (db.areas.donde "name" (body.campo "name")).take 1 with
        | nil =>
          have hvac : ((db.areas.donde "name" (body.campo "name")).take 1).isEmpty = true := by
            rw [hex]
            rfl
          exact (donde_vacia_general _ _ _).mp hvac e he hl
        | cons e0 rest =>
          rw [hex] at hrep
          have he0id : e0.1 = id := by simpa using hrep
          have hmem : e0 ∈ (db.areas.donde "name" (body.campo "name")).take 1 := by
            rw [hex]
            exact List.mem_cons_self _ _
          have hmem2 := List.mem_of_mem_take hmem
          unfold Coleccion.donde at hmem2
          obtain ⟨h0in, h0l⟩ := List.mem_filter.mp hmem2
          have h0l2 : e0.2.campos.lookup "name" = some (body.campo "name") := by
            simpa using h0l
          have heq := nombre_unico db.areas e e0 _ hn he h0in hl h0l2
          exact hne (heq ▸ he0id)
      · have hpatch : ∀ d : Doc,
            (d.mezclar (AreasController.datosUpdate user body ahora)).campos.lookup "name" =
              d.campos.lookup "name" := by
          intro d
          have h := hlook d
          rw [datosUpdate_nombre, if_neg hname] at h
          simpa using h
        rw [nombres_actualizar_sin_nombre _ _ _ hpatch]
        exact hn

/-- C17 as stated fails for `areas.update` of an unknown id: on the example
store, whose area names are pairwise distinct, the update of area `zz` fails
with status code 404, which is neither the conflict error 400 nor a success. -/
theorem areas_update_desconocida_404 :
    nombresDistintos dbEjemplo ∧
    (AreasController.update dbEjemplo usuarioAdmin "zz" cuerpoJardin (.numero 300)).exito =
      false ∧
    (AreasController.update dbEjemplo usuarioAdmin "zz" cuerpoJardin
      (.numero 300)).codigoError = some (.numero 404) ∧
    (AreasController.update dbEjemplo usuarioAdmin "zz" cuerpoJardin
      (.numero 300)).codigoError ≠ some (.numero 400) := by
  decide

/-- C17, amended: on a store whose area names are pairwise distinct (and whose
document ids are), `areas.create` either throws the conflict error 400 and
leaves the store as it was or succeeds and leaves the area names pairwise
distinct; `areas.update` either throws, the 404 for an unknown id or the
conflict error 400, and leaves the store as it was, or succeeds and leaves the
area names pairwise distinct. Document ids stay pairwise distinct, for
`create` when the new id is fresh. -/
theorem areas_nombres_invariante (db : Db) (user body : Doc) (id nid : String) (ahora : JsVal)
    (hn : nombresDistintos db) (hid : idsDistintos db.areas) :
    (((AreasController.create db user body nid ahora).codigoError = some (.numero 400) ∧
        (AreasController.create db user body nid ahora).db = db) ∨
      ((AreasController.create db user body nid ahora).exito = true ∧
        nombresDistintos (AreasController.create db user body nid ahora).db)) ∧
    (((AreasController.update db user id body ahora).codigoError = some (.numero 404) ∧
        db.areas.buscar id = none ∧ (AreasController.update db user id body ahora).db = db) ∨
      ((AreasController.update db user id body ahora).codigoError = some (.numero 400) ∧
        (AreasController.update db user id body ahora).db = db) ∨
      ((AreasController.update db user id body ahora).exito = true ∧
        nombresDistintos (AreasController.update db user id body ahora).db)) ∧
    idsDistintos (AreasController.update db user id body ahora).db.areas ∧
    (nid ∉ db.areas.map Prod.fst →
      idsDistintos (AreasController.create db user body nid ahora).db.areas) := by
  refine ⟨areas_create_invariante db user body nid ahora hn,
    areas_update_invariante db user id body ahora hn hid, ?_, ?_⟩
  · rw [areas_update_eq]
    cases db.areas.buscar id with
    | none => exact hid
    | some doc =>
      by_cases hrep : AreasController.nombreRepetido db id body = true
      · simp only [hrep, if_true]
        exact hid
      · simp only [hrep, Bool.false_eq_true, if_false]
        unfold idsDistintos
        rw [ids_actualizar]
        exact hid
  · intro hfresh
    rw [areas_create_eq]
    split_ifs
    · exact hid
    · unfold idsDistintos Coleccion.agregar
      rw [List.map_append]
      refine List.Nodup.append hid (List.nodup_singleton _) ?_
      intro y hy hy2
      rw [List.map_cons, List.map_nil, List.mem_singleton] at hy2
      subst hy2
      exact hfresh hy

/-- Witness of C17 on the example store: creating `Bodega` again is refused
with 400, creating `Jardin` succeeds, renaming area `a2` to `Bodega` is
refused with 400, and the names stay pairwise distinct. -/
theorem areas_nombres_invariante_witness :
    (AreasController.create dbEjemplo usuarioAdmin cuerpoBodega "a4" (.numero 300)).codigoError =
      some (.numero 400) ∧
    (AreasController.update dbEjemplo usuarioAdmin "a2" cuerpoBodega (.numero 300)).codigoError =
      some (.numero 400) ∧
    (AreasController.create dbEjemplo usuarioAdmin cuerpoJardin "a4" (.numero 300)).exito =
      true ∧
    nombresDistintos (AreasController.create dbEjemplo usuarioAdmin cuerpoJardin "a4"
      (.numero 300)).db ∧
    idsDistintos (AreasController.update dbEjemplo usuarioAdmin "a2" cuerpoBodega
      (.numero 300)).db.areas :=
  ⟨by decide, by decide, by decide, by decide,
    (areas_nombres_invariante dbEjemplo usuarioAdmin cuerpoBodega "a2" "a4" (.numero 300)
      (by decide) (by decide)).2.2.1⟩

/-! ### Partial update of a user -/

theorem lookup_cons_si {β : Type} (k k0 : String) (v : β) (r : List (String × β)) :
    List.lookup k ((k0, v) :: r) = if k = k0 then some v else List.lookup k r := by
  by_cases h : k = k0
  · subst h
    rw [if_pos rfl, lookup_cons_igual]
  · rw [if_neg h, lookup_cons_distinto _ _ _ _ (fun e => h e.symm)]

theorem lookup_poner_si (c : Bool) (d : Doc) (j k : String) (v : JsVal) :
    (if c = true then d.poner j v else d).campos.lookup k =
      if c = true ∧ k = j then some v else d.campos.lookup k := by
  by_cases hc : c = true
  · by_cases hk : k = j
    · subst hk
      simp [hc, Doc.poner, lookup_ponerEn_mismo]
    · simp [hc, hk, Doc.poner, lookup_ponerEn_otro _ _ _ _ hk]
  · simp [hc]

theorem usuarios_datosUpdate_claves (user body : Doc) (ahoraIso : String) :
    (UsuariosController.datosUpdate user body ahoraIso).clavesUnicas := by
  unfold UsuariosController.datosUpdate
  have h0 : (Doc.mk [("updatedAt", .texto ahoraIso), ("updatedBy", user.campo "email")]).clavesUnicas := by
    show (["updatedAt", "updatedBy"] : List String).Nodup
    decide
  have paso : ∀ (c : Bool) (d : Doc) (j : String) (v : JsVal), d.clavesUnicas →
      (if c = true then d.poner j v else d).clavesUnicas := by
    intro c d j v hd
    split_ifs
    · exact clavesUnicas_poner _ _ _ hd
    · exact hd
  exact paso _ _ _ _ (paso _ _ _ _ (paso _ _ _ _ h0))

theorem usuarios_datosUpdate_lookup (user body : Doc) (ahoraIso : String) (k : String) :
    (UsuariosController.datosUpdate user body ahoraIso).campos.lookup k =
      if (body.campo "soloDescontar" != .indefinido) = true ∧ k = "soloDescontar" then
        some (body.campo "soloDescontar")
      else if (body.campo "areasPermitidas" != .indefinido) = true ∧ k = "areasPermitidas" then
        some (body.campo "areasPermitidas")
      else if (body.campo "rol" != .indefinido) = true ∧ k = "rol" then
        some (body.campo "rol")
      else if k = "updatedAt" then some (.texto ahoraIso)
      else if k = "updatedBy" then some (user.campo "email")
      else none := by
  unfold UsuariosController.datosUpdate
  simp only
  rw [lookup_poner_si, lookup_poner_si, lookup_poner_si, lookup_cons_si, lookup_cons_si]
  rfl

theorem buscar_actualizar_otro (c : Coleccion) (id otro : String) (patch : Doc)
    (h : otro ≠ id) : (c.actualizar id patch).buscar otro = c.buscar otro := by
  induction c with
  | nil => rfl
  | cons a r ih =>
    obtain ⟨k, d⟩ := a
    unfold Coleccion.actualizar Coleccion.buscar at ih ⊢
    rw [List.map_cons]
    by_cases hk : k = id
    · subst hk
      rw [if_pos rfl, lookup_cons_distinto _ _ _ _ (fun e => h e.symm),
        lookup_cons_distinto _ _ _ _ (fun e => h e.symm)]
      exact ih
    · rw [if_neg hk]
      by_cases ho : k = otro
      · subst ho
        rw [lookup_cons_igual, lookup_cons_igual]
      · rw [lookup_cons_distinto _ _ _ _ ho, lookup_cons_distinto _ _ _ _ ho]
        exact ih

theorem campo_de_lookup (d : Doc) (k : String) (v : JsVal)
    (h : d.campos.lookup k = some v) : d.campo k = v := by
  unfold Doc.campo
  rw [h]

theorem campo_lookup_igual (d e : Doc) (k : String)
    (h : d.campos.lookup k = e.campos.lookup k) :
    d.campo k = e.campo k ∧ d.tiene k = e.tiene k := by
  unfold Doc.campo Doc.tiene
  rw [h]
  exact ⟨rfl, rfl⟩

theorem usuarios_update_eq (db : Db) (user : Doc) (id : String) (body : Doc)
    (ahoraIso : String) :
    UsuariosController.update db user id body ahoraIso =
      match db.usuarios.buscar id with
      | none => { db := db, salida := .error (AppError "Usuario no encontrado" 404) }
      | some _ =>
        { db := { db with
            usuarios := db.usuarios.actualizar id
              (UsuariosController.datosUpdate user body ahoraIso) },
          salida := .ok { status := 200, success := true,
                          message := "Usuario actualizado correctamente",
                          data := some ((Doc.mk [("id", .texto id)]).mezclar
                            (UsuariosController.datosUpdate user body ahoraIso)) } } := by
  rfl

/-- C18: for an existing user record and any request body, `usuarios.update`
succeeds and changes, in that record only, the fields among `rol`,
`areasPermitidas` and `soloDescontar` that the body supplies, which take the
body's values, and the bookkeeping fields `updatedAt` and `updatedBy`; every
other field, `email` among them, keeps its value (and stays absent if it was),
and no other record or collection changes. -/
theorem usuarios_update_marco (db : Db) (user : Doc) (id : String) (body : Doc)
    (ahoraIso : String) (userData : Doc)
    (huser : db.usuarios.buscar id = some userData) :
    (UsuariosController.update db user id body ahoraIso).exito = true ∧
    (∃ despues,
      (UsuariosController.update db user id body ahoraIso).db.usuarios.buscar id =
        some despues ∧
      (∀ k, k ≠ "updatedAt" → k ≠ "updatedBy" →
        ¬ (k ∈ ["rol", "areasPermitidas", "soloDescontar"] ∧ suministra body k) →
        despues.campo k = userData.campo k ∧ despues.tiene k = userData.tiene k) ∧
      (∀ k, k ∈ ["rol", "areasPermitidas", "soloDescontar"] → suministra body k →
        despues.campo k = body.campo k) ∧
      despues.campo "email" = userData.campo "email" ∧
      despues.campo "updatedAt" = .texto ahoraIso ∧
      despues.campo "updatedBy" = user.campo "email") ∧
    (∀ otro, otro ≠ id →
      (UsuariosController.update db user id body ahoraIso).db.usuarios.buscar otro =
        db.usuarios.buscar otro) ∧
    (UsuariosController.update db user id body ahoraIso).db.productos = db.productos ∧
    (UsuariosController.update db user id body ahoraIso).db.areas = db.areas ∧
    (UsuariosController.update db user id body ahoraIso).db.movimientos = db.movimientos := by
  have hU := usuarios_datosUpdate_lookup user body ahoraIso
  have hcl := usuarios_datosUpdate_claves user body ahoraIso
  have hlook := fun k : String =>
    lookup_mezclar (UsuariosController.datosUpdate user body ahoraIso).campos userData k hcl
  have hsum : ∀ k, (body.campo k != JsVal.indefinido) = true ↔ suministra body k := by
    intro k
    unfold suministra
    simp
  have hmarco : ∀ k, k ≠ "updatedAt" → k ≠ "updatedBy" →
      ¬ (k ∈ ["rol", "areasPermitidas", "soloDescontar"] ∧ suministra body k) →
      (userData.mezclar (UsuariosController.datosUpdate user body ahoraIso)).campos.lookup k =
        userData.campos.lookup k := by
    intro k h1 h2 h3
    have hnone : (UsuariosController.datosUpdate user body ahoraIso).campos.lookup k = none := by
      rw [hU k]
      have a1 : ¬ ((body.campo "soloDescontar" != JsVal.indefinido) = true ∧
          k = "soloDescontar") := by
        rintro ⟨hs, rfl⟩
        exact h3 ⟨by simp, (hsum _).mp hs⟩
      have a2 : ¬ ((body.campo "areasPermitidas" != JsVal.indefinido) = true ∧
          k = "areasPermitidas") := by
        rintro ⟨hs, rfl⟩
        exact h3 ⟨by simp, (hsum _).mp hs⟩
      have a3 : ¬ ((body.campo "rol" != JsVal.indefinido) = true ∧ k = "rol") := by
        rintro ⟨hs, rfl⟩
        exact h3 ⟨by simp, (hsum _).mp hs⟩
      rw [if_neg a1, if_neg a2, if_neg a3, if_neg h1, if_neg h2]
    have h := hlook k
    rw [hnone] at h
    simpa using h
  have hdado : ∀ k, k ∈ ["rol", "areasPermitidas", "soloDescontar"] → suministra body k →
      (userData.mezclar (UsuariosController.datosUpdate user body ahoraIso)).campos.lookup k =
        some (body.campo k) := by
    intro k hk hs
    have hsome : (UsuariosController.datosUpdate user body ahoraIso).campos.lookup k =
        some (body.campo k) := by
      rw [hU k]
      have hb := (hsum k).mpr hs
      simp only [List.mem_cons, List.mem_singleton, List.not_mem_nil, or_false] at hk
      rcases hk with rfl | rfl | rfl
      · simp [hb]
      · simp [hb]
      · simp [hb]
    have h := hlook k
    rw [hsome] at h
    simpa using h
  rw [usuarios_update_eq, huser]
  refine ⟨rfl, ⟨userData.mezclar (UsuariosController.datosUpdate user body ahoraIso), ?_, ?_, ?_,
    ?_, ?_, ?_⟩, ?_, rfl, rfl, rfl⟩
  · show (db.usuarios.actualizar id _).buscar id = _
    rw [buscar_actualizar, huser]
    rfl
  · intro k h1 h2 h3
    exact campo_lookup_igual _ _ k (hmarco k h1 h2 h3)
  · intro k hk hs
    exact campo_de_lookup _ k _ (hdado k hk hs)
  · exact (campo_lookup_igual _ _ "email" (hmarco "email" (by decide) (by decide) (by simp))).1
  · apply campo_de_lookup
    have hat : (UsuariosController.datosUpdate user body ahoraIso).campos.lookup "updatedAt" =
        some (.texto ahoraIso) := by
      rw [hU, if_neg (by simp), if_neg (by simp), if_neg (by simp), if_pos rfl]
    have h := hlook "updatedAt"
    rw [hat] at h
    simpa using h
  · apply campo_de_lookup
    have hby : (UsuariosController.datosUpdate user body ahoraIso).campos.lookup "updatedBy" =
        some (user.campo "email") := by
      rw [hU, if_neg (by simp), if_neg (by simp), if_neg (by simp), if_neg (by decide),
        if_pos rfl]
    have h := hlook "updatedBy"
    rw [hby] at h
    simpa using h
  · intro otro ho
    exact buscar_actualizar_otro _ _ _ _ ho

/-- Witness of C18: an update of user `u2` with the body
`{rol: 'admin', email: 'otra@cielito.mx'}` changes the role and keeps the
e-mail address. -/
theorem usuarios_update_marco_witness :
    (UsuariosController.update dbEjemplo usuarioAdmin "u2" cuerpoRolAdmin
      "2026-01-01T00:00:00.000Z").exito = true ∧
    ((UsuariosController.update dbEjemplo usuarioAdmin "u2" cuerpoRolAdmin
      "2026-01-01T00:00:00.000Z").db.usuarios.buscar "u2").map
        (fun d => (d.campo "email", d.campo "rol", d.campo "areasPermitidas")) =
      some (.texto "luis@cielito.mx", .texto "admin", .arr [.str "Cocina"]) :=
  ⟨(usuarios_update_marco dbEjemplo usuarioAdmin "u2" cuerpoRolAdmin "2026-01-01T00:00:00.000Z"
      usuarioLuisDoc (by decide)).1,
    by decide⟩

/-! ### User activity -/

theorem lookup_registrar (acc : List (String × ReportesController.Actividad)) (m : Doc)
    (k : String) :
    (ReportesController.registrar acc m).lookup k =
      if k = ReportesController.claveUsuario m then
        some (ReportesController.contar
          ((acc.lookup k).getD (ReportesController.actividadInicial m)) m)
      else acc.lookup k := by
  induction acc with
  | nil =>
    show List.lookup k [(ReportesController.claveUsuario m, _)] = _
    rw [lookup_cons_si]
    rfl
  | cons a r ih =>
    obtain ⟨k0, e⟩ := a
    by_cases h0 : k0 = ReportesController.claveUsuario m
    · have hstep : ReportesController.registrar ((k0, e) :: r) m =
          (k0, ReportesController.contar e m) :: r := by
        simp [ReportesController.registrar, h0]
      rw [hstep, lookup_cons_si, lookup_cons_si]
      by_cases hk : k = k0
      · rw [if_pos hk, if_pos hk, if_pos (hk.trans h0)]
        rfl
      · rw [if_neg hk, if_neg hk]
        have hk2 : ¬ k = ReportesController.claveUsuario m := fun x => hk (x.trans h0.symm)
        rw [if_neg hk2]
    · have hstep : ReportesController.registrar ((k0, e) :: r) m =
          (k0, e) :: ReportesController.registrar r m := by
        simp [ReportesController.registrar, h0]
      rw [hstep, lookup_cons_si, lookup_cons_si, ih]
      by_cases hk : k = k0
      · have hk2 : ¬ k = ReportesController.claveUsuario m := fun x => h0 (hk.symm.trans x)
        rw [if_pos hk, if_neg hk2, if_pos hk]
      · rw [if_neg hk, if_neg hk]

theorem claves_registrar (acc : List (String × ReportesController.Actividad)) (m : Doc) :
    (ReportesController.registrar acc m).map Prod.fst =
      if ReportesController.claveUsuario m ∈ acc.map Prod.fst then acc.map Prod.fst
      else acc.map Prod.fst ++ [ReportesController.claveUsuario m] := by
  induction acc with
  | nil => simp [ReportesController.registrar]
  | cons a r ih =>
    obtain ⟨k0, e⟩ := a
    by_cases h0 : k0 = ReportesController.claveUsuario m
    · simp [ReportesController.registrar, h0]
    · have hk : ¬ ReportesController.claveUsuario m = k0 := fun x => h0 x.symm
      simp only [ReportesController.registrar, h0, if_false, List.map_cons, ih, List.mem_cons,
        hk, false_or]
      split_ifs <;> simp

theorem suma_registrar (acc : List (String × ReportesController.Actividad)) (m : Doc) :
    ((ReportesController.registrar acc m).map fun x => x.2.totalMovimientos).sum =
      (acc.map fun x => x.2.totalMovimientos).sum + 1 := by
  induction acc with
  | nil => simp [ReportesController.registrar, ReportesController.contar,
      ReportesController.actividadInicial]
  | cons a r ih =>
    obtain ⟨k0, e⟩ := a
    by_cases h0 : k0 = ReportesController.claveUsuario m
    · simp [ReportesController.registrar, h0, ReportesController.contar]
      omega
    · simp only [ReportesController.registrar, h0, if_false, List.map_cons, List.sum_cons, ih]
      omega

theorem actividadPorUsuario_snoc (movs : List Doc) (a : Doc) :
    ReportesController.actividadPorUsuario (movs ++ [a]) =
      ReportesController.registrar (ReportesController.actividadPorUsuario movs) a := by
  unfold ReportesController.actividadPorUsuario
  rw [List.foldl_append]
  rfl

theorem claves_actividad_nodup (movs : List Doc) :
    ((ReportesController.actividadPorUsuario movs).map Prod.fst).Nodup := by
  induction movs using List.reverseRecOn with
  | nil => exact List.nodup_nil
  | append_singleton l a ih =>
    rw [actividadPorUsuario_snoc, claves_registrar]
    split_ifs with h
    · exact ih
    · exact List.Nodup.append ih (List.nodup_singleton _) (by simpa using h)

theorem suma_actividad (movs : List Doc) :
    ((ReportesController.actividadPorUsuario movs).map fun x => x.2.totalMovimientos).sum =
      movs.length := by
  induction movs using List.reverseRecOn with
  | nil => rfl
  | append_singleton l a ih =>
    rw [actividadPorUsuario_snoc, suma_registrar, ih, List.length_append]
    rfl

theorem lookup_de_mem {β : Type} (l : List (String × β)) (k : String) (e : β)
    (hnd : (l.map Prod.fst).Nodup) (h : (k, e) ∈ l) : l.lookup k = some e := by
  induction l with
  | nil => cases h
  | cons a r ih =>
    obtain ⟨k0, e0⟩ := a
    rw [List.map_cons, List.nodup_cons] at hnd
    rcases List.mem_cons.mp h with heq | hin
    · cases heq
      exact lookup_cons_igual _ _ _
    · have hne : k0 ≠ k := fun x => hnd.1 (x ▸ List.mem_map.mpr ⟨(k, e), hin, rfl⟩)
      rw [lookup_cons_distinto _ _ _ _ hne]
      exact ih hnd.2 hin

theorem conFechas_prefijo (l : List Doc) (a : Doc) (h : conFechas (l ++ [a])) :
    conFechas l ∧ ∃ t, a.campo "fecha" = .numero t :=
  ⟨fun m hm => h m (List.mem_append_left _ hm),
    h a (List.mem_append_right _ (List.mem_singleton_self a))⟩

theorem ultima_contar (e : ReportesController.Actividad) (a : Doc) (M t : Int)
    (he : e.ultimaActividad = .numero M) (ha : a.campo "fecha" = .numero t) :
    (ReportesController.contar e a).ultimaActividad = .numero (if M < t then t else M) := by
  unfold ReportesController.contar
  simp only [he, ha, JsVal.numero, ReportesController.sinFecha,
    ReportesController.esPosterior, ReportesController.fechaMs, Bool.false_or]
  by_cases h : M < t <;> simp [h]

theorem ultima_contar_inicial (a : Doc) :
    (ReportesController.contar (ReportesController.actividadInicial a) a).ultimaActividad =
      a.campo "fecha" := by
  unfold ReportesController.contar ReportesController.actividadInicial
  simp [ReportesController.sinFecha, JsVal.nulo, JsVal.truthy, Prim.truthy]

theorem actividad_invariante (movs : List Doc) (k : String) :
    ((ReportesController.actividadPorUsuario movs).lookup k = none →
      ∀ m ∈ movs, ReportesController.claveUsuario m ≠ k) ∧
    (∀ e, (ReportesController.actividadPorUsuario movs).lookup k = some e →
      claveEntrada e = k ∧
      e.totalMovimientos =
        movs.countP (fun m => decide (ReportesController.claveUsuario m = k)) ∧
      (∃ m ∈ movs, ReportesController.claveUsuario m = k) ∧
      (conFechas movs → ∃ M, e.ultimaActividad = .numero M ∧ esUltimaDe movs k M)) := by
  induction movs using List.reverseRecOn with
  | nil =>
    refine ⟨fun _ m hm => (by cases hm), fun e he => ?_⟩
    cases he
  | append_singleton l a ih =>
    obtain ⟨ihN, ihS⟩ := ih
    rw [actividadPorUsuario_snoc, lookup_registrar]
    by_cases hk : k = ReportesController.claveUsuario a
    · rw [if_pos hk]
      refine ⟨fun h => (by cases h), fun e he => ?_⟩
      have hcount : (l ++ [a]).countP
          (fun m => decide (ReportesController.claveUsuario m = k)) =
          l.countP (fun m => decide (ReportesController.claveUsuario m = k)) + 1 := by
        rw [List.countP_append]
        simp [List.countP_cons, hk]
      have hmem : ∃ m ∈ l ++ [a], ReportesController.claveUsuario m = k :=
        ⟨a, List.mem_append_right _ (List.mem_singleton_self a), hk.symm⟩
      cases hl : (ReportesController.actividadPorUsuario l).lookup k with
      | none =>
        rw [hl] at he
        have he2 : e = ReportesController.contar (ReportesController.actividadInicial a) a := by
          simpa using he.symm
        have hnone := ihN hl
        have hc0 : l.countP (fun m => decide (ReportesController.claveUsuario m = k)) = 0 := by
          rw [List.countP_eq_zero]
          intro m hm
          simpa using hnone m hm
        refine ⟨?_, ?_, hmem, ?_⟩
        · rw [he2]
          exact hk.symm
        · rw [hcount, hc0, he2]
          rfl
        · intro hf
          obtain ⟨_, t, ht⟩ := conFechas_prefijo l a hf
          refine ⟨t, ?_, ⟨a, List.mem_append_right _ (List.mem_singleton_self a), hk.symm, ht⟩,
            ?_⟩
          · rw [he2, ultima_contar_inicial, ht]
          · intro m hm hmk t2 ht2
            rcases List.mem_append.mp hm with h1 | h1
            · exact absurd hmk (hnone m h1)
            · rw [List.mem_singleton] at h1
              subst h1
              rw [ht] at ht2
              have : t = t2 := by
                simpa [JsVal.numero] using ht2
              omega
      | some e1 =>
        rw [hl] at he
        have he2 : e = ReportesController.contar e1 a := by
          simpa using he.symm
        obtain ⟨h1, h2, _, h4⟩ := ihS e1 hl
        refine ⟨?_, ?_, hmem, ?_⟩
        · rw [he2]
          exact h1
        · rw [hcount, ← h2, he2]
          rfl
        · intro hf
          obtain ⟨hfl, t, ht⟩ := conFechas_prefijo l a hf
          obtain ⟨M, hM, ⟨m0, hm0, hm0k, hm0t⟩, hcota⟩ := h4 hfl
          refine ⟨if M < t then t else M, ?_, ?_, ?_⟩
          · rw [he2]
            exact ultima_contar e1 a M t hM ht
          · by_cases hlt : M < t
            · rw [if_pos hlt]
              exact ⟨a, List.mem_append_right _ (List.mem_singleton_self a), hk.symm, ht⟩
            · rw [if_neg hlt]
              exact ⟨m0, List.mem_append_left _ hm0, hm0k, hm0t⟩
          · intro m hm hmk t2 ht2
            rcases List.mem_append.mp hm with hin | hin
            · have := hcota m hin hmk t2 ht2
              split_ifs <;> omega
            · rw [List.mem_singleton] at hin
              subst hin
              rw [ht] at ht2
              have : t = t2 := by
                simpa [JsVal.numero] using ht2
              split_ifs <;> omega
    · rw [if_neg hk]
      have hka : ¬ ReportesController.claveUsuario a = k := fun x => hk x.symm
      have hcount : (l ++ [a]).countP
          (fun m => decide (ReportesController.claveUsuario m = k)) =
          l.countP (fun m => decide (ReportesController.claveUsuario m = k)) := by
        rw [List.countP_append]
        simp [List.countP_cons, hka]
      refine ⟨fun h m hm => ?_, fun e he => ?_⟩
      · rcases List.mem_append.mp hm with hin | hin
        · exact ihN h m hin
        · rw [List.mem_singleton] at hin
          subst hin
          exact hka
      · obtain ⟨h1, h2, ⟨m1, hm1, hm1k⟩, h4⟩ := ihS e he
        refine ⟨h1, by rw [hcount]; exact h2, ⟨m1, List.mem_append_left _ hm1, hm1k⟩, ?_⟩
        intro hf
        obtain ⟨hfl, _⟩ := conFechas_prefijo l a hf
        obtain ⟨M, hM, ⟨m0, hm0, hm0k, hm0t⟩, hcota⟩ := h4 hfl
        refine ⟨M, hM, ⟨m0, List.mem_append_left _ hm0, hm0k, hm0t⟩, ?_⟩
        intro m hm hmk t2 ht2
        rcases List.mem_append.mp hm with hin | hin
        · exact hcota m hin hmk t2 ht2
        · rw [List.mem_singleton] at hin
          subst hin
          exact absurd hmk hka

theorem usuariosOrdenados_eq (movs : List Doc) :
    ReportesController.usuariosOrdenados movs =
      ((ReportesController.actividadPorUsuario movs).map Prod.snd).insertionSort
        (fun a b => b.totalMovimientos ≤ a.totalMovimientos) := by
  unfold ReportesController.usuariosOrdenados jsSort
  apply insertionSort_congr
  intro a _ b _
  simp only [noDespues, ReportesController.compararActividad]
  omega

theorem entrada_de_lista (movs : List Doc) (e : ReportesController.Actividad)
    (he : e ∈ ReportesController.usuariosOrdenados movs) :
    (ReportesController.actividadPorUsuario movs).lookup (claveEntrada e) = some e := by
  rw [usuariosOrdenados_eq, List.mem_insertionSort] at he
  obtain ⟨x, hx, rfl⟩ := List.mem_map.mp he
  obtain ⟨k, e⟩ := x
  have hl := lookup_de_mem _ k e (claves_actividad_nodup movs) hx
  have hk := ((actividad_invariante movs k).2 e hl).1
  show (ReportesController.actividadPorUsuario movs).lookup (claveEntrada e) = some e
  rw [hk]
  exact hl

theorem lista_de_entrada (movs : List Doc) (k : String) (e : ReportesController.Actividad)
    (hl : (ReportesController.actividadPorUsuario movs).lookup k = some e) :
    e ∈ ReportesController.usuariosOrdenados movs ∧ claveEntrada e = k := by
  refine ⟨?_, ((actividad_invariante movs k).2 e hl).1⟩
  rw [usuariosOrdenados_eq, List.mem_insertionSort]
  exact List.mem_map.mpr ⟨(k, e), mem_de_lookup _ k e hl, rfl⟩

theorem claves_usuariosOrdenados (movs : List Doc) :
    List.Perm ((ReportesController.usuariosOrdenados movs).map claveEntrada)
      ((ReportesController.actividadPorUsuario movs).map Prod.fst) := by
  rw [usuariosOrdenados_eq]
  refine ((List.perm_insertionSort _ _).map claveEntrada).trans ?_
  rw [List.map_map]
  apply List.Perm.of_eq
  apply List.map_congr_left
  intro x hx
  obtain ⟨k, e⟩ := x
  have hl := lookup_de_mem _ k e (claves_actividad_nodup movs) hx
  exact ((actividad_invariante movs k).2 e hl).1

/-- C19: the `actividad` list has exactly one entry per actor of the movements
(the keys of the entries are pairwise distinct and are the actors that occur),
an entry's `totalMovimientos` is the number of that actor's movements, the
totals add up to the number of movements, and the list is in non-increasing
order of `totalMovimientos`. -/
theorem actividad_por_usuario (movs : List Doc) :
    ((ReportesController.usuariosOrdenados movs).map claveEntrada).Nodup ∧
    (∀ k, k ∈ (ReportesController.usuariosOrdenados movs).map claveEntrada ↔
      ∃ m ∈ movs, ReportesController.claveUsuario m = k) ∧
    (∀ e ∈ ReportesController.usuariosOrdenados movs,
      e.totalMovimientos =
        movs.countP (fun m => decide (ReportesController.claveUsuario m = claveEntrada e))) ∧
    ((ReportesController.usuariosOrdenados movs).map fun e => e.totalMovimientos).sum =
      movs.length ∧
    List.Sorted (fun a b => b.totalMovimientos ≤ a.totalMovimientos)
      (ReportesController.usuariosOrdenados movs) ∧
    (∀ (db : Db) (diasQ : Option Int) (fechaLimite : Int),
      (ReportesController.getReporteActividadUsuarios db diasQ fechaLimite).actividad =
        ReportesController.usuariosOrdenados
          ((db.movimientos.desdeFecha "fecha" fechaLimite).map
            MovimientosController.conIdFecha)) := by
  refine ⟨?_, ?_, ?_, ?_, ?_, fun _ _ _ => rfl⟩
  · exact (claves_usuariosOrdenados movs).nodup_iff.mpr (claves_actividad_nodup movs)
  · intro k
    constructor
    · intro hk
      obtain ⟨e, he, rfl⟩ := List.mem_map.mp hk
      exact ((actividad_invariante movs _).2 e (entrada_de_lista movs e he)).2.2.1
    · rintro ⟨m, hm, hmk⟩
      cases hl : (ReportesController.actividadPorUsuario movs).lookup k with
      | none => exact absurd hmk ((actividad_invariante movs k).1 hl m hm)
      | some e =>
        obtain ⟨hin, hke⟩ := lista_de_entrada movs k e hl
        exact List.mem_map.mpr ⟨e, hin, hke⟩
  · intro e he
    exact ((actividad_invariante movs _).2 e (entrada_de_lista movs e he)).2.1
  · rw [usuariosOrdenados_eq]
    have hp := (List.perm_insertionSort
      (fun a b : ReportesController.Actividad => b.totalMovimientos ≤ a.totalMovimientos)
      ((ReportesController.actividadPorUsuario movs).map Prod.snd)).map
      (fun e => e.totalMovimientos)
    rw [hp.sum_eq, List.map_map]
    exact suma_actividad movs
  · rw [usuariosOrdenados_eq]
    haveI : IsTotal ReportesController.Actividad
        (fun a b => b.totalMovimientos ≤ a.totalMovimientos) := ⟨fun a b => le_total _ _⟩
    haveI : IsTrans ReportesController.Actividad
        (fun a b => b.totalMovimientos ≤ a.totalMovimientos) :=
      ⟨fun a b c hab hbc => le_trans hbc hab⟩
    exact List.sorted_insertionSort _ _

/-- Witness of C19: five movements of Ana (3) and Luis (2). -/
theorem actividad_por_usuario_witness :
    ((ReportesController.usuariosOrdenados movimientosActividad).map
      fun e => e.totalMovimientos).sum = movimientosActividad.length ∧
    (ReportesController.usuariosOrdenados movimientosActividad).map
      (fun e => (e.email, e.totalMovimientos)) =
      [(.texto "ana@cielito.mx", 3), (.texto "luis@cielito.mx", 2)] :=
  ⟨(actividad_por_usuario movimientosActividad).2.2.2.1, by decide⟩

theorem esUltimaDe_unica (movs : List Doc) (k : String) (M N : Int)
    (hM : esUltimaDe movs k M) (hN : esUltimaDe movs k N) : M = N := by
  obtain ⟨⟨m, hm, hmk, hmt⟩, hcM⟩ := hM
  obtain ⟨⟨n, hn, hnk, hnt⟩, hcN⟩ := hN
  have h1 := hcM n hn hnk N hnt
  have h2 := hcN m hm hmk M hmt
  omega

theorem esUltimaDe_perm (movs movs2 : List Doc) (k : String) (M : Int)
    (hp : movs2.Perm movs) (h : esUltimaDe movs2 k M) : esUltimaDe movs k M := by
  obtain ⟨⟨m, hm, hmk, hmt⟩, hc⟩ := h
  exact ⟨⟨m, hp.mem_iff.mp hm, hmk, hmt⟩, fun n hn => hc n (hp.mem_iff.mpr hn)⟩

/-- C20: when every movement carries a timestamp, the `ultimaActividad` of an
actor's entry is the latest timestamp among that actor's movements; it is the
same for every reordering of the input, and it is the `fecha` of the first
movement of the actor, in input order, that carries that latest timestamp. -/
theorem ultimaActividad_maxima (movs : List Doc) (hf : conFechas movs) :
    (∀ e ∈ ReportesController.usuariosOrdenados movs,
      ∃ M, e.ultimaActividad = .numero M ∧ esUltimaDe movs (claveEntrada e) M) ∧
    (∀ movs2, movs2.Perm movs →
      ∀ e ∈ ReportesController.usuariosOrdenados movs,
      ∀ e2 ∈ ReportesController.usuariosOrdenados movs2,
        claveEntrada e2 = claveEntrada e → e2.ultimaActividad = e.ultimaActividad) ∧
    (∀ e ∈ ReportesController.usuariosOrdenados movs,
      ∃ m, movs.find? (fun m => decide (ReportesController.claveUsuario m = claveEntrada e ∧
          m.campo "fecha" = e.ultimaActividad)) = some m ∧
        e.ultimaActividad = m.campo "fecha") := by
  have hmax : ∀ (l : List Doc), conFechas l → ∀ e ∈ ReportesController.usuariosOrdenados l,
      ∃ M, e.ultimaActividad = .numero M ∧ esUltimaDe l (claveEntrada e) M :=
    fun l hl e he => ((actividad_invariante l _).2 e (entrada_de_lista l e he)).2.2.2 hl
  refine ⟨hmax movs hf, ?_, ?_⟩
  · intro movs2 hp e he e2 he2 hk
    have hf2 : conFechas movs2 := fun m hm => hf m (hp.mem_iff.mp hm)
    obtain ⟨M, hM, hU⟩ := hmax movs hf e he
    obtain ⟨M2, hM2, hU2⟩ := hmax movs2 hf2 e2 he2
    rw [hk] at hU2
    have := esUltimaDe_unica movs _ M M2 hU (esUltimaDe_perm movs movs2 _ M2 hp hU2)
    rw [hM, hM2, this]
  · intro e he
    obtain ⟨M, hM, ⟨m0, hm0, hm0k, hm0t⟩, _⟩ := hmax movs hf e he
    cases hfind : movs.find? (fun m => decide (ReportesController.claveUsuario m =
        claveEntrada e ∧ m.campo "fecha" = e.ultimaActividad)) with
    | none =>
      exfalso
      rw [List.find?_eq_none] at hfind
      have := hfind m0 hm0
      simp [hm0k, hm0t, hM] at this
    | some m =>
      have hp := List.find?_some hfind
      simp only [decide_eq_true_eq] at hp
      exact ⟨m, rfl, hp.2.symm⟩

/-- Witness of C20: Ana's latest timestamp, 40, occurs twice; Luis's is 30. -/
theorem ultimaActividad_maxima_witness :
    conFechas movimientosActividad ∧
    (∀ e ∈ ReportesController.usuariosOrdenados movimientosActividad,
      ∃ M, e.ultimaActividad = .numero M ∧
        esUltimaDe movimientosActividad (claveEntrada e) M) ∧
    (ReportesController.usuariosOrdenados movimientosActividad).map
      (fun e => (e.email, e.ultimaActividad)) =
      [(.texto "ana@cielito.mx", .numero 40), (.texto "luis@cielito.mx", .numero 30)] :=
  have h : conFechas movimientosActividad := by
    intro m hm
    simp only [movimientosActividad, List.mem_cons, List.mem_singleton, List.not_mem_nil,
      or_false] at hm
    rcases hm with rfl | rfl | rfl | rfl | rfl <;> exact ⟨_, rfl⟩
  ⟨h, (ultimaActividad_maxima movimientosActividad h).1, by decide⟩

/-! ### The field that the discount writes -/

theorem parcheDescuento_claves (user producto : Doc) (v ahora : JsVal) :
    (ProductosController.parcheDescuento user producto v ahora).clavesUnicas := by
  obtain ⟨h1, h2⟩ := campoStock_no_es_auditoria producto
  show ([campoStock producto, "updatedAt", "updatedBy"] : List String).Nodup
  simp [h1, h2]

theorem restarNum_no_nullish (a : JsVal) (n : Int) : (restarNum a n).nullish = false := by
  unfold restarNum
  cases a.toNumber <;> rfl

theorem tiene_de_valor (d : Doc) (k : String) (h : (d.campo k).nullish = false) :
    d.tiene k = true := by
  cases ht : d.tiene k with
  | true => rfl
  | false =>
    rw [campo_sin_clave d k ht] at h
    cases h

theorem resolveStock_tras_escritura (producto : Doc) (v ahora email : JsVal)
    (hv : v.nullish = false) :
    resolveStock (producto.mezclar
      ⟨[(campoStock producto, v), ("updatedAt", ahora), ("updatedBy", email)]⟩) = v := by
  have hu : JsVal.indefinido.nullish = true := rfl
  have hnul : v ≠ .nulo := fun h => by rw [h] at hv; cases hv
  unfold resolveStock resolveStockOr
  rw [campo_tras_parche _ _ "cantidad" _ _ _ (by decide) (by decide),
    campo_tras_parche _ _ "Stock" _ _ _ (by decide) (by decide),
    campo_tras_parche _ _ "stock" _ _ _ (by decide) (by decide)]
  unfold campoStock
  by_cases hc : producto.tiene "cantidad" = true
  · simp [hc, JsVal.coalesce, hv]
  · have hc2 : producto.tiene "cantidad" = false := by simpa using hc
    by_cases hS : producto.tiene "Stock" = true
    · simp [hc2, hS, JsVal.coalesce, hv, hu, campo_sin_clave _ _ hc2]
    · have hS2 : producto.tiene "Stock" = false := by simpa using hS
      by_cases hs : producto.tiene "stock" = true
      · simp [hc2, hS2, hs, JsVal.coalesce, hv, hu, campo_sin_clave _ _ hc2,
          campo_sin_clave _ _ hS2]
      · simp [hc2, hS2, hs, JsVal.coalesce, hv]

theorem descontarStock_eq (db : Db) (user : Doc) (id : String) (q : Int) (mid : String)
    (ahora : JsVal) :
    ProductosController.descontarStockCon none db user id q mid ahora =
      ProductosController.descontarStock db user id q mid ahora := by
  unfold ProductosController.descontarStockCon ProductosController.descontarStock
  cases db.productos.buscar id with
  | none => rfl
  | some producto =>
    simp only []
    split_ifs <;> rfl

theorem descontarStock_exito_iff (db : Db) (user : Doc) (id : String) (q : Int) (mid : String)
    (ahora : JsVal) (producto : Doc) (hprod : db.productos.buscar id = some producto) :
    (ProductosController.descontarStock db user id q mid ahora).exito = true ↔
      sinAcceso user producto = false ∧
      menorQueNum (resolveStockOr producto (.numero 0)) q = false := by
  unfold ProductosController.descontarStock
  rw [hprod]
  simp only []
  by_cases ha : sinAcceso user producto = true
  · simp [ha, Resultado.exito]
  · by_cases hm : menorQueNum (resolveStockOr producto (.numero 0)) q = true
    · simp [ha, hm, Resultado.exito]
    · simp [ha, hm, Resultado.exito]

theorem descontarStock_producto (db : Db) (user : Doc) (id : String) (q : Int) (mid : String)
    (ahora : JsVal) (producto : Doc) (hprod : db.productos.buscar id = some producto)
    (hexito : (ProductosController.descontarStock db user id q mid ahora).exito = true) :
    (ProductosController.descontarStock db user id q mid ahora).db.productos.buscar id =
      some (producto.mezclar (ProductosController.parcheDescuento user producto
        (restarNum (resolveStockOr producto (.numero 0)) q) ahora)) := by
  obtain ⟨ha, hm⟩ := (descontarStock_exito_iff db user id q mid ahora producto hprod).mp hexito
  unfold ProductosController.descontarStock
  rw [hprod]
  simp only [ha, hm, Bool.false_eq_true, if_false]
  rw [buscar_actualizar, hprod]
  rfl

/-- C23: the key under which `descontarStock` writes the new stock is the first
of `cantidad`, `Stock`, `stock` that the product record has as a key, and
`cantidad` when it has none of them; a successful discount stores the new
stock under that key and leaves every other field of the record, apart from
`updatedAt` and `updatedBy`, as it was. -/
theorem descontarStock_campo_escrito (db : Db) (user : Doc) (id : String) (q : Int)
    (mid : String) (ahora : JsVal) (producto : Doc)
    (hprod : db.productos.buscar id = some producto)
    (hexito : (ProductosController.descontarStock db user id q mid ahora).exito = true) :
    campoStock producto = resolveStockFieldNameSpec producto ∧
    (producto.tiene "cantidad" = true → campoStock producto = "cantidad") ∧
    (producto.tiene "cantidad" = false → producto.tiene "Stock" = true →
      campoStock producto = "Stock") ∧
    (producto.tiene "cantidad" = false → producto.tiene "Stock" = false →
      producto.tiene "stock" = true → campoStock producto = "stock") ∧
    (producto.tiene "cantidad" = false → producto.tiene "Stock" = false →
      producto.tiene "stock" = false → campoStock producto = "cantidad") ∧
    ∃ p, (ProductosController.descontarStock db user id q mid ahora).db.productos.buscar id =
        some p ∧
      p.campo (campoStock producto) = restarNum (resolveStockOr producto (.numero 0)) q ∧
      ∀ k, k ≠ campoStock producto → k ≠ "updatedAt" → k ≠ "updatedBy" →
        p.campo k = producto.campo k ∧ p.tiene k = producto.tiene k := by
  refine ⟨?_, ?_, ?_, ?_, ?_, _, descontarStock_producto db user id q mid ahora producto hprod
    hexito, ?_, ?_⟩
  · unfold campoStock resolveStockFieldNameSpec
    cases h1 : producto.tiene "cantidad" <;> cases h2 : producto.tiene "Stock" <;>
      cases h3 : producto.tiene "stock" <;> simp [List.find?, h1, h2, h3]
  · intro h1
    simp [campoStock, h1]
  · intro h1 h2
    simp [campoStock, h1, h2]
  · intro h1 h2 h3
    simp [campoStock, h1, h2, h3]
  · intro h1 h2 h3
    simp [campoStock, h1, h2, h3]
  · obtain ⟨h1, h2⟩ := campoStock_no_es_auditoria producto
    show (producto.mezclar ⟨[(campoStock producto, _), ("updatedAt", ahora),
      ("updatedBy", user.campo "email")]⟩).campo (campoStock producto) = _
    rw [campo_tras_parche _ _ _ _ _ _ h1 h2, if_pos rfl]
  · intro k hk h1 h2
    have hu := parcheDescuento_claves user producto
      (restarNum (resolveStockOr producto (.numero 0)) q) ahora
    apply campo_lookup_igual
    show (producto.mezclar ⟨[(campoStock producto, _), ("updatedAt", ahora),
      ("updatedBy", user.campo "email")]⟩).campos.lookup k = _
    rw [lookup_mezclar [(campoStock producto,
      restarNum (resolveStockOr producto (.numero 0)) q), ("updatedAt", ahora),
      ("updatedBy", user.campo "email")] producto k hu]
    have hno : List.lookup k [(campoStock producto,
        restarNum (resolveStockOr producto (.numero 0)) q), ("updatedAt", ahora),
        ("updatedBy", user.campo "email")] = none := by
      rw [lookup_cons_si, if_neg hk, lookup_cons_si, if_neg h1, lookup_cons_si, if_neg h2]
      rfl
    rw [hno]
    rfl

/-- Witness of C23: product `p2` of the example store has the key `Stock` only,
and a discount of 1 by the administrator writes 2 under `Stock`. -/
theorem descontarStock_campo_escrito_witness :
    campoStock ⟨[("nombre", .texto "Olla"), ("area", .texto "Cocina"), ("Stock", .numero 3)]⟩ =
      "Stock" ∧
    ((ProductosController.descontarStock dbEjemplo usuarioAdmin "p2" 1 "m3"
      (.numero 300)).db.productos.buscar "p2").map (fun p => (p.campo "Stock", p.tiene "cantidad")) =
      some (.numero 2, false) :=
  ⟨((descontarStock_campo_escrito dbEjemplo usuarioAdmin "p2" 1 "m3" (.numero 300)
      ⟨[("nombre", .texto "Olla"), ("area", .texto "Cocina"), ("Stock", .numero 3)]⟩
      (by decide) (by decide)).2.2.1 (by decide) (by decide)),
    by decide⟩

theorem errorHandler_sin_exito (err : ErrorJs) (nodeEnv : Option String) :
    (errorHandler err nodeEnv).success = false := by
  unfold errorHandler
  cases err.array with
  | some _ => rfl
  | none =>
    simp only []
    split_ifs <;> rfl

/-- C24: when the product exists, the requester has access and the stock
suffices, so that `descontarStock` updates the product, and the store then
rejects the write of the movement with the error `err`, the handler throws
`err`, the error middleware answers the request with an error response, the
stored product holds the decremented stock, and the movements are unchanged. -/
theorem descontarStock_sin_compensacion (db : Db) (user : Doc) (id : String) (q : Int)
    (mid : String) (ahora : JsVal) (producto : Doc) (err : ErrorJs) (nodeEnv : Option String)
    (hprod : db.productos.buscar id = some producto)
    (hacc : sinAcceso user producto = false)
    (hstock : menorQueNum (resolveStockOr producto (.numero 0)) q = false) :
    (ProductosController.descontarStockCon (some err) db user id q mid ahora).salida =
      .error err ∧
    asyncHandler (ProductosController.descontarStockCon (some err) db user id q mid ahora)
      nodeEnv = .error (errorHandler err nodeEnv) ∧
    (errorHandler err nodeEnv).success = false ∧
    (∃ p, (ProductosController.descontarStockCon (some err) db user id q mid
        ahora).db.productos.buscar id = some p ∧
      p.campo (campoStock producto) = restarNum (resolveStockOr producto (.numero 0)) q ∧
      resolveStock p = restarNum (resolveStockOr producto (.numero 0)) q) ∧
    (ProductosController.descontarStockCon (some err) db user id q mid ahora).db.movimientos =
      db.movimientos ∧
    (ProductosController.descontarStockCon (some err) db user id q mid ahora).db.areas =
      db.areas ∧
    (ProductosController.descontarStockCon (some err) db user id q mid ahora).db.usuarios =
      db.usuarios := by
  have hr : ProductosController.descontarStockCon (some err) db user id q mid ahora =
      { db := { db with productos := (db.productos.actualizar id
          (ProductosController.parcheDescuento user producto
            (restarNum (resolveStockOr producto (.numero 0)) q) ahora)) },
        salida := .error err } := by
    unfold ProductosController.descontarStockCon
    rw [hprod]
    simp only [hacc, hstock, Bool.false_eq_true, if_false]
  obtain ⟨h1, h2⟩ := campoStock_no_es_auditoria producto
  rw [hr]
  refine ⟨rfl, rfl, errorHandler_sin_exito err nodeEnv,
    ⟨producto.mezclar (ProductosController.parcheDescuento user producto
      (restarNum (resolveStockOr producto (.numero 0)) q) ahora), ?_, ?_, ?_⟩, rfl, rfl, rfl⟩
  · show (db.productos.actualizar id _).buscar id = _
    rw [buscar_actualizar, hprod]
    rfl
  · show (producto.mezclar ⟨[(campoStock producto, _), ("updatedAt", ahora),
      ("updatedBy", user.campo "email")]⟩).campo (campoStock producto) = _
    rw [campo_tras_parche _ _ _ _ _ _ h1 h2, if_pos rfl]
  · exact resolveStock_tras_escritura producto _ ahora (user.campo "email")
      (restarNum_no_nullish _ _)

/-- Witness of C24: the administrator discounts 4 from product `p1` (stock 10)
and the store rejects the movement: the request fails with status 500, the
product holds 6 and the two movements of the store are the only ones. -/
theorem descontarStock_sin_compensacion_witness :
    (ProductosController.descontarStockCon (some errorAlmacen) dbEjemplo usuarioAdmin "p1" 4
      "m3" (.numero 300)).salida = .error errorAlmacen ∧
    (errorHandler errorAlmacen (some "production")).status = .numero 500 ∧
    ((ProductosController.descontarStockCon (some errorAlmacen) dbEjemplo usuarioAdmin "p1" 4
      "m3" (.numero 300)).db.productos.buscar "p1").map resolveStock = some (.numero 6) ∧
    (ProductosController.descontarStockCon (some errorAlmacen) dbEjemplo usuarioAdmin "p1" 4
      "m3" (.numero 300)).db.movimientos = dbEjemplo.movimientos :=
  ⟨(descontarStock_sin_compensacion dbEjemplo usuarioAdmin "p1" 4 "m3" (.numero 300)
      productoTaladro errorAlmacen (some "production") (by decide) (by decide) (by decide)).1,
    by decide, by decide,
    (descontarStock_sin_compensacion dbEjemplo usuarioAdmin "p1" 4 "m3" (.numero 300)
      productoTaladro errorAlmacen (some "production") (by decide) (by decide)
      (by decide)).2.2.2.2.1⟩

/-- C25: after a successful `descontarStock` of `q`, the stock that
`cantidad ?? Stock ?? stock` resolves from the updated record is the stock read
before minus `q` (the value the response reports as `stockActual`); the key
written is, in the order `cantidad`, `Stock`, `stock`, not after any key that
holds a value other than `null`. -/
theorem descontarStock_lectura_escritura (db : Db) (user : Doc) (id : String) (q : Int)
    (mid : String) (ahora : JsVal) (producto : Doc)
    (hprod : db.productos.buscar id = some producto)
    (hexito : (ProductosController.descontarStock db user id q mid ahora).exito = true) :
    (∃ p, (ProductosController.descontarStock db user id q mid ahora).db.productos.buscar id =
        some p ∧
      resolveStock p = restarNum (resolveStockOr producto (.numero 0)) q ∧
      ∀ s, (resolveStockOr producto (.numero 0)).toNumber = some s →
        resolveStock p = .numero (s - q)) ∧
    (∃ resp, (ProductosController.descontarStock db user id q mid ahora).salida = .ok resp ∧
      resp.data.map (fun d => (d.campo "stockAnterior", d.campo "stockActual")) =
        some (resolveStockOr producto (.numero 0),
          restarNum (resolveStockOr producto (.numero 0)) q)) ∧
    ∀ k ∈ ["cantidad", "Stock", "stock"], (producto.campo k).nullish = false →
      (["cantidad", "Stock", "stock"].indexOf (campoStock producto)) ≤
        (["cantidad", "Stock", "stock"].indexOf k) := by
  obtain ⟨ha, hm⟩ := (descontarStock_exito_iff db user id q mid ahora producto hprod).mp hexito
  have hres : resolveStock (producto.mezclar (ProductosController.parcheDescuento user producto
      (restarNum (resolveStockOr producto (.numero 0)) q) ahora)) =
      restarNum (resolveStockOr producto (.numero 0)) q :=
    resolveStock_tras_escritura producto _ ahora (user.campo "email") (restarNum_no_nullish _ _)
  refine ⟨⟨_, descontarStock_producto db user id q mid ahora producto hprod hexito, hres, ?_⟩,
    ?_, ?_⟩
  · intro s hs
    rw [hres]
    unfold restarNum
    rw [hs]
    rfl
  · unfold ProductosController.descontarStock
    rw [hprod]
    simp only [ha, hm, Bool.false_eq_true, if_false]
    exact ⟨_, rfl, rfl⟩
  · intro k hk hv
    have ht := tiene_de_valor producto k hv
    simp only [List.mem_cons, List.mem_singleton, List.not_mem_nil, or_false] at hk
    unfold campoStock
    rcases hk with rfl | rfl | rfl
    · simp [ht]
    · cases h1 : producto.tiene "cantidad" <;> simp [ht, List.indexOf_cons]
    · cases h1 : producto.tiene "cantidad" <;> cases h2 : producto.tiene "Stock" <;>
        simp [ht, List.indexOf_cons]

/-- Witness of C25: the record with `cantidad: null` and `Stock: 5`; a discount
of 2 writes 3 under `cantidad`, and the updated record resolves to 3. -/
theorem descontarStock_lectura_escritura_witness :
    campoStock productoCantidadNula = "cantidad" ∧
    resolveStockOr productoCantidadNula (.numero 0) = .numero 5 ∧
    ∃ p, (ProductosController.descontarStock dbCable usuarioAdmin "p3" 2 "m1"
        (.numero 300)).db.productos.buscar "p3" = some p ∧
      resolveStock p = restarNum (resolveStockOr productoCantidadNula (.numero 0)) 2 ∧
      ∀ s, (resolveStockOr productoCantidadNula (.numero 0)).toNumber = some s →
        resolveStock p = .numero (s - 2) :=
  ⟨by decide, by decide,
    (descontarStock_lectura_escritura dbCable usuarioAdmin "p3" 2 "m1" (.numero 300)
      productoCantidadNula (by decide) (by decide)).1⟩

/-! ### Product writes and the requester's areas -/

theorem productos_update_exito (db : Db) (user : Doc) (id : String) (body : Doc)
    (ahora : JsVal) :
    (ProductosController.update db user id body ahora).exito =
      match db.productos.buscar id with
      | none => false
      | some productoActual => !sinAcceso user productoActual := by
  unfold ProductosController.update
  cases db.productos.buscar id with
  | none => rfl
  | some productoActual =>
    simp only []
    cases sinAcceso user productoActual <;> rfl

/-- C26, the code at the failing input: the user restricted to `Cocina`, who
has no access to `Bodega`, updates product `p2` of `Cocina` with the body
`{area: 'Bodega'}`; the update succeeds, the product is in `Bodega`
afterwards and the user no longer sees it. Whether an update succeeds depends
on the stored product alone, never on the body. -/
theorem update_mueve_fuera_del_ambito :
    debeFiltrar usuarioCocina = true ∧
    (usuarioCocina.campo "areasPermitidas").includes (.texto "Bodega") = false ∧
    (ProductosController.update dbEjemplo usuarioCocina "p2" cuerpoAreaBodega
      (.numero 300)).exito = true ∧
    ((ProductosController.update dbEjemplo usuarioCocina "p2" cuerpoAreaBodega
      (.numero 300)).db.productos.buscar "p2").map (fun p => p.campo "area") =
      some (.texto "Bodega") ∧
    (ProductosController.getAll dbEjemplo usuarioCocina).count = 1 ∧
    (ProductosController.getAll (ProductosController.update dbEjemplo usuarioCocina "p2"
      cuerpoAreaBodega (.numero 300)).db usuarioCocina).count = 0 ∧
    ∀ (db : Db) (user : Doc) (id : String) (body otro : Doc) (ahora : JsVal),
      (ProductosController.update db user id body ahora).exito =
        (ProductosController.update db user id otro ahora).exito := by
  refine ⟨by decide, by decide, by decide, by decide, by decide, by decide, ?_⟩
  intro db user id body otro ahora
  rw [productos_update_exito, productos_update_exito]

theorem productos_create_movimiento (db : Db) (user body : Doc) (nid mid : String)
    (ahora : JsVal) :
    ∃ mov, (ProductosController.create db user body nid mid ahora).db.movimientos =
        db.movimientos ++ [(mid, mov)] ∧
      mov.campo "tipo" = .texto "entrada" ∧
      mov.campo "cantidad" =
        ((body.campo "cantidad").oLogico (body.campo "Stock")).oLogico (.numero 1) ∧
      mov.campo "area" = body.campo "area" ∧
      mov.campo "productoNombre" = nombreDe body := by
  have hc : ∀ k, k ≠ "createdAt" → k ≠ "createdBy" →
      ((body.poner "createdAt" ahora).poner "createdBy" (user.campo "email")).campo k =
        body.campo k := by
    intro k h1 h2
    rw [campo_poner_otro _ _ _ _ h2, campo_poner_otro _ _ _ _ h1]
  refine ⟨_, rfl, rfl, ?_, ?_, ?_⟩
  · show ((((body.poner "createdAt" ahora).poner "createdBy" (user.campo "email")).campo
      "cantidad").oLogico (((body.poner "createdAt" ahora).poner "createdBy"
      (user.campo "email")).campo "Stock")).oLogico (.numero 1) = _
    rw [hc _ (by decide) (by decide), hc _ (by decide) (by decide)]
  · show ((body.poner "createdAt" ahora).poner "createdBy" (user.campo "email")).campo "area" = _
    rw [hc _ (by decide) (by decide)]
  · show nombreDe ((body.poner "createdAt" ahora).poner "createdBy" (user.campo "email")) = _
    unfold nombreDe
    rw [hc _ (by decide) (by decide), hc _ (by decide) (by decide)]

/-- C28, the code at the failing inputs: a product created with the body
`{nombre: 'Lija', area: 'Bodega', stock: 7}` has the resolved stock 7 and its
`entrada` movement has `cantidad` 1; one created with `cantidad: 0` has the
resolved stock 0 and its movement has `cantidad` 1. For every body the
movement's `cantidad` is `body.cantidad || body.Stock || 1`, its `area` is the
body's and its `productoNombre` is `nombre || Nombre || 'Sin nombre'`. -/
theorem create_movimiento_cantidad :
    ((ProductosController.create dbEjemplo usuarioAdmin cuerpoLija "p3" "m3"
      (.numero 300)).db.productos.buscar "p3").map resolveStock = some (.numero 7) ∧
    ((ProductosController.create dbEjemplo usuarioAdmin cuerpoLija "p3" "m3"
      (.numero 300)).db.movimientos.buscar "m3").map (fun m => m.campo "cantidad") =
      some (.numero 1) ∧
    ((ProductosController.create dbEjemplo usuarioAdmin cuerpoClavo "p3" "m3"
      (.numero 300)).db.productos.buscar "p3").map resolveStock = some (.numero 0) ∧
    ((ProductosController.create dbEjemplo usuarioAdmin cuerpoClavo "p3" "m3"
      (.numero 300)).db.movimientos.buscar "m3").map (fun m => m.campo "cantidad") =
      some (.numero 1) ∧
    ∀ (db : Db) (user body : Doc) (nid mid : String) (ahora : JsVal),
      ∃ mov, (ProductosController.create db user body nid mid ahora).db.movimientos =
          db.movimientos ++ [(mid, mov)] ∧
        mov.campo "tipo" = .texto "entrada" ∧
        mov.campo "cantidad" =
          ((body.campo "cantidad").oLogico (body.campo "Stock")).oLogico (.numero 1) ∧
        mov.campo "area" = body.campo "area" ∧
        mov.campo "productoNombre" = nombreDe body :=
  ⟨by decide, by decide, by decide, by decide, productos_create_movimiento⟩

/-! ### The two low-stock listings -/

theorem esStockBajoUmbral_iff (N : Int) (p : Doc) :
    ProductosController.esStockBajoUmbral N p = true ↔
      stockCumple (fun n => n ≤ N ∧ 0 ≤ n) p :=
  banda_iff p (fun n => decide (n ≤ N) && decide (0 ≤ n)) _ (fun n => by simp)

theorem mem_getStockBajo (db : Db) (user : Doc) (umbralQ : Option Int) (p : Doc) :
    p ∈ (ProductosController.getStockBajo db user umbralQ).data ↔
      p ∈ productosVisibles db user ∧
        stockCumple (fun n => n ≤ parseIntOr umbralQ 5 ∧ 0 ≤ n) p := by
  show p ∈ (productosVisibles db user).filter
    (ProductosController.esStockBajoUmbral (parseIntOr umbralQ 5)) ↔ _
  rw [List.mem_filter, esStockBajoUmbral_iff]

/-- C29, the code at the failing input: on a store with a product of stock -1
and one of stock 2, `productos.getStockBajo` lists the second only and the
`todosStockBajo` of `reportes.getReporteStockBajo` lists both, so that the two
lists are not permutations of each other. In general the first listing is the
second one without the products of negative stock. -/
theorem stockBajo_listados_difieren :
    (ProductosController.getStockBajo dbNegativo usuarioAdmin none).data.map
      (fun p => p.campo "id") = [.texto "n2"] ∧
    (ReportesController.getReporteStockBajo dbNegativo usuarioAdmin none).todosStockBajo.map
      (fun p => p.campo "id") = [.texto "n1", .texto "n2"] ∧
    ¬ List.Perm (ProductosController.getStockBajo dbNegativo usuarioAdmin none).data
      (ReportesController.getReporteStockBajo dbNegativo usuarioAdmin none).todosStockBajo ∧
    ∀ (db : Db) (user : Doc) (umbralQ : Option Int) (p : Doc),
      p ∈ (ProductosController.getStockBajo db user umbralQ).data ↔
        p ∈ (ReportesController.getReporteStockBajo db user umbralQ).todosStockBajo ∧
          stockCumple (fun n => 0 ≤ n) p := by
  refine ⟨by decide, by decide, ?_, ?_⟩
  · intro h
    have hl := h.length_eq
    revert hl
    decide
  · intro db user umbralQ p
    rw [mem_getStockBajo, mem_todosStockBajo]
    constructor
    · rintro ⟨hv, n, hn, h1, h2⟩
      exact ⟨⟨hv, n, hn, h1⟩, n, hn, h2⟩
    · rintro ⟨⟨hv, n, hn, h1⟩, m, hm, h2⟩
      have : n = m := by
        rw [hn] at hm
        exact Option.some.inj hm
      subst this
      exact ⟨hv, n, hn, h1, h2⟩

/-! ### Identities without a user record -/

theorem verifyToken_sin_registro_eq (db : Db) (decodedToken : Doc)
    (hsin : ∀ e ∈ db.usuarios, e.2.campos.lookup "email" ≠ some (decodedToken.campo "email")) :
    verifyToken db decodedToken =
      ⟨[("uid", decodedToken.campo "uid"),
        ("email", decodedToken.campo "email"),
        ("emailVerified", decodedToken.campo "email_verified"),
        ("rol", .texto "usuario"),
        ("areasPermitidas", .arr [])]⟩ := by
  have h := (donde_vacia_general db.usuarios "email" (decodedToken.campo "email")).mpr hsin
  unfold verifyToken
  cases hq : (db.usuarios.donde "email" (decodedToken.campo "email")).take 1 with
  | nil => rfl
  | cons a r =>
    rw [hq] at h
    cases h

/-- C30: for a decoded token whose e-mail address no document of `usuarios`
holds, `verifyToken` sets the request user to the token's identity with `rol`
`'usuario'` and `areasPermitidas` `[]`, and for that user `productos.getAll`,
`areas.getAll` and `movimientos.getAll` answer with the empty list and the
count 0, whatever the store holds. -/
theorem verifyToken_sin_registro (db : Db) (decodedToken : Doc) (limiteQ paginaQ : Option Int)
    (hsin : ∀ e ∈ db.usuarios, e.2.campos.lookup "email" ≠ some (decodedToken.campo "email")) :
    (verifyToken db decodedToken).campo "rol" = .texto "usuario" ∧
    (verifyToken db decodedToken).campo "areasPermitidas" = .arr [] ∧
    (verifyToken db decodedToken).campo "email" = decodedToken.campo "email" ∧
    (verifyToken db decodedToken).campo "uid" = decodedToken.campo "uid" ∧
    ProductosController.getAll db (verifyToken db decodedToken) =
      { status := 200, success := true, count := 0, data := [] } ∧
    AreasController.getAll db (verifyToken db decodedToken) =
      { status := 200, success := true, count := 0, data := [] } ∧
    (MovimientosController.getAll db (verifyToken db decodedToken) limiteQ paginaQ).data = [] ∧
    (MovimientosController.getAll db (verifyToken db decodedToken) limiteQ paginaQ).count = 0 ∧
    (MovimientosController.getAll db (verifyToken db decodedToken) limiteQ paginaQ).total = 0 := by
  rw [verifyToken_sin_registro_eq db decodedToken hsin]
  have hf : debeFiltrar ⟨[("uid", decodedToken.campo "uid"),
      ("email", decodedToken.campo "email"),
      ("emailVerified", decodedToken.campo "email_verified"),
      ("rol", .texto "usuario"),
      ("areasPermitidas", .arr [])]⟩ = true := rfl
  have hinc : ∀ v, ((Doc.mk [("uid", decodedToken.campo "uid"),
      ("email", decodedToken.campo "email"),
      ("emailVerified", decodedToken.campo "email_verified"),
      ("rol", .texto "usuario"),
      ("areasPermitidas", .arr [])]).campo "areasPermitidas").includes v = false := by
    intro v
    show (JsVal.arr []).includes v = false
    cases v <;> rfl
  have hp : ∀ l : List Doc, ProductosController.filtroAreas ⟨[("uid", decodedToken.campo "uid"),
      ("email", decodedToken.campo "email"),
      ("emailVerified", decodedToken.campo "email_verified"),
      ("rol", .texto "usuario"),
      ("areasPermitidas", .arr [])]⟩ l = [] := by
    intro l
    unfold ProductosController.filtroAreas
    rw [if_pos hf, List.filter_eq_nil_iff]
    intro a _
    rw [hinc]
    decide
  have ha : ∀ l : List Doc, AreasController.filtroAreas ⟨[("uid", decodedToken.campo "uid"),
      ("email", decodedToken.campo "email"),
      ("emailVerified", decodedToken.campo "email_verified"),
      ("rol", .texto "usuario"),
      ("areasPermitidas", .arr [])]⟩ l = [] := by
    intro l
    unfold AreasController.filtroAreas
    rw [if_pos hf, List.filter_eq_nil_iff]
    intro a _
    rw [hinc, hinc]
    decide
  have hm : ∀ l : List Doc, MovimientosController.filtroAreas
      ⟨[("uid", decodedToken.campo "uid"),
      ("email", decodedToken.campo "email"),
      ("emailVerified", decodedToken.campo "email_verified"),
      ("rol", .texto "usuario"),
      ("areasPermitidas", .arr [])]⟩ l = [] := by
    intro l
    unfold MovimientosController.filtroAreas
    rw [if_pos hf, List.filter_eq_nil_iff]
    intro a _
    rw [hinc]
    decide
  have hs : ∀ a b : Int, jsSlice ([] : List Doc) a b = [] := by
    intro a b
    simp [jsSlice]
  refine ⟨rfl, rfl, rfl, rfl, ?_, ?_, ?_, ?_, ?_⟩
  · unfold ProductosController.getAll
    simp only [hp]
    rfl
  · unfold AreasController.getAll
    simp only [ha]
    rfl
  · unfold MovimientosController.getAll
    simp only [hm, hs]
  · unfold MovimientosController.getAll
    simp only [hm, hs]
    rfl
  · unfold MovimientosController.getAll
    simp only [hm]
    rfl

/-- Witness of C30: the token of `nadie@cielito.mx` on the example store, which
holds two products, three areas and two movements. -/
theorem verifyToken_sin_registro_witness :
    (∀ e ∈ dbEjemplo.usuarios,
      e.2.campos.lookup "email" ≠ some (tokenDesconocido.campo "email")) ∧
    ProductosController.getAll dbEjemplo (verifyToken dbEjemplo tokenDesconocido) =
      { status := 200, success := true, count := 0, data := [] } ∧
    dbEjemplo.productos.length = 2 :=
  ⟨by decide,
    (verifyToken_sin_registro dbEjemplo tokenDesconocido none none (by decide)).2.2.2.2.1,
    by decide⟩

/-! ### Inventory report -/

theorem foldl_sumar_none {α : Type} (f : Numero → α → Numero)
    (hf : ∀ x, f none x = none) (l : List α) : l.foldl f none = none := by
  induction l with
  | nil => rfl
  | cons a r ih => rw [List.foldl_cons, hf, ih]

theorem foldl_sumar_nan {α : Type} (g : α → Numero) (l : List α) (s : Numero)
    (h : ∃ x ∈ l, g x = none) :
    l.foldl (fun sum x => sum.bind fun a => (g x).map fun n => a + n) s = none := by
  induction l generalizing s with
  | nil =>
    obtain ⟨x, hx, _⟩ := h
    cases hx
  | cons a r ih =>
    rw [List.foldl_cons]
    obtain ⟨x, hx, hg⟩ := h
    rcases List.mem_cons.mp hx with rfl | hin
    · rw [hg]
      have h0 : (s.bind fun a => (none : Numero).map fun n => a + n) = none := by
        cases s <;> rfl
      rw [h0]
      exact foldl_sumar_none _ (fun _ => rfl) r
    · exact ih _ ⟨x, hin, hg⟩

theorem foldl_sumar_num {α : Type} (g : α → Numero) (l : List α) (a : Int)
    (h : ∀ x ∈ l, ∃ n, g x = some n) :
    l.foldl (fun sum x => sum.bind fun a => (g x).map fun n => a + n) (some a) =
      some (a + (l.map fun x => (g x).getD 0).sum) := by
  induction l generalizing a with
  | nil => simp
  | cons b r ih =>
    obtain ⟨n, hn⟩ := h b (List.mem_cons_self _ _)
    rw [List.foldl_cons, hn]
    show r.foldl _ (some (a + n)) = _
    rw [ih (a + n) (fun x hx => h x (List.mem_cons_of_mem _ hx)), List.map_cons, List.sum_cons,
      hn]
    simp [add_assoc]

theorem suma_de_cuenta {β R : Type} [Semiring R] (c : β → Bool) (v : R) (grupos : List β) :
    (grupos.map fun b => if c b = true then v else 0).sum =
      ((grupos.countP c : Nat) : R) * v := by
  induction grupos with
  | nil => simp
  | cons b t iht =>
    by_cases hb : c b = true
    · simp [List.countP_cons, hb, iht, add_mul, add_comm]
    · simp [List.countP_cons, hb, iht]

theorem suma_por_grupos {α β R : Type} [Semiring R] (m : α → β → Bool) (h : α → R)
    (grupos : List β) (xs : List α) :
    (grupos.map fun b => ((xs.filter fun x => m x b).map h).sum).sum =
      (xs.map fun x => ((grupos.countP fun b => m x b : Nat) : R) * h x).sum := by
  induction xs with
  | nil => simp
  | cons x r ih =>
    have hgrupo : ∀ b, (((x :: r).filter fun y => m y b).map h).sum =
        (if m x b = true then h x else 0) + ((r.filter fun y => m y b).map h).sum := by
      intro b
      by_cases hb : m x b = true
      · simp [List.filter_cons, hb]
      · simp [List.filter_cons, hb]
    have hcuenta := suma_de_cuenta (fun b => m x b) (h x) grupos
    simp only [hgrupo, List.sum_map_add, hcuenta, ih, List.map_cons, List.sum_cons]

theorem inventario_stockTotal (areas productos : List Doc)
    (hunica : ∀ p ∈ productos,
      areas.countP (fun a => strictEq (p.campo "area") (a.campo "name")) = 1) :
    (areas.map (ReportesController.inventarioDeArea productos)).foldl
        ReportesController.sumarArea (some 0) =
      productos.foldl DashboardController.sumarStock (some 0) := by
  have hfilas : ∀ s, (areas.map (ReportesController.inventarioDeArea productos)).foldl
      ReportesController.sumarArea s =
      areas.foldl (fun sum a => sum.bind fun x =>
        ((productos.filter fun p => strictEq (p.campo "area") (a.campo "name")).foldl
          DashboardController.sumarStock (some 0)).map fun n => x + n) s := by
    intro s
    rw [List.foldl_map]
    rfl
  rw [hfilas]
  by_cases hnum : ∀ p ∈ productos, ∃ n, (resolveStockOr p (.numero 0)).toNumber = some n
  · have hfila : ∀ a : Doc,
        (productos.filter fun p => strictEq (p.campo "area") (a.campo "name")).foldl
          DashboardController.sumarStock (some 0) =
        some (((productos.filter fun p => strictEq (p.campo "area") (a.campo "name")).map
          fun p => ((resolveStockOr p (.numero 0)).toNumber).getD 0).sum) := by
      intro a
      have := foldl_sumar_num (fun p : Doc => (resolveStockOr p (.numero 0)).toNumber)
        (productos.filter fun p => strictEq (p.campo "area") (a.campo "name")) 0
        (fun p hp => hnum p (List.mem_of_mem_filter hp))
      rw [zero_add] at this
      exact this
    have hizq := foldl_sumar_num
      (fun a : Doc => (productos.filter fun p => strictEq (p.campo "area") (a.campo "name")).foldl
        DashboardController.sumarStock (some 0)) areas 0 (fun a _ => ⟨_, hfila a⟩)
    have hder := foldl_sumar_num (fun p : Doc => (resolveStockOr p (.numero 0)).toNumber)
      productos 0 hnum
    have hdoble := suma_por_grupos (fun (p a : Doc) => strictEq (p.campo "area") (a.campo "name"))
      (fun p : Doc => ((resolveStockOr p (.numero 0)).toNumber).getD 0) areas productos
    have hcoef : (productos.map fun p =>
        ((areas.countP fun a => strictEq (p.campo "area") (a.campo "name") : Nat) : Int) *
          ((resolveStockOr p (.numero 0)).toNumber).getD 0) =
        productos.map fun p => ((resolveStockOr p (.numero 0)).toNumber).getD 0 := by
      apply List.map_congr_left
      intro p hp
      rw [hunica p hp]
      simp
    rw [hcoef] at hdoble
    refine hizq.trans (Eq.trans ?_ hder.symm)
    simp only [hfila, Option.getD_some]
    rw [hdoble]
  · have hex : ∃ p ∈ productos, (resolveStockOr p (.numero 0)).toNumber = none := by
      by_contra hno
      apply hnum
      intro p hp
      cases hg : (resolveStockOr p (.numero 0)).toNumber with
      | none => exact absurd ⟨p, hp, hg⟩ hno
      | some n => exact ⟨n, rfl⟩
    obtain ⟨p, hp, hg⟩ := hex
    have hder : productos.foldl DashboardController.sumarStock (some 0) = none :=
      foldl_sumar_nan (fun p : Doc => (resolveStockOr p (.numero 0)).toNumber) productos _
        ⟨p, hp, hg⟩
    rw [hder]
    have hpos : 0 < areas.countP (fun a => strictEq (p.campo "area") (a.campo "name")) := by
      rw [hunica p hp]
      exact Nat.one_pos
    obtain ⟨a, ha, hm⟩ := List.countP_pos_iff.mp hpos
    exact foldl_sumar_nan
      (fun a : Doc => (productos.filter fun p => strictEq (p.campo "area") (a.campo "name")).foldl
        DashboardController.sumarStock (some 0)) areas _
      ⟨a, ha, foldl_sumar_nan (fun p : Doc => (resolveStockOr p (.numero 0)).toNumber) _ _
        ⟨p, List.mem_filter.mpr ⟨hp, hm⟩, hg⟩⟩

theorem inventario_totalProductos (areas productos : List Doc)
    (hunica : ∀ p ∈ productos,
      areas.countP (fun a => strictEq (p.campo "area") (a.campo "name")) = 1) :
    ((areas.map (ReportesController.inventarioDeArea productos)).map
      fun f => f.totalProductos).sum = productos.length := by
  have hlen : ∀ l : List Doc, (l.map fun _ => (1 : Nat)).sum = l.length := by
    intro l
    induction l with
    | nil => rfl
    | cons a r ih => rw [List.map_cons, List.sum_cons, ih, List.length_cons]; omega
  have hdoble := suma_por_grupos (fun (p a : Doc) => strictEq (p.campo "area") (a.campo "name"))
    (fun _ : Doc => (1 : Nat)) areas productos
  simp only [Nat.cast_id, mul_one, hlen] at hdoble
  have hcoef : (productos.map fun p =>
      areas.countP fun a => strictEq (p.campo "area") (a.campo "name")) =
      productos.map fun _ => 1 :=
    List.map_congr_left (fun p hp => hunica p hp)
  rw [hcoef, hlen] at hdoble
  rw [List.map_map]
  exact hdoble
/-- C27, the code at the failing input: on a store whose product `p9` is in the
area `Sotano`, which no stored area is named, the administrator's report has
`resumen.totalProductos` 2 and `resumen.stockTotal` 10, while the stocks of the
two visible products add up to 14, which is also the `stockTotal` of `getKPIs`
on the same store, and the per-area `totalProductos` add up to 1. -/
theorem inventario_producto_huerfano :
    (ReportesController.getReporteInventario dbHuerfano usuarioAdmin).resumen.totalProductos =
      2 ∧
    (ReportesController.getReporteInventario dbHuerfano usuarioAdmin).resumen.stockTotal =
      some 10 ∧
    (productosVisibles dbHuerfano usuarioAdmin).foldl DashboardController.sumarStock (some 0) =
      some 14 ∧
    (DashboardController.getKPIs dbHuerfano usuarioAdmin).stockTotal = some 14 ∧
    (DashboardController.getKPIs dbHuerfano usuarioAdmin).totalProductos = 2 ∧
    ((ReportesController.getReporteInventario dbHuerfano usuarioAdmin).inventarioPorArea.map
      fun f => f.totalProductos).sum = 1 ∧
    (ReportesController.getReporteInventario dbHuerfano usuarioAdmin).resumen.stockTotal ≠
      (productosVisibles dbHuerfano usuarioAdmin).foldl DashboardController.sumarStock (some 0) ∧
    ((ReportesController.getReporteInventario dbHuerfano usuarioAdmin).inventarioPorArea.map
      fun f => f.totalProductos).sum ≠
      (ReportesController.getReporteInventario dbHuerfano usuarioAdmin).resumen.totalProductos := by
  decide

/-- Where the inventory report is right: when every product that the user sees
is in exactly one of the areas that the user sees, `resumen.stockTotal`, the
sum of the per-area
`stockTotal` values, is the sum of the stocks of all the visible products
(the reduction that the KPIs use, a missing stock counting as 0), which are
`resumen.totalProductos` in number, and the per-area `totalProductos` values
add up to `resumen.totalProductos`. -/
theorem inventario_totales (db : Db) (user : Doc) (hunica : cadaProductoEnUnArea db user) :
    (ReportesController.getReporteInventario db user).resumen.totalProductos =
      (productosVisibles db user).length ∧
    (ReportesController.getReporteInventario db user).resumen.stockTotal =
      (ReportesController.getReporteInventario db user).inventarioPorArea.foldl
        ReportesController.sumarArea (some 0) ∧
    (ReportesController.getReporteInventario db user).resumen.stockTotal =
      (productosVisibles db user).foldl DashboardController.sumarStock (some 0) ∧
    ((∀ p ∈ productosVisibles db user,
        resolveStock p ≠ .nulo → (resolveStock p).toNumber ≠ none) →
      (ReportesController.getReporteInventario db user).resumen.stockTotal =
        some ((productosVisibles db user).map aporteStock).sum) ∧
    ((ReportesController.getReporteInventario db user).inventarioPorArea.map
      fun f => f.totalProductos).sum =
      (ReportesController.getReporteInventario db user).resumen.totalProductos := by
  have hst : (ReportesController.getReporteInventario db user).resumen.stockTotal =
      (productosVisibles db user).foldl DashboardController.sumarStock (some 0) :=
    inventario_stockTotal (areasVisibles db user) (productosVisibles db user) hunica
  refine ⟨rfl, rfl, hst, ?_, inventario_totalProductos (areasVisibles db user)
    (productosVisibles db user) hunica⟩
  intro hnum
  rw [hst, foldl_sumarStock _ 0 hnum, zero_add]

/-- The administrator's report on the example store, whose two products are in
`Bodega` and in `Cocina`: the stocks 10 and 3 add up to 13. -/
theorem inventario_totales_witness :
    cadaProductoEnUnArea dbEjemplo usuarioAdmin ∧
    (ReportesController.getReporteInventario dbEjemplo usuarioAdmin).resumen.stockTotal =
      (productosVisibles dbEjemplo usuarioAdmin).foldl DashboardController.sumarStock (some 0) ∧
    (ReportesController.getReporteInventario dbEjemplo usuarioAdmin).resumen.stockTotal =
      some 13 ∧
    (ReportesController.getReporteInventario dbEjemplo usuarioAdmin).resumen.totalProductos = 2 :=
  ⟨by decide, (inventario_totales dbEjemplo usuarioAdmin (by decide)).2.2.1, by decide,
    by decide⟩

/-! ### Grouping into an object -/

theorem lookup_cons_clave {κ β : Type} [DecidableEq κ] (k k0 : κ) (v : β) (r : List (κ × β)) :
    List.lookup k ((k0, v) :: r) = if k = k0 then some v else List.lookup k r := by
  by_cases h : k = k0
  · subst h
    simp [List.lookup]
  · have hb : (k == k0) = false := by simpa using h
    rw [if_neg h]
    simp [List.lookup, hb]

theorem mem_de_lookup_clave {κ β : Type} [DecidableEq κ] (l : List (κ × β)) (k : κ) (w : β)
    (h : l.lookup k = some w) : (k, w) ∈ l := by
  induction l with
  | nil => cases h
  | cons a r ih =>
    obtain ⟨k0, v⟩ := a
    rw [lookup_cons_clave] at h
    by_cases hk : k = k0
    · rw [if_pos hk] at h
      cases h
      rw [hk]
      exact List.mem_cons_self _ _
    · rw [if_neg hk] at h
      exact List.mem_cons_of_mem _ (ih h)

theorem lookup_de_mem_clave {κ β : Type} [DecidableEq κ] (l : List (κ × β)) (k : κ) (e : β)
    (hnd : (l.map Prod.fst).Nodup) (h : (k, e) ∈ l) : l.lookup k = some e := by
  induction l with
  | nil => cases h
  | cons a r ih =>
    obtain ⟨k0, e0⟩ := a
    rw [List.map_cons, List.nodup_cons] at hnd
    rw [lookup_cons_clave]
    rcases List.mem_cons.mp h with heq | hin
    · cases heq
      rw [if_pos rfl]
    · have hne : k ≠ k0 := fun x => hnd.1 (x ▸ List.mem_map.mpr ⟨(k, e), hin, rfl⟩)
      rw [if_neg hne]
      exact ih hnd.2 hin

theorem lookup_agrupar {κ ε : Type} [DecidableEq κ] (c : κ) (n : ε) (f : ε → ε)
    (acc : List (κ × ε)) (k : κ) :
    (agrupar c n f acc).lookup k =
      if k = c then some (f ((acc.lookup k).getD n)) else acc.lookup k := by
  induction acc with
  | nil =>
    show List.lookup k [(c, f n)] = _
    rw [lookup_cons_clave]
    rfl
  | cons a r ih =>
    obtain ⟨k0, e⟩ := a
    by_cases h0 : k0 = c
    · have hstep : agrupar c n f ((k0, e) :: r) = (k0, f e) :: r := by
        simp [agrupar, h0]
      rw [hstep, lookup_cons_clave, lookup_cons_clave]
      by_cases hk : k = k0
      · rw [if_pos hk, if_pos hk, if_pos (hk.trans h0)]
        rfl
      · rw [if_neg hk, if_neg hk]
        have hk2 : ¬ k = c := fun x => hk (x.trans h0.symm)
        rw [if_neg hk2]
    · have hstep : agrupar c n f ((k0, e) :: r) = (k0, e) :: agrupar c n f r := by
        simp [agrupar, h0]
      rw [hstep, lookup_cons_clave, lookup_cons_clave, ih]
      by_cases hk : k = k0
      · have hk2 : ¬ k = c := fun x => h0 (hk.symm.trans x)
        rw [if_pos hk, if_neg hk2, if_pos hk]
      · rw [if_neg hk, if_neg hk]

theorem claves_agrupar {κ ε : Type} [DecidableEq κ] (c : κ) (n : ε) (f : ε → ε)
    (acc : List (κ × ε)) :
    (agrupar c n f acc).map Prod.fst =
      if c ∈ acc.map Prod.fst then acc.map Prod.fst else acc.map Prod.fst ++ [c] := by
  induction acc with
  | nil => simp [agrupar]
  | cons a r ih =>
    obtain ⟨k0, e⟩ := a
    by_cases h0 : k0 = c
    · simp [agrupar, h0]
    · have hk : ¬ c = k0 := fun x => h0 x.symm
      simp only [agrupar, h0, if_false, List.map_cons, ih, List.mem_cons, hk, false_or]
      split_ifs <;> simp

theorem agruparTodos_snoc {κ ε : Type} [DecidableEq κ] (clave : Doc → κ) (nuevo : Doc → ε)
    (contar : ε → Doc → ε) (movs : List Doc) (a : Doc) :
    agruparTodos clave nuevo contar (movs ++ [a]) =
      agrupar (clave a) (nuevo a) (fun e => contar e a)
        (agruparTodos clave nuevo contar movs) := by
  unfold agruparTodos
  rw [List.foldl_append]
  rfl

/-! ### First-seen order -/

theorem mem_primerasVistas {α : Type} [DecidableEq α] (l : List α) (a : α) :
    a ∈ primerasVistas l ↔ a ∈ l := by
  induction l with
  | nil => simp [primerasVistas]
  | cons b r ih =>
    by_cases h : a = b
    · simp [primerasVistas, h]
    · simp [primerasVistas, h, List.mem_filter, ih]

theorem primerasVistas_nodup {α : Type} [DecidableEq α] (l : List α) :
    (primerasVistas l).Nodup := by
  induction l with
  | nil => exact List.nodup_nil
  | cons b r ih =>
    show (b :: (primerasVistas r).filter fun x => decide (x ≠ b)).Nodup
    rw [List.nodup_cons]
    refine ⟨?_, ih.filter _⟩
    simp [List.mem_filter]

theorem primerasVistas_snoc {α : Type} [DecidableEq α] (l : List α) (a : α) :
    primerasVistas (l ++ [a]) =
      if a ∈ l then primerasVistas l else primerasVistas l ++ [a] := by
  induction l with
  | nil => simp [primerasVistas]
  | cons b r ih =>
    show b :: (primerasVistas (r ++ [a])).filter (fun x => decide (x ≠ b)) = _
    rw [ih]
    by_cases hr : a ∈ r
    · simp [hr, primerasVistas]
    · by_cases hb : a = b
      · subst hb
        simp [hr, primerasVistas, List.filter_append]
      · simp [hr, hb, primerasVistas, List.filter_append]

theorem primerasVistas_creciente (l : List Int) (h : l.Pairwise fun a b => a ≤ b) :
    (primerasVistas l).Pairwise fun a b => a < b := by
  induction l with
  | nil => exact List.Pairwise.nil
  | cons b r ih =>
    rw [List.pairwise_cons] at h
    show (b :: (primerasVistas r).filter fun x => decide (x ≠ b)).Pairwise _
    rw [List.pairwise_cons]
    refine ⟨?_, (ih h.2).filter _⟩
    intro x hx
    rw [List.mem_filter, mem_primerasVistas] at hx
    have h1 := h.1 x hx.1
    have h2 : x ≠ b := by simpa using hx.2
    omega

theorem claves_agruparTodos {κ ε : Type} [DecidableEq κ] (clave : Doc → κ) (nuevo : Doc → ε)
    (contar : ε → Doc → ε) (movs : List Doc) :
    (agruparTodos clave nuevo contar movs).map Prod.fst = primerasVistas (movs.map clave) := by
  induction movs using List.reverseRecOn with
  | nil => rfl
  | append_singleton l a ih =>
    rw [agruparTodos_snoc, claves_agrupar, ih, List.map_append, List.map_singleton,
      primerasVistas_snoc]
    simp only [mem_primerasVistas]

/-- The entry of a key, given the movements of that key in the order of the
list: the counter run over them from the entry made new at the first. -/
theorem lookup_agruparTodos {κ ε : Type} [DecidableEq κ] (clave : Doc → κ) (nuevo : Doc → ε)
    (contar : ε → Doc → ε) (movs : List Doc) (k : κ) :
    (agruparTodos clave nuevo contar movs).lookup k =
      match movs.filter (fun m => decide (clave m = k)) with
      | [] => none
      | m0 :: r => some ((m0 :: r).foldl contar (nuevo m0)) := by
  induction movs using List.reverseRecOn with
  | nil => rfl
  | append_singleton l a ih =>
    rw [agruparTodos_snoc, lookup_agrupar, ih, List.filter_append]
    by_cases hk : k = clave a
    · have hd : decide (clave a = k) = true := by simpa using hk.symm
      rw [if_pos hk]
      simp only [List.filter_cons, hd, if_true, List.filter_nil]
      cases l.filter (fun m => decide (clave m = k)) with
      | nil => rfl
      | cons m0 r =>
        show some (contar ((m0 :: r).foldl contar (nuevo m0)) a) =
          some ((m0 :: (r ++ [a])).foldl contar (nuevo m0))
        rw [← List.cons_append, List.foldl_append]
        rfl
    · have hd : decide (clave a = k) = false := by
        simpa using fun x : clave a = k => hk x.symm
      rw [if_neg hk]
      simp only [List.filter_cons, hd, List.filter_nil, Bool.false_eq_true, if_false,
        List.append_nil]
/-! ### Trends by day -/

theorem diaDe_de_fecha (m : Doc) (t : Int) (h : m.campo "fecha" = .numero t) :
    DashboardController.diaDe m = some (t.fdiv 86400000) := by
  unfold DashboardController.diaDe
  rw [h]
  rfl

theorem diaDe_valida (movs : List Doc) (hf : conFechas movs) (m : Doc) (hm : m ∈ movs) :
    DashboardController.diaDe m = some ((DashboardController.diaDe m).getD 0) := by
  obtain ⟨t, ht⟩ := hf m hm
  rw [diaDe_de_fecha m t ht]
  rfl

theorem diasDe_eq_map (movs : List Doc) (hf : conFechas movs) :
    diasDe movs = movs.map fun m => (DashboardController.diaDe m).getD 0 := by
  induction movs with
  | nil => rfl
  | cons a r ih =>
    have ha := diaDe_valida (a :: r) hf a (List.mem_cons_self _ _)
    have hr : conFechas r := fun m hm => hf m (List.mem_cons_of_mem _ hm)
    unfold diasDe at ih ⊢
    rw [List.filterMap_cons, ha, List.map_cons, ih hr]

theorem registrarDia_todos (movs : List Doc) (hf : conFechas movs)
    (acc : List (Int × DashboardController.TendenciaDia)) :
    movs.foldlM DashboardController.registrarDia acc =
      .ok (movs.foldl (fun acc m =>
        agrupar ((DashboardController.diaDe m).getD 0)
          (DashboardController.diaInicial ((DashboardController.diaDe m).getD 0))
          (fun e => DashboardController.contarDia e m) acc) acc) := by
  induction movs generalizing acc with
  | nil => rfl
  | cons a r ih =>
    have ha := diaDe_valida (a :: r) hf a (List.mem_cons_self _ _)
    have hr : conFechas r := fun m hm => hf m (List.mem_cons_of_mem _ hm)
    have hpaso : DashboardController.registrarDia acc a =
        .ok (agrupar ((DashboardController.diaDe a).getD 0)
          (DashboardController.diaInicial ((DashboardController.diaDe a).getD 0))
          (fun e => DashboardController.contarDia e a) acc) := by
      unfold DashboardController.registrarDia
      rw [ha]
      rfl
    rw [List.foldlM_cons, hpaso, List.foldl_cons]
    exact ih hr _

theorem registrarDia_invalida (movs : List Doc) (m : Doc) (hm : m ∈ movs)
    (hno : DashboardController.diaDe m = none)
    (acc : List (Int × DashboardController.TendenciaDia)) :
    movs.foldlM DashboardController.registrarDia acc = .error DashboardController.fechaInvalida := by
  induction movs generalizing acc with
  | nil => cases hm
  | cons a r ih =>
    rw [List.foldlM_cons]
    cases hd : DashboardController.diaDe a with
    | none =>
      have hpaso : DashboardController.registrarDia acc a =
          .error DashboardController.fechaInvalida := by
        unfold DashboardController.registrarDia
        rw [hd]
      rw [hpaso]
      rfl
    | some d =>
      have hpaso : DashboardController.registrarDia acc a =
          .ok (agrupar d (DashboardController.diaInicial d)
            (fun e => DashboardController.contarDia e a) acc) := by
        unfold DashboardController.registrarDia
        rw [hd]
      rw [hpaso]
      rcases List.mem_cons.mp hm with rfl | hin
      · rw [hd] at hno
        cases hno
      · exact ih hin _

theorem foldl_contarDia (ms : List Doc) (e : DashboardController.TendenciaDia) :
    ms.foldl DashboardController.contarDia e =
      { fecha := e.fecha,
        total := e.total + ms.length,
        entradas := e.entradas +
          ms.countP fun m => strictEq (m.campo "tipo") (.texto "entrada"),
        descuentos := e.descuentos +
          ms.countP fun m => strictEq (m.campo "tipo") (.texto "descuento"),
        eliminados := e.eliminados +
          ms.countP fun m => strictEq (m.campo "tipo") (.texto "eliminado") } := by
  induction ms generalizing e with
  | nil => rfl
  | cons a r ih =>
    rw [List.foldl_cons, ih]
    simp only [DashboardController.contarDia, List.length_cons, List.countP_cons,
      DashboardController.TendenciaDia.mk.injEq, true_and]
    refine ⟨by omega, by omega, by omega, by omega⟩

theorem cubetaDe_de_filtro (movs : List Doc) (hf : conFechas movs) (k : Int) :
    ((movs.filter fun m => decide ((DashboardController.diaDe m).getD 0 = k)).foldl
      DashboardController.contarDia (DashboardController.diaInicial k)) = cubetaDe movs k := by
  have hclave : ∀ m ∈ movs, (DashboardController.diaDe m).getD 0 = k ↔
      DashboardController.diaDe m = some k := by
    intro m hm
    have hv := diaDe_valida movs hf m hm
    constructor
    · intro h
      rw [hv, h]
    · intro h
      rw [h]
      rfl
  rw [foldl_contarDia]
  unfold cubetaDe DashboardController.diaInicial
  simp only [Nat.zero_add, DashboardController.TendenciaDia.mk.injEq, true_and]
  refine ⟨?_, ?_, ?_, ?_⟩
  · rw [← List.countP_eq_length_filter]
    apply List.countP_congr
    intro m hm
    simpa using hclave m hm
  · rw [List.countP_filter]
    apply List.countP_congr
    intro m hm
    simp only [Bool.and_eq_true, decide_eq_true_eq, strictEq_texto, hclave m hm]
    exact And.comm
  · rw [List.countP_filter]
    apply List.countP_congr
    intro m hm
    simp only [Bool.and_eq_true, decide_eq_true_eq, strictEq_texto, hclave m hm]
    exact And.comm
  · rw [List.countP_filter]
    apply List.countP_congr
    intro m hm
    simp only [Bool.and_eq_true, decide_eq_true_eq, strictEq_texto, hclave m hm]
    exact And.comm

theorem tendenciaPorDia_eq (movs : List Doc) (hf : conFechas movs) :
    DashboardController.tendenciaPorDia movs =
      .ok ((primerasVistas (diasDe movs)).map (cubetaDe movs)) := by
  have hG : movs.foldlM DashboardController.registrarDia [] =
      .ok (agruparTodos (fun m => (DashboardController.diaDe m).getD 0)
        (fun m => DashboardController.diaInicial ((DashboardController.diaDe m).getD 0))
        DashboardController.contarDia movs) := registrarDia_todos movs hf []
  have hclaves := claves_agruparTodos (fun m => (DashboardController.diaDe m).getD 0)
    (fun m => DashboardController.diaInicial ((DashboardController.diaDe m).getD 0))
    DashboardController.contarDia movs
  have hnd : ((agruparTodos (fun m => (DashboardController.diaDe m).getD 0)
      (fun m => DashboardController.diaInicial ((DashboardController.diaDe m).getD 0))
      DashboardController.contarDia movs).map Prod.fst).Nodup := by
    rw [hclaves]
    exact primerasVistas_nodup _
  have hentrada : ∀ x ∈ agruparTodos (fun m => (DashboardController.diaDe m).getD 0)
      (fun m => DashboardController.diaInicial ((DashboardController.diaDe m).getD 0))
      DashboardController.contarDia movs, x.2 = cubetaDe movs x.1 := by
    rintro ⟨k, e⟩ hx
    have hl := lookup_de_mem_clave _ k e hnd hx
    rw [lookup_agruparTodos] at hl
    cases hfil : movs.filter (fun m => decide ((DashboardController.diaDe m).getD 0 = k)) with
    | nil =>
      rw [hfil] at hl
      cases hl
    | cons m0 r =>
      rw [hfil] at hl
      have hm0 : m0 ∈ movs.filter
          (fun m => decide ((DashboardController.diaDe m).getD 0 = k)) := by
        rw [hfil]
        exact List.mem_cons_self _ _
      have hk : (DashboardController.diaDe m0).getD 0 = k := by
        simpa using (List.mem_filter.mp hm0).2
      have he : e = (m0 :: r).foldl DashboardController.contarDia
          (DashboardController.diaInicial k) := by
        have := Option.some.inj hl
        rw [← this, hk]
      show e = cubetaDe movs k
      rw [he, ← hfil]
      exact cubetaDe_de_filtro movs hf k
  unfold DashboardController.tendenciaPorDia
  rw [hG]
  show Except.ok _ = _
  congr 1
  rw [diasDe_eq_map movs hf, ← hclaves, List.map_map]
  apply List.map_congr_left
  intro x hx
  exact hentrada x hx

theorem tendenciaPorDia_invalida (movs : List Doc) (m : Doc) (hm : m ∈ movs)
    (hno : DashboardController.diaDe m = none) :
    DashboardController.tendenciaPorDia movs = .error DashboardController.fechaInvalida := by
  unfold DashboardController.tendenciaPorDia
  rw [registrarDia_invalida movs m hm hno []]
  rfl

theorem mem_diasDe (movs : List Doc) (d : Int) :
    d ∈ diasDe movs ↔ ∃ m ∈ movs, DashboardController.diaDe m = some d := by
  unfold diasDe
  rw [List.mem_filterMap]

theorem suma_indicador {κ : Type} [DecidableEq κ] (c : κ) (ks : List κ) :
    (ks.map fun k => if c = k then 1 else 0).sum = ks.count c := by
  induction ks with
  | nil => rfl
  | cons k t iht =>
    by_cases hk : c = k
    · subst hk
      simp [iht, add_comm]
    · have hk2 : ¬ k = c := fun e => hk e.symm
      simp [hk, hk2, iht, List.count_cons]

theorem suma_de_cuentas {α κ : Type} [DecidableEq κ] (clave : α → κ) (ks : List κ)
    (hnd : ks.Nodup) (xs : List α) (hks : ∀ x ∈ xs, clave x ∈ ks) :
    (ks.map fun k => xs.countP fun x => decide (clave x = k)).sum = xs.length := by
  induction xs with
  | nil => simp
  | cons x r ih =>
    have hx := hks x (List.mem_cons_self _ _)
    have hr : ∀ y ∈ r, clave y ∈ ks := fun y hy => hks y (List.mem_cons_of_mem _ hy)
    have hsplit : (ks.map fun k => (x :: r).countP fun y => decide (clave y = k)) =
        ks.map fun k => (r.countP fun y => decide (clave y = k)) +
          (if clave x = k then 1 else 0) := by
      apply List.map_congr_left
      intro k _
      rw [List.countP_cons]
      simp
    rw [hsplit, List.sum_map_add, ih hr, suma_indicador, List.count_eq_one_of_mem hnd hx,
      List.length_cons]

theorem cuenta_de_tres {α : Type} (p q1 q2 q3 : α → Bool)
    (h12 : ∀ x, q1 x = true → q2 x = false) (h13 : ∀ x, q1 x = true → q3 x = false)
    (h23 : ∀ x, q2 x = true → q3 x = false) (l : List α) :
    (l.countP fun x => p x && q1 x) + (l.countP fun x => p x && q2 x) +
      (l.countP fun x => p x && q3 x) ≤ l.countP p := by
  induction l with
  | nil => simp
  | cons a r ih =>
    simp only [List.countP_cons]
    have e12 := h12 a
    have e13 := h13 a
    have e23 := h23 a
    cases hp : p a <;> cases h1 : q1 a <;> cases h2 : q2 a <;> cases h3 : q3 a <;>
      simp_all <;> omega

theorem cubetaDe_tipos (movs : List Doc) (d : Int) :
    (cubetaDe movs d).entradas + (cubetaDe movs d).descuentos + (cubetaDe movs d).eliminados ≤
      (cubetaDe movs d).total := by
  have h := cuenta_de_tres (fun m : Doc => decide (DashboardController.diaDe m = some d))
    (fun m => decide (m.campo "tipo" = .texto "entrada"))
    (fun m => decide (m.campo "tipo" = .texto "descuento"))
    (fun m => decide (m.campo "tipo" = .texto "eliminado"))
    (fun m h1 => by
      have e : m.campo "tipo" = .texto "entrada" := by simpa using h1
      show decide (m.campo "tipo" = _) = false
      rw [e]
      decide)
    (fun m h1 => by
      have e : m.campo "tipo" = .texto "entrada" := by simpa using h1
      show decide (m.campo "tipo" = _) = false
      rw [e]
      decide)
    (fun m h1 => by
      have e : m.campo "tipo" = .texto "descuento" := by simpa using h1
      show decide (m.campo "tipo" = _) = false
      rw [e]
      decide) movs
  unfold cubetaDe
  simp only [Bool.decide_and]
  exact h

/-! ### The order of the movements that the trends group -/

theorem pairwise_orderedInsert_clave {α : Type} (r : α → α → Prop) [DecidableRel r]
    (key : α → Int) (a : α) (l : List α)
    (h1 : ∀ b ∈ l, r a b → key a ≤ key b) (h2 : ∀ b ∈ l, ¬ r a b → key b ≤ key a)
    (hl : l.Pairwise fun x y => key x ≤ key y) :
    (l.orderedInsert r a).Pairwise fun x y => key x ≤ key y := by
  induction l with
  | nil => exact List.pairwise_singleton _ _
  | cons b t ih =>
    rw [List.pairwise_cons] at hl
    by_cases hr : r a b
    · have hab := h1 b (List.mem_cons_self _ _) hr
      rw [List.orderedInsert, if_pos hr, List.pairwise_cons, List.pairwise_cons]
      refine ⟨?_, hl⟩
      intro y hy
      rcases List.mem_cons.mp hy with rfl | hin
      · exact hab
      · exact le_trans hab (hl.1 y hin)
    · have hba := h2 b (List.mem_cons_self _ _) hr
      rw [List.orderedInsert, if_neg hr, List.pairwise_cons]
      refine ⟨?_, ih (fun c hc => h1 c (List.mem_cons_of_mem _ hc))
        (fun c hc => h2 c (List.mem_cons_of_mem _ hc)) hl.2⟩
      intro y hy
      rcases (List.mem_orderedInsert r).mp hy with rfl | hin
      · exact hba
      · exact hl.1 y hin

theorem pairwise_insertionSort_clave {α : Type} (r : α → α → Prop) [DecidableRel r]
    (key : α → Int) (l : List α)
    (h1 : ∀ a ∈ l, ∀ b ∈ l, r a b → key a ≤ key b)
    (h2 : ∀ a ∈ l, ∀ b ∈ l, ¬ r a b → key b ≤ key a) :
    (l.insertionSort r).Pairwise fun x y => key x ≤ key y := by
  induction l with
  | nil => exact List.Pairwise.nil
  | cons a t ih =>
    show ((t.insertionSort r).orderedInsert r a).Pairwise _
    apply pairwise_orderedInsert_clave
    · intro b hb
      exact h1 a (List.mem_cons_self _ _) b
        (List.mem_cons_of_mem _ ((List.mem_insertionSort r).mp hb))
    · intro b hb
      exact h2 a (List.mem_cons_self _ _) b
        (List.mem_cons_of_mem _ ((List.mem_insertionSort r).mp hb))
    · exact ih (fun x hx y hy => h1 x (List.mem_cons_of_mem _ hx) y (List.mem_cons_of_mem _ hy))
        (fun x hx y hy => h2 x (List.mem_cons_of_mem _ hx) y (List.mem_cons_of_mem _ hy))

theorem fecha_de_consulta (v : JsVal) (lim : Int)
    (h : (match v with
      | .prim (.num n) => decide (lim ≤ n)
      | _ => false) = true) : ∃ n, v = .numero n := by
  cases v with
  | arr xs => cases h
  | prim p =>
    cases p with
    | num n => exact ⟨n, rfl⟩
    | undefined => cases h
    | null => cases h
    | bool b => cases h
    | nan => cases h
    | str s => cases h

theorem antesAsc_numeros (k : String) (a b : String × Doc) (x y : Int)
    (ha : a.2.campo k = .numero x) (hb : b.2.campo k = .numero y) :
    (antesAsc k a b → x ≤ y) ∧ (¬ antesAsc k a b → y ≤ x) := by
  unfold antesAsc
  rw [ha, hb]
  simp only [JsVal.numero, JsVal.menorIgual, Prim.menorIgual]
  by_cases h1 : x ≤ y
  · by_cases h2 : y ≤ x
    · exact ⟨fun _ => h1, fun _ => h2⟩
    · refine ⟨fun _ => h1, fun hn => ?_⟩
      exfalso
      apply hn
      simp [h1, h2]
  · refine ⟨fun hp => ?_, fun _ => by omega⟩
    exfalso
    simp [h1] at hp

theorem desdeFecha_ascendente (c : Coleccion) (k : String) (lim : Int) :
    (∀ e ∈ c.desdeFecha k lim, ∃ n, e.2.campo k = .numero n) ∧
    (c.desdeFecha k lim).Pairwise fun a b =>
      ∀ x y, a.2.campo k = .numero x → b.2.campo k = .numero y → x ≤ y := by
  have hfil : ∀ e ∈ c.filter (fun e =>
      match e.2.campo k with
      | .prim (.num n) => decide (lim ≤ n)
      | _ => false), ∃ n, e.2.campo k = .numero n :=
    fun e he => fecha_de_consulta _ lim (List.mem_filter.mp he).2
  have hmem : ∀ e ∈ c.desdeFecha k lim, ∃ n, e.2.campo k = .numero n :=
    fun e he => hfil e ((List.mem_insertionSort _).mp he)
  refine ⟨hmem, ?_⟩
  have hkey : ∀ e : String × Doc, ∀ n, e.2.campo k = .numero n →
      (ReportesController.fechaMs (e.2.campo k)).getD 0 = n := by
    intro e n hn
    rw [hn]
    rfl
  have hp := pairwise_insertionSort_clave (antesAsc k)
    (fun e : String × Doc => (ReportesController.fechaMs (e.2.campo k)).getD 0)
    (c.filter (fun e =>
      match e.2.campo k with
      | .prim (.num n) => decide (lim ≤ n)
      | _ => false))
    (fun a ha b hb hr => by
      obtain ⟨x, hx⟩ := hfil a ha
      obtain ⟨y, hy⟩ := hfil b hb
      show (ReportesController.fechaMs (a.2.campo k)).getD 0 ≤
        (ReportesController.fechaMs (b.2.campo k)).getD 0
      rw [hkey a x hx, hkey b y hy]
      exact (antesAsc_numeros k a b x y hx hy).1 hr)
    (fun a ha b hb hr => by
      obtain ⟨x, hx⟩ := hfil a ha
      obtain ⟨y, hy⟩ := hfil b hb
      show (ReportesController.fechaMs (b.2.campo k)).getD 0 ≤
        (ReportesController.fechaMs (a.2.campo k)).getD 0
      rw [hkey a x hx, hkey b y hy]
      exact (antesAsc_numeros k a b x y hx hy).2 hr)
  refine List.Pairwise.imp ?_ hp
  intro a b hab x y hx hy
  have hab2 : (ReportesController.fechaMs (a.2.campo k)).getD 0 ≤
      (ReportesController.fechaMs (b.2.campo k)).getD 0 := hab
  rw [hkey a x hx, hkey b y hy] at hab2
  exact hab2

theorem conIdFecha_fecha (e : String × Doc) :
    (MovimientosController.conIdFecha e).campo "fecha" = e.2.campo "fecha" := by
  unfold MovimientosController.conIdFecha
  rw [campo_poner_mismo]
  unfold JsVal.oLogico
  split_ifs <;> rfl

theorem movimientosDesde_fechas (db : Db) (user : Doc) (lim : Int) :
    conFechas (movimientosDesde db user lim) ∧ fechasAscendentes (movimientosDesde db user lim) := by
  obtain ⟨hnum, hasc⟩ := desdeFecha_ascendente db.movimientos "fecha" lim
  have hsub : (movimientosDesde db user lim).Sublist
      ((db.movimientos.desdeFecha "fecha" lim).map MovimientosController.conIdFecha) := by
    unfold movimientosDesde MovimientosController.filtroAreas
    split_ifs
    · exact List.filter_sublist _
    · exact List.Sublist.refl _
  constructor
  · intro m hm
    obtain ⟨e, he, rfl⟩ := List.mem_map.mp (hsub.subset hm)
    rw [conIdFecha_fecha]
    exact hnum e he
  · unfold fechasAscendentes
    refine List.Pairwise.sublist hsub ?_
    refine List.Pairwise.map _ ?_ hasc
    intro a b hab x y hx hy
    rw [conIdFecha_fecha] at hx hy
    exact hab x y hx hy

theorem diaDe_some (m : Doc) (d : Int) (h : DashboardController.diaDe m = some d) :
    ∃ t, m.campo "fecha" = .numero t ∧ d = t.fdiv 86400000 := by
  unfold DashboardController.diaDe at h
  cases hv : m.campo "fecha" with
  | arr xs =>
    rw [hv] at h
    cases h
  | prim p =>
    rw [hv] at h
    cases p with
    | num n =>
      refine ⟨n, rfl, ?_⟩
      have := Option.some.inj h
      exact this.symm
    | undefined => cases h
    | null => cases h
    | bool b => cases h
    | nan => cases h
    | str s => cases h

theorem diasDe_ascendentes (movs : List Doc) (h : fechasAscendentes movs) :
    (diasDe movs).Pairwise fun a b => a ≤ b := by
  unfold diasDe
  refine List.Pairwise.filterMap _ ?_ h
  intro a b hab d hd e he
  obtain ⟨x, hx, rfl⟩ := diaDe_some a d hd
  obtain ⟨y, hy, rfl⟩ := diaDe_some b e he
  have hxy := hab x y hx hy
  rw [Int.fdiv_eq_ediv x (by decide), Int.fdiv_eq_ediv y (by decide)]
  exact Int.ediv_le_ediv (by decide) hxy

theorem getTendencias_eq (db : Db) (user : Doc) (diasQ : Option Int) (lim : Int) :
    DashboardController.getTendencias db user diasQ lim =
      .ok { periodo := toString (parseIntOr diasQ 30) ++ " días",
            totalMovimientos := (movimientosDesde db user lim).length,
            tendenciaPorDia := (primerasVistas (diasDe (movimientosDesde db user lim))).map
              (cubetaDe (movimientosDesde db user lim)),
            tendenciaPorArea :=
              DashboardController.tendenciaPorArea (movimientosDesde db user lim) } := by
  have h := tendenciaPorDia_eq (movimientosDesde db user lim)
    (movimientosDesde_fechas db user lim).1
  unfold DashboardController.getTendencias
  show Except.map _ (DashboardController.tendenciaPorDia (movimientosDesde db user lim)) = _
  rw [h]
  rfl

theorem fechas_de_cubetas (movs : List Doc) (ds : List Int) :
    (ds.map (cubetaDe movs)).map (fun b => b.fecha) = ds := by
  rw [List.map_map]
  exact List.map_id'' (fun _ => rfl) ds
/-- C21: for movements that all carry a timestamp, `tendenciaPorDia` has one
bucket per day that occurs among them, the days of the buckets being pairwise
distinct; a bucket's `total` is the number of the movements of its day and its
`entradas`, `descuentos` and `eliminados` are the numbers of those of type
`entrada`, `descuento` and `eliminado`; the totals add up to the number of
movements and no bucket has a `total` below the sum of its three type counts.
The handler always answers, with these buckets for the movements it has read
and with their number as `totalMovimientos`. -/
theorem tendenciaPorDia_cubetas (movs : List Doc) (hf : conFechas movs) :
    (∃ bs, DashboardController.tendenciaPorDia movs = .ok bs ∧
      bs = (primerasVistas (diasDe movs)).map (cubetaDe movs) ∧
      (bs.map fun b => b.fecha).Nodup ∧
      (∀ d, d ∈ bs.map (fun b => b.fecha) ↔
        ∃ m ∈ movs, DashboardController.diaDe m = some d) ∧
      (∀ b ∈ bs, b = cubetaDe movs b.fecha) ∧
      (bs.map fun b => b.total).sum = movs.length ∧
      (∀ b ∈ bs, b.entradas + b.descuentos + b.eliminados ≤ b.total)) ∧
    ∀ (db : Db) (user : Doc) (diasQ : Option Int) (fechaLimite : Int),
      ∃ t, DashboardController.getTendencias db user diasQ fechaLimite = .ok t ∧
        t.tendenciaPorDia = (primerasVistas (diasDe (movimientosDesde db user fechaLimite))).map
          (cubetaDe (movimientosDesde db user fechaLimite)) ∧
        t.totalMovimientos = (movimientosDesde db user fechaLimite).length ∧
        (t.tendenciaPorDia.map fun b => b.total).sum = t.totalMovimientos := by
  have hsuma : ∀ l : List Doc, conFechas l →
      (((primerasVistas (diasDe l)).map (cubetaDe l)).map fun b => b.total).sum = l.length := by
    intro l hl
    rw [List.map_map]
    have hks : ∀ m ∈ l, (DashboardController.diaDe m).getD 0 ∈ primerasVistas (diasDe l) := by
      intro m hm
      rw [mem_primerasVistas, mem_diasDe]
      exact ⟨m, hm, diaDe_valida l hl m hm⟩
    have h := suma_de_cuentas (fun m : Doc => (DashboardController.diaDe m).getD 0)
      (primerasVistas (diasDe l)) (primerasVistas_nodup _) l hks
    rw [← h]
    apply congrArg
    apply List.map_congr_left
    intro d _
    show (cubetaDe l d).total = _
    unfold cubetaDe
    apply List.countP_congr
    intro m hm
    have hv := diaDe_valida l hl m hm
    simp only [decide_eq_true_eq]
    constructor
    · intro h1
      rw [h1]
      rfl
    · intro h1
      rw [hv, h1]
  refine ⟨⟨_, tendenciaPorDia_eq movs hf, rfl, ?_, ?_, ?_, hsuma movs hf, ?_⟩, ?_⟩
  · rw [fechas_de_cubetas]
    exact primerasVistas_nodup _
  · intro d
    rw [fechas_de_cubetas, mem_primerasVistas, mem_diasDe]
  · intro b hb
    obtain ⟨d, _, rfl⟩ := List.mem_map.mp hb
    rfl
  · intro b hb
    obtain ⟨d, _, rfl⟩ := List.mem_map.mp hb
    exact cubetaDe_tipos movs d
  · intro db user diasQ lim
    exact ⟨_, getTendencias_eq db user diasQ lim, rfl, rfl,
      hsuma _ (movimientosDesde_fechas db user lim).1⟩

theorem conFechas_movimientosTendencia : conFechas movimientosTendencia := by
  intro m hm
  simp only [movimientosTendencia, List.mem_cons, List.mem_singleton, List.not_mem_nil,
    or_false] at hm
  rcases hm with rfl | rfl | rfl | rfl | rfl <;> exact ⟨_, rfl⟩

/-- Witness of C21: five movements on the days 1, 0, 1, 2, 0; the buckets of
the days 1, 0 and 2 hold 2, 2 and 1 movements. -/
theorem tendenciaPorDia_cubetas_witness :
    conFechas movimientosTendencia ∧
    (∃ bs, DashboardController.tendenciaPorDia movimientosTendencia = .ok bs ∧
      (bs.map fun b => b.total).sum = movimientosTendencia.length) ∧
    (DashboardController.tendenciaPorDia movimientosTendencia).toOption =
      some [{ fecha := 1, total := 2, entradas := 1, descuentos := 0, eliminados := 0 },
            { fecha := 0, total := 2, entradas := 1, descuentos := 1, eliminados := 0 },
            { fecha := 2, total := 1, entradas := 0, descuentos := 0, eliminados := 1 }] :=
  ⟨conFechas_movimientosTendencia,
    (match (tendenciaPorDia_cubetas movimientosTendencia conFechas_movimientosTendencia).1 with
      | ⟨bs, h1, _, _, _, _, h6, _⟩ => ⟨bs, h1, h6⟩),
    by decide⟩

/-- C22: for movements that all carry a timestamp, the buckets of
`tendenciaPorDia` are in the order in which their days are first seen in the
list; when the list is in ascending order of the timestamps the days of the
buckets are strictly increasing, and they are so in every answer of the
handler, whose query delivers the movements in that order before the area
filter. -/
theorem tendenciaPorDia_orden (movs : List Doc) (hf : conFechas movs) :
    (∃ bs, DashboardController.tendenciaPorDia movs = .ok bs ∧
      bs.map (fun b => b.fecha) = primerasVistas (diasDe movs)) ∧
    (fechasAscendentes movs →
      ∃ bs, DashboardController.tendenciaPorDia movs = .ok bs ∧
        List.Sorted (fun a b => a < b) (bs.map fun b => b.fecha)) ∧
    ∀ (db : Db) (user : Doc) (diasQ : Option Int) (fechaLimite : Int),
      fechasAscendentes (movimientosDesde db user fechaLimite) ∧
      ∃ t, DashboardController.getTendencias db user diasQ fechaLimite = .ok t ∧
        List.Sorted (fun a b => a < b) (t.tendenciaPorDia.map fun b => b.fecha) := by
  have hcrece : ∀ l : List Doc, fechasAscendentes l →
      List.Sorted (fun a b => a < b)
        (((primerasVistas (diasDe l)).map (cubetaDe l)).map fun b => b.fecha) := by
    intro l hl
    rw [fechas_de_cubetas]
    exact primerasVistas_creciente _ (diasDe_ascendentes l hl)
  refine ⟨⟨_, tendenciaPorDia_eq movs hf, fechas_de_cubetas movs _⟩,
    fun hasc => ⟨_, tendenciaPorDia_eq movs hf, hcrece movs hasc⟩, ?_⟩
  intro db user diasQ lim
  exact ⟨(movimientosDesde_fechas db user lim).2, _, getTendencias_eq db user diasQ lim,
    hcrece _ (movimientosDesde_fechas db user lim).2⟩

/-- Witness of C22: the five movements in the order of the days 1, 0, 1, 2, 0
give the buckets of the days 1, 0, 2; read from the store by the handler they
give the buckets of the days 0, 1, 2. -/
theorem tendenciaPorDia_orden_witness :
    conFechas movimientosTendencia ∧
    (∃ bs, DashboardController.tendenciaPorDia movimientosTendencia = .ok bs ∧
      bs.map (fun b => b.fecha) = primerasVistas (diasDe movimientosTendencia)) ∧
    primerasVistas (diasDe movimientosTendencia) = [1, 0, 2] ∧
    (DashboardController.getTendencias dbTendencias usuarioAdmin none 0).toOption.map
      (fun t => t.tendenciaPorDia.map fun b => b.fecha) = some [0, 1, 2] :=
  ⟨conFechas_movimientosTendencia,
    (tendenciaPorDia_orden movimientosTendencia conFechas_movimientosTendencia).1,
    by decide, by decide⟩

/-! ### Alerts on stocks with a fraction -/

theorem banda_decimal_iff (p : DocDecimal) (f : ℚ → Bool) (P : ℚ → Prop)
    (hf : ∀ q, f q = true ↔ P q) :
    (resolveStockDecimal p != .valor .nulo &&
      (match (resolveStockDecimal p).toNumber with
       | some q => f q
       | none => false)) = true ↔ ∃ q, stockPresenteDecimal p = some q ∧ P q := by
  unfold stockPresenteDecimal
  by_cases h : resolveStockDecimal p = .valor .nulo
  · simp [h]
  · cases hn : (resolveStockDecimal p).toNumber with
    | none => simp [h]
    | some n => simp [h, hf]

theorem campo_aDecimal (d : Doc) (k : String) : d.aDecimal.campo k = .valor (d.campo k) := by
  unfold Doc.aDecimal DocDecimal.campo Doc.campo
  simp only []
  induction d.campos with
  | nil => rfl
  | cons a r ih =>
    obtain ⟨k0, v⟩ := a
    rw [List.map_cons, lookup_cons_si, lookup_cons_si]
    by_cases hk : k = k0
    · rw [if_pos hk, if_pos hk]
    · rw [if_neg hk, if_neg hk]
      exact ih

theorem coalesce_valor (a b : JsVal) :
    (ValorDecimal.valor a).coalesce (.valor b) = .valor (a.coalesce b) := by
  unfold ValorDecimal.coalesce JsVal.coalesce
  show (if a.nullish = true then ValorDecimal.valor b else .valor a) = _
  split_ifs <;> rfl

theorem resolveStock_aDecimal (d : Doc) :
    resolveStockDecimal d.aDecimal = .valor (resolveStock d) := by
  unfold resolveStockDecimal resolveStock resolveStockOr
  rw [campo_aDecimal, campo_aDecimal, campo_aDecimal, coalesce_valor, coalesce_valor,
    coalesce_valor]

theorem banda_aDecimal (d : Doc) (f : ℚ → Bool) (g : Int → Bool)
    (hfg : ∀ n : Int, f (n : ℚ) = g n) :
    (resolveStockDecimal d.aDecimal != .valor .nulo &&
      (match (resolveStockDecimal d.aDecimal).toNumber with
       | some q => f q
       | none => false)) =
    (resolveStock d != .nulo &&
      (match (resolveStock d).toNumber with
       | some n => g n
       | none => false)) := by
  rw [resolveStock_aDecimal]
  have h1 : (ValorDecimal.valor (resolveStock d) != ValorDecimal.valor JsVal.nulo) =
      (resolveStock d != JsVal.nulo) := by
    by_cases h : resolveStock d = .nulo
    · rw [h]
      simp
    · have ha : (ValorDecimal.valor (resolveStock d) != ValorDecimal.valor JsVal.nulo) = true := by
        rw [bne_iff_ne]
        intro e
        exact h (ValorDecimal.valor.inj e)
      have hb : (resolveStock d != JsVal.nulo) = true := by
        rw [bne_iff_ne]
        exact h
      rw [ha, hb]
  rw [h1]
  simp only [ValorDecimal.toNumber]
  cases (resolveStock d).toNumber with
  | none => rfl
  | some n =>
    show (_ && f (n : ℚ)) = (_ && g n)
    rw [hfg]

theorem bandas_aDecimal (d : Doc) :
    DashboardController.esSinStockDecimal d.aDecimal = DashboardController.esSinStock d ∧
    DashboardController.esStockCriticoDecimal d.aDecimal = DashboardController.esStockCritico d ∧
    DashboardController.esStockBajoAlertaDecimal d.aDecimal =
      DashboardController.esStockBajoAlerta d := by
  refine ⟨banda_aDecimal d _ _ (fun n => ?_), banda_aDecimal d _ _ (fun n => ?_),
    banda_aDecimal d _ _ (fun n => ?_)⟩
  · simp
  · have h1 : ((0 : ℚ) < (n : ℚ)) ↔ 0 < n := by exact_mod_cast Iff.rfl
    have h2 : ((n : ℚ) ≤ 2) ↔ n ≤ 2 := by exact_mod_cast Iff.rfl
    simp only [h1, h2]
  · have h1 : ((2 : ℚ) < (n : ℚ)) ↔ 2 < n := by exact_mod_cast Iff.rfl
    have h2 : ((n : ℚ) ≤ 5) ↔ n ≤ 5 := by exact_mod_cast Iff.rfl
    simp only [h1, h2]

theorem ponerDecimal_valor (l : List (String × JsVal)) (k : String) (v : JsVal) :
    ponerDecimal (l.map fun kv => (kv.1, ValorDecimal.valor kv.2)) k (.valor v) =
      (ponerEn l k v).map fun kv => (kv.1, ValorDecimal.valor kv.2) := by
  induction l with
  | nil => rfl
  | cons a r ih =>
    obtain ⟨k0, v0⟩ := a
    by_cases h : k0 = k
    · simp [ponerDecimal, ponerEn, h]
    · simp only [List.map_cons, ponerDecimal, ponerEn, h, if_false]
      rw [ih]

theorem conIdDecimal_aDecimal (e : String × Doc) :
    conIdDecimal (e.1, e.2.aDecimal) = (conId e).aDecimal := by
  have hfold : ∀ (l acc : List (String × JsVal)),
      (l.map fun kv => (kv.1, ValorDecimal.valor kv.2)).foldl
        (fun acc kv => ponerDecimal acc kv.1 kv.2)
        (acc.map fun kv => (kv.1, ValorDecimal.valor kv.2)) =
      ((l.foldl (fun (acc : Doc) kv => acc.poner kv.1 kv.2) ⟨acc⟩).campos).map
        fun kv => (kv.1, ValorDecimal.valor kv.2) := by
    intro l
    induction l with
    | nil => intro acc; rfl
    | cons a r ih =>
      intro acc
      rw [List.map_cons, List.foldl_cons, List.foldl_cons, ponerDecimal_valor]
      exact ih _
  unfold conIdDecimal conId Doc.mezclar Doc.aDecimal
  simp only []
  exact congrArg DocDecimal.mk (hfold e.2.campos [("id", .texto e.1)])

theorem jsSlice_map {α β : Type} (f : α → β) (l : List α) (a b : Int) :
    jsSlice (l.map f) a b = (jsSlice l a b).map f := by
  unfold jsSlice
  simp only [List.length_map, List.map_drop, List.map_take]

theorem getAlertas_aDecimal (db : Db) (user : Doc) :
    DashboardController.getAlertasDecimal (db.productos.map fun e => (e.1, e.2.aDecimal)) user =
      { totalAlertas := (DashboardController.getAlertas db user).totalAlertas,
        sinStock :=
          { count := (DashboardController.getAlertas db user).sinStock.count,
            productos := (DashboardController.getAlertas db user).sinStock.productos.map
              Doc.aDecimal },
        stockCritico :=
          { count := (DashboardController.getAlertas db user).stockCritico.count,
            productos := (DashboardController.getAlertas db user).stockCritico.productos.map
              Doc.aDecimal },
        stockBajo :=
          { count := (DashboardController.getAlertas db user).stockBajo.count,
            productos := (DashboardController.getAlertas db user).stockBajo.productos.map
              Doc.aDecimal } } := by
  have hvis : (if debeFiltrar user then
        ((db.productos.map fun e => (e.1, e.2.aDecimal)).map conIdDecimal).filter fun producto =>
          (producto.campo "area").incluidoEn (user.campo "areasPermitidas")
      else (db.productos.map fun e => (e.1, e.2.aDecimal)).map conIdDecimal) =
      (productosVisibles db user).map Doc.aDecimal := by
    have hmap : (db.productos.map fun e => (e.1, e.2.aDecimal)).map conIdDecimal =
        (db.productos.map conId).map Doc.aDecimal := by
      rw [List.map_map, List.map_map]
      apply List.map_congr_left
      intro e _
      exact conIdDecimal_aDecimal e
    unfold productosVisibles ProductosController.filtroAreas
    rw [hmap]
    split_ifs
    · rw [List.filter_map]
      congr 1
      apply List.filter_congr
      intro d _
      show ((d.aDecimal.campo "area").incluidoEn _) = _
      rw [campo_aDecimal]
      rfl
    · rfl
  have hfil : ∀ (f : DocDecimal → Bool) (g : Doc → Bool), (∀ d, f d.aDecimal = g d) →
      ∀ l : List Doc, (l.map Doc.aDecimal).filter f = (l.filter g).map Doc.aDecimal := by
    intro f g hfg l
    rw [List.filter_map]
    congr 1
    apply List.filter_congr
    intro d _
    exact hfg d
  unfold DashboardController.getAlertasDecimal
  simp only [hvis]
  rw [hfil _ _ (fun d => (bandas_aDecimal d).1), hfil _ _ (fun d => (bandas_aDecimal d).2.1),
    hfil _ _ (fun d => (bandas_aDecimal d).2.2)]
  simp only [List.length_map, jsSlice_map]
  rfl

/-- C13, the code at the failing input: of three products with the stocks 2.5,
0.5 and 3, `getAlertas` puts the first in `stockBajo`, though 2.5 is below 3,
and the second in `stockCritico`, though 0.5 is below 1. For every product the
band `stockCritico` is `0 < stock ≤ 2` and the band `stockBajo` is
`2 < stock ≤ 5`; on products whose values have no fraction the handler is
`getAlertas` as embedded above. -/
theorem alertas_stock_con_fraccion :
    ((DashboardController.getAlertasDecimal productosDecimales usuarioAdmin).stockBajo.productos.map
      fun p => (p.campo "id", stockPresenteDecimal p)) =
      [(.valor (.texto "d1"), some (mkRat 5 2)), (.valor (.texto "d3"), some 3)] ∧
    ((DashboardController.getAlertasDecimal
      productosDecimales usuarioAdmin).stockCritico.productos.map
      fun p => (p.campo "id", stockPresenteDecimal p)) =
      [(.valor (.texto "d2"), some (mkRat 1 2))] ∧
    (mkRat 5 2 : ℚ) = 5 / 2 ∧ (mkRat 1 2 : ℚ) = 1 / 2 ∧
    ¬ ((3 : ℚ) ≤ mkRat 5 2 ∧ mkRat 5 2 ≤ (5 : ℚ)) ∧
    ¬ ((1 : ℚ) ≤ mkRat 1 2 ∧ mkRat 1 2 ≤ (2 : ℚ)) ∧
    (∀ p : DocDecimal, DashboardController.esSinStockDecimal p = true ↔
      ∃ q, stockPresenteDecimal p = some q ∧ q = 0) ∧
    (∀ p : DocDecimal, DashboardController.esStockCriticoDecimal p = true ↔
      ∃ q, stockPresenteDecimal p = some q ∧ 0 < q ∧ q ≤ 2) ∧
    (∀ p : DocDecimal, DashboardController.esStockBajoAlertaDecimal p = true ↔
      ∃ q, stockPresenteDecimal p = some q ∧ 2 < q ∧ q ≤ 5) ∧
    ∀ (db : Db) (user : Doc),
      (DashboardController.getAlertasDecimal
        (db.productos.map fun e => (e.1, e.2.aDecimal)) user).stockCritico.productos =
        (DashboardController.getAlertas db user).stockCritico.productos.map Doc.aDecimal ∧
      (DashboardController.getAlertasDecimal
        (db.productos.map fun e => (e.1, e.2.aDecimal)) user).stockBajo.productos =
        (DashboardController.getAlertas db user).stockBajo.productos.map Doc.aDecimal := by
  refine ⟨by decide, by decide, by norm_num, by norm_num, by decide, by decide, ?_, ?_, ?_, ?_⟩
  · intro p
    exact banda_decimal_iff p (fun q => decide (q = 0)) _ (fun q => by simp)
  · intro p
    exact banda_decimal_iff p (fun q => decide (0 < q) && decide (q ≤ 2)) _ (fun q => by simp)
  · intro p
    exact banda_decimal_iff p (fun q => decide (2 < q) && decide (q ≤ 5)) _ (fun q => by simp)
  · intro db user
    rw [getAlertas_aDecimal]
    exact ⟨rfl, rfl⟩

end Inventario
